import Mathlib

/-!
# CLaxon: the two-level prefix sum and its use in the bucket sort

A shallow embedding of `src/frnn/prefix_sum.c`, of the sort drivers of
`src/frnn/frnn.c` and `src/ndt/ndt.c`, and of the file readers and the option
parser of `src/lib/csv.c` and `src/lib/opencl.c`.

## Machine model

The embedding follows the 32-bit configuration of `prefix_sum.c`: the `#else`
branch of the `clz` macro (`__builtin_clz` on a 32-bit word, which is what the
constant `31` of `next_pot` is written for), with `size_t`, `unsigned int` and
`int` all 32 bits wide.  Values are natural numbers and every `size_t`
operation is reduced modulo `2 ^ 32` explicitly.  Two points that C leaves
undefined are given the value they take on x86 builds of the program:
`__builtin_clz(0)` is `31`, and the shift `1 << 32` takes its count modulo 32,
so that it is `1`.  They are reached only by `next_pot 1` (which is then `2`)
and by `next_pot 0` and arguments above `2 ^ 31` (which then give `1`); for
`2 ≤ n ≤ 2 ^ 31` the value of `next_pot n` does not depend on them.

OpenCL calls are external: their outcomes are read from a `Device` record, and
a run of a host function is the list of the calls it makes together with the
value it returns.
-/

namespace CLaxon

/-! ## `size_t` arithmetic -/

/-- Sum of two `size_t` values. -/
def size_add (a b : Nat) : Nat := (a + b) % 2 ^ 32

/-- Difference of two `size_t` values, wrapping below zero. -/
def size_sub (a b : Nat) : Nat := (a + (2 ^ 32 - b % 2 ^ 32)) % 2 ^ 32

/-- Product of two `size_t` values. -/
def size_mul (a b : Nat) : Nat := (a * b) % 2 ^ 32

/-- Size in bytes of `unsigned int`, `int`, `float` and `cl_uint`. -/
def sizeof_uint : Nat := 4

/-! ## `next_pot` and `prefix_sum_elems_ceil` (prefix_sum.c, lines 33-65) -/

/-- Leading zero bits of `x` among the low `width` bit positions, scanning from
the most significant position down. -/
def clz_scan : Nat → Nat → Nat
  | 0, _ => 0
  | width + 1, x => if 2 ^ width ≤ x then 0 else 1 + clz_scan width x

/-- The `clz` macro: `__builtin_clz` on a 32-bit word.  The result for the zero
word, which C leaves undefined, is `31`. -/
def clz (x : Nat) : Nat :=
  if x % 2 ^ 32 = 0 then 31 else clz_scan 32 (x % 2 ^ 32)

/-- Next power-of-two:
`int msb = 31 - clz(in - 1); return 1 << (msb + 1);`.  The shift count is
taken modulo 32, which matters only for the count 32, undefined in C. -/
def next_pot (n : Nat) : Nat :=
  let msb : Int := 31 - (clz (size_sub n 1) : Int)
  (1 <<< ((msb + 1).toNat % 32)) % 2 ^ 32

/-- The padded element count and the work-group count (the value stored through
`wgs`) computed by `prefix_sum_elems_ceil`; `wg_size` is the result of
`opencl_max_workgroup_size()`.  A zero `wg_size` divides by zero in C; here the
quotient is then `0`. -/
def prefix_sum_elems_ceil (wg_size elems : Nat) : Nat × Nat :=
  let work_groups := size_sub (size_add (elems / 2) wg_size) 1 / wg_size
  let elems_ceil :=
    if work_groups > 1 then size_mul (size_mul 2 work_groups) wg_size
    else next_pot elems
  (elems_ceil, work_groups)

/-! ## The OpenCL boundary -/

/-- Kernels the host code creates by name with `clCreateKernel`. -/
inductive Kernel
  | prefix_sum
  | prefix_sum_post
  | kernel_ins_cnt
  | kernel_reindex
  deriving DecidableEq, Repr

/-- Device buffers: `data` is the buffer handed in by the caller, the others
are created by `clCreateBuffer` in `prefix_sum`, `frnn_sort` and `ndt_sort`. -/
inductive Buffer
  | data
  | in_bin
  | bin_elems
  | bin_idx
  | sorted
  | scan_out
  | scan_incr
  deriving DecidableEq, Repr

/-- A `cl_mem` handle: `NULL`, the sentinel `(cl_mem)-1`, or a buffer. -/
inductive cl_mem
  | null
  | minus_one
  | obj (b : Buffer)
  deriving DecidableEq, Repr

/-- The places where the host code binds arguments and enqueues a kernel. -/
inductive Site
  | block_scan
  | sums_scan
  | carry
  | ins_cnt
  | reindex
  deriving DecidableEq, Repr

/-- Diagnostics printed by the host code. -/
inductive Msg
  | no_scan_kernel
  | exceeds_limits
  | no_incr_buffer
  | no_post_kernel
  | no_out_buffer
  | args_not_set
  | not_enqueued
  | no_kernel
  | no_buffer
  | no_reordered_buffer
  deriving DecidableEq, Repr

/-- One call across the OpenCL boundary (or one diagnostic), with its outcome
where it has one that matters: the host code looks at the outcome of every
such call but `clEnqueueFillBuffer`, whose result it discards. -/
inductive Call
  | compile_program
  | create_kernel (k : Kernel) (ok : Bool)
  | create_buffer (b : Buffer) (bytes : Nat) (ok : Bool)
  | fill_buffer (m : cl_mem) (bytes : Nat) (ok : Bool)
  | set_kernel_args (s : Site) (args : List cl_mem) (ok : Bool)
  | enqueue (s : Site) (k : Kernel) (args : List cl_mem) (global : Nat)
      (loc : Option Nat) (ok : Bool)
  | finish
  | read_buffer (m : cl_mem) (offset : Nat)
  | release_event
  | release_kernel (k : Kernel)
  | release_mem (m : cl_mem)
  | release_program
  | print (m : Msg)
  deriving DecidableEq, Repr

/-- Answers of the OpenCL runtime: the device limit returned by
`opencl_max_workgroup_size()` and, per call, whether it reports `CL_SUCCESS`. -/
structure Device where
  max_workgroup_size : Nat
  create_kernel : Kernel → Bool
  create_buffer : Buffer → Nat → Bool
  set_kernel_args : Site → List cl_mem → Bool
  enqueue : Site → Nat → Option Nat → Bool
  fill_buffer : cl_mem → Nat → Bool
  read_uint : cl_mem → Nat → Nat

/-- What a host function did: the value it returned and its calls in order. -/
structure Run where
  ret : cl_mem
  calls : List Call
  deriving DecidableEq, Repr

/-- Whether a call is a kernel dispatch (`clEnqueueNDRangeKernel`). -/
def Call.is_dispatch : Call → Bool
  | .enqueue _ _ _ _ _ _ => true
  | _ => false

/-- The kernel dispatches of a run, in order. -/
def Run.dispatches (r : Run) : List Call := r.calls.filter Call.is_dispatch

/-- The site of a kernel dispatch; `none` for every other call. -/
def Call.site : Call → Option Site
  | .enqueue s _ _ _ _ _ => some s
  | _ => none

/-- The sites of the kernel dispatches of a run, in order. -/
def Run.sites (r : Run) : List Site := r.calls.filterMap Call.site

/-- The runtime creates every kernel and buffer and binds every argument; the
outcome of the dispatches is left open. -/
def Device.resources_ok (dev : Device) : Prop :=
  (∀ k, dev.create_kernel k = true) ∧ (∀ b n, dev.create_buffer b n = true) ∧
  (∀ s a, dev.set_kernel_args s a = true)

/-! ## `do_prefix_sum`, `do_prefix_sum_post`, `prefix_sum` (prefix_sum.c, lines 67-234) -/

/-- The timing epilogue of a dispatch helper: `clFinish`, then the event is
read and released, when `time` is non-null. -/
def timing (time : Bool) : List Call :=
  if time then [Call.finish, Call.release_event] else []

/-- Result (`0` or `-1`) and calls of `do_prefix_sum`. -/
def do_prefix_sum (dev : Device) (s : Site) (work_group_size work_items : Nat)
    (inp out incr : cl_mem) (time : Bool) : Int × List Call :=
  let args := [inp, out, incr]
  if dev.set_kernel_args s args = false then
    (-1, [Call.set_kernel_args s args false, Call.print Msg.args_not_set])
  else if dev.enqueue s work_items (some work_group_size) = false then
    (-1, [Call.set_kernel_args s args true,
          Call.enqueue s Kernel.prefix_sum args work_items (some work_group_size) false,
          Call.print Msg.not_enqueued])
  else
    (0, [Call.set_kernel_args s args true,
         Call.enqueue s Kernel.prefix_sum args work_items (some work_group_size) true]
        ++ timing time)

/-- Result (`0` or `-1`) and calls of `do_prefix_sum_post`; the global size is
`work_items - (2 * work_group_size)`. -/
def do_prefix_sum_post (dev : Device) (work_group_size work_items : Nat)
    (data incr : cl_mem) (time : Bool) : Int × List Call :=
  let args := [data, incr]
  let dims_g := size_sub work_items (size_mul 2 work_group_size)
  if dev.set_kernel_args Site.carry args = false then
    (-1, [Call.set_kernel_args Site.carry args false, Call.print Msg.args_not_set])
  else if dev.enqueue Site.carry dims_g (some work_group_size) = false then
    (-1, [Call.set_kernel_args Site.carry args true,
          Call.enqueue Site.carry Kernel.prefix_sum_post args dims_g (some work_group_size) false,
          Call.print Msg.not_enqueued])
  else
    (0, [Call.set_kernel_args Site.carry args true,
         Call.enqueue Site.carry Kernel.prefix_sum_post args dims_g (some work_group_size) true]
        ++ timing time)

/-- The `error:` label of `prefix_sum`: the scan kernel is released, then the
post kernel and the increment buffer when they are non-null, then the
program. -/
def tear_down (k_prefix_sum_post : Bool) (incr : cl_mem) : List Call :=
  [Call.release_kernel Kernel.prefix_sum]
  ++ (if k_prefix_sum_post then [Call.release_kernel Kernel.prefix_sum_post] else [])
  ++ (if incr = cl_mem.null then [] else [Call.release_mem incr])
  ++ [Call.release_program]

/-- Lines 204-233 of `prefix_sum`: the output buffer, the dispatches and the
tear-down.  The results of `do_prefix_sum` and `do_prefix_sum_post` are not
looked at. -/
def prefix_sum_dispatch (dev : Device) (inp : cl_mem) (time : Bool)
    (wg_size work_items work_groups incrs : Nat) (incr : cl_mem)
    (k_prefix_sum_post : Bool) : Run :=
  let bytes := size_mul work_items sizeof_uint
  if dev.create_buffer Buffer.scan_out bytes = false then
    { ret := cl_mem.minus_one
      calls := [Call.create_buffer Buffer.scan_out bytes false, Call.print Msg.no_out_buffer]
        ++ tear_down k_prefix_sum_post incr }
  else
    let out := cl_mem.obj Buffer.scan_out
    let first := do_prefix_sum dev Site.block_scan wg_size (work_items / 2) inp out incr time
    let rest :=
      if work_groups > 1 then
        (do_prefix_sum dev Site.sums_scan (incrs / 2) (incrs / 2) incr incr cl_mem.null time).2
        ++ (do_prefix_sum_post dev wg_size work_items out incr time).2
      else []
    { ret := out
      calls := [Call.create_buffer Buffer.scan_out bytes true] ++ first.2 ++ rest
        ++ tear_down k_prefix_sum_post incr }

/-- Prefix sum (scan) on `elems` entries of `inp`; `time` tells whether the
caller passed a non-null `time` pointer. -/
def prefix_sum (dev : Device) (inp : cl_mem) (elems : Nat) (time : Bool) : Run :=
  let wg_size := dev.max_workgroup_size
  if dev.create_kernel Kernel.prefix_sum = false then
    { ret := cl_mem.minus_one
      calls := [Call.compile_program, Call.create_kernel Kernel.prefix_sum false,
                Call.print Msg.no_scan_kernel] }
  else
    let pre := [Call.compile_program, Call.create_kernel Kernel.prefix_sum true]
    let work_items := (prefix_sum_elems_ceil wg_size elems).1
    let work_groups := (prefix_sum_elems_ceil wg_size elems).2
    if work_groups > 1 then
      let incrs := next_pot work_groups
      if incrs > wg_size then
        { ret := cl_mem.minus_one
          calls := pre ++ [Call.print Msg.exceeds_limits] ++ tear_down false cl_mem.null }
      else
        let incr_bytes := size_mul incrs sizeof_uint
        if dev.create_buffer Buffer.scan_incr incr_bytes = false then
          { ret := cl_mem.minus_one
            calls := pre ++ [Call.create_buffer Buffer.scan_incr incr_bytes false,
                             Call.print Msg.no_incr_buffer]
              ++ tear_down false cl_mem.null }
        else
          let incr := cl_mem.obj Buffer.scan_incr
          let pre := pre ++ [Call.create_buffer Buffer.scan_incr incr_bytes true]
          if dev.create_kernel Kernel.prefix_sum_post = false then
            { ret := cl_mem.minus_one
              calls := pre ++ [Call.create_kernel Kernel.prefix_sum_post false,
                               Call.print Msg.no_post_kernel]
                ++ tear_down false incr }
          else
            let r := prefix_sum_dispatch dev inp time wg_size work_items work_groups incrs
              incr true
            { ret := r.ret
              calls := pre ++ [Call.create_kernel Kernel.prefix_sum_post true] ++ r.calls }
    else
      let r := prefix_sum_dispatch dev inp time (work_items / 2) work_items work_groups 0
        cl_mem.null false
      { ret := r.ret, calls := pre ++ r.calls }

/-! ## The sort drivers: `frnn_sort` (frnn.c, lines 62-191) and `ndt_sort` (ndt.c, lines 76-227)

`bins_dim` is a `cl_float` constant (`100.0f` in frnn.c, `40.0f` in ndt.c); its
cube is an integer that `float` represents exactly, so the conversions to
`size_t` and `unsigned int` are the natural numbers below.  The `time_ns`
pointer only adds prints and is left out; `prefix_sum` always receives the
non-null `&t`. -/

/-- The constant `bins_dim` of frnn.c. -/
def frnn_bins_dim : Nat := 100

/-- The constant `bins_dim` of ndt.c. -/
def ndt_bins_dim : Nat := 40

/-- What a sort driver did: the value it returned, the handles it stored through
`bin_elems` and `bin_prefix` (`none` while nothing was stored) and its calls in
order. -/
structure SortRun where
  ret : cl_mem
  bin_elems : Option cl_mem
  bin_prefix : Option cl_mem
  calls : List Call
  deriving DecidableEq, Repr

/-- The sites of the kernel dispatches of a sort run, in order. -/
def SortRun.sites (r : SortRun) : List Site := r.calls.filterMap Call.site

/-- The sort of frnn.c: count per bin, scan the counts, scatter. -/
def frnn_sort (dev : Device) (elems : Nat) (inp : cl_mem) : SortRun :=
  if dev.create_kernel Kernel.kernel_ins_cnt = false then
    { ret := cl_mem.null, bin_elems := none, bin_prefix := none
      calls := [Call.create_kernel Kernel.kernel_ins_cnt false, Call.print Msg.no_kernel] }
  else
    let c1 := [Call.create_kernel Kernel.kernel_ins_cnt true]
    let in_bin_bytes := size_mul elems sizeof_uint
    if dev.create_buffer Buffer.in_bin in_bin_bytes = false then
      { ret := cl_mem.null, bin_elems := none, bin_prefix := none
        calls := c1 ++ [Call.create_buffer Buffer.in_bin in_bin_bytes false,
                        Call.print Msg.no_buffer] }
    else
      let in_bin := cl_mem.obj Buffer.in_bin
      let c2 := c1 ++ [Call.create_buffer Buffer.in_bin in_bin_bytes true]
      let bins := (prefix_sum_elems_ceil dev.max_workgroup_size
        (frnn_bins_dim * frnn_bins_dim * frnn_bins_dim)).1
      let bins_bytes := size_mul bins sizeof_uint
      if dev.create_buffer Buffer.bin_elems bins_bytes = false then
        { ret := cl_mem.null, bin_elems := some cl_mem.null, bin_prefix := none
          calls := c2 ++ [Call.create_buffer Buffer.bin_elems bins_bytes false,
                          Call.print Msg.no_buffer] }
      else
        let bin_elems := cl_mem.obj Buffer.bin_elems
        let c3 := c2 ++ [Call.create_buffer Buffer.bin_elems bins_bytes true,
                         Call.fill_buffer bin_elems bins_bytes
                           (dev.fill_buffer bin_elems bins_bytes)]
        let args1 := [inp, in_bin, bin_elems]
        if dev.set_kernel_args Site.ins_cnt args1 = false then
          { ret := cl_mem.null, bin_elems := some bin_elems, bin_prefix := none
            calls := c3 ++ [Call.set_kernel_args Site.ins_cnt args1 false,
                            Call.print Msg.args_not_set] }
        else if dev.enqueue Site.ins_cnt elems none = false then
          { ret := cl_mem.null, bin_elems := some bin_elems, bin_prefix := none
            calls := c3 ++ [Call.set_kernel_args Site.ins_cnt args1 true,
                            Call.enqueue Site.ins_cnt Kernel.kernel_ins_cnt args1 elems none false,
                            Call.print Msg.not_enqueued] }
        else
          let scan := prefix_sum dev bin_elems bins true
          let bin_prefix := scan.ret
          let c4 := c3 ++ [Call.set_kernel_args Site.ins_cnt args1 true,
                           Call.enqueue Site.ins_cnt Kernel.kernel_ins_cnt args1 elems none true,
                           Call.finish, Call.release_event] ++ scan.calls
          if dev.create_kernel Kernel.kernel_reindex = false then
            { ret := cl_mem.null, bin_elems := some bin_elems, bin_prefix := some bin_prefix
              calls := c4 ++ [Call.create_kernel Kernel.kernel_reindex false,
                              Call.print Msg.no_kernel] }
          else if dev.create_buffer Buffer.bin_idx bins_bytes = false then
            { ret := cl_mem.null, bin_elems := some bin_elems, bin_prefix := some bin_prefix
              calls := c4 ++ [Call.create_kernel Kernel.kernel_reindex true,
                              Call.create_buffer Buffer.bin_idx bins_bytes false,
                              Call.print Msg.no_buffer] }
          else
            let bin_idx := cl_mem.obj Buffer.bin_idx
            let c5 := c4 ++ [Call.create_kernel Kernel.kernel_reindex true,
                             Call.create_buffer Buffer.bin_idx bins_bytes true,
                             Call.fill_buffer bin_idx bins_bytes
                               (dev.fill_buffer bin_idx bins_bytes)]
            let out_bytes := size_mul (size_mul 3 elems) sizeof_uint
            if dev.create_buffer Buffer.sorted out_bytes = false then
              { ret := cl_mem.null, bin_elems := some bin_elems, bin_prefix := some bin_prefix
                calls := c5 ++ [Call.create_buffer Buffer.sorted out_bytes false,
                                Call.print Msg.no_reordered_buffer] }
            else
              let out := cl_mem.obj Buffer.sorted
              let c6 := c5 ++ [Call.create_buffer Buffer.sorted out_bytes true]
              let args2 := [inp, out, in_bin, bin_prefix, bin_idx]
              if dev.set_kernel_args Site.reindex args2 = false then
                { ret := cl_mem.null, bin_elems := some bin_elems, bin_prefix := some bin_prefix
                  calls := c6 ++ [Call.set_kernel_args Site.reindex args2 false,
                                  Call.print Msg.args_not_set] }
              else if dev.enqueue Site.reindex elems none = false then
                { ret := cl_mem.null, bin_elems := some bin_elems, bin_prefix := some bin_prefix
                  calls := c6 ++ [Call.set_kernel_args Site.reindex args2 true,
                                  Call.enqueue Site.reindex Kernel.kernel_reindex args2 elems none
                                    false,
                                  Call.print Msg.not_enqueued] }
              else
                { ret := out, bin_elems := some bin_elems, bin_prefix := some bin_prefix
                  calls := c6 ++ [Call.set_kernel_args Site.reindex args2 true,
                                  Call.enqueue Site.reindex Kernel.kernel_reindex args2 elems none
                                    true,
                                  Call.finish, Call.release_event,
                                  Call.release_mem bin_idx, Call.release_mem in_bin,
                                  Call.release_kernel Kernel.kernel_ins_cnt,
                                  Call.release_kernel Kernel.kernel_reindex] }

/-- Value and calls of `sorted_entries` (ndt.c): the entries of `bin_prefix` and
`bin_elems` at the last bin are read back and added as `unsigned int`. -/
def sorted_entries (dev : Device) (bin_elems bin_prefix : cl_mem) : Nat × List Call :=
  let last_bin := ndt_bins_dim * ndt_bins_dim * ndt_bins_dim - 1
  let prefix_val := dev.read_uint bin_prefix last_bin
  let count := dev.read_uint bin_elems last_bin
  ((prefix_val + count) % 2 ^ 32,
   [Call.read_buffer bin_prefix (sizeof_uint * last_bin),
    Call.read_buffer bin_elems (sizeof_uint * last_bin)])

/-- The sort of ndt.c: as `frnn_sort`, with the number of sorted entries read
back after the scan to size the output buffer. -/
def ndt_sort (dev : Device) (elems : Nat) (inp : cl_mem) : SortRun :=
  if dev.create_kernel Kernel.kernel_ins_cnt = false then
    { ret := cl_mem.null, bin_elems := none, bin_prefix := none
      calls := [Call.create_kernel Kernel.kernel_ins_cnt false, Call.print Msg.no_kernel] }
  else
    let c1 := [Call.create_kernel Kernel.kernel_ins_cnt true]
    let in_bin_bytes := size_mul elems sizeof_uint
    if dev.create_buffer Buffer.in_bin in_bin_bytes = false then
      { ret := cl_mem.null, bin_elems := none, bin_prefix := none
        calls := c1 ++ [Call.create_buffer Buffer.in_bin in_bin_bytes false,
                        Call.print Msg.no_buffer] }
    else
      let in_bin := cl_mem.obj Buffer.in_bin
      let c2 := c1 ++ [Call.create_buffer Buffer.in_bin in_bin_bytes true]
      let bins := (prefix_sum_elems_ceil dev.max_workgroup_size
        (ndt_bins_dim * ndt_bins_dim * ndt_bins_dim)).1
      let bins_bytes := size_mul bins sizeof_uint
      if dev.create_buffer Buffer.bin_elems bins_bytes = false then
        { ret := cl_mem.null, bin_elems := some cl_mem.null, bin_prefix := none
          calls := c2 ++ [Call.create_buffer Buffer.bin_elems bins_bytes false,
                          Call.print Msg.no_buffer] }
      else
        let bin_elems := cl_mem.obj Buffer.bin_elems
        let c3 := c2 ++ [Call.create_buffer Buffer.bin_elems bins_bytes true,
                         Call.fill_buffer bin_elems bins_bytes
                           (dev.fill_buffer bin_elems bins_bytes)]
        let args1 := [inp, in_bin, bin_elems]
        if dev.set_kernel_args Site.ins_cnt args1 = false then
          { ret := cl_mem.null, bin_elems := some bin_elems, bin_prefix := none
            calls := c3 ++ [Call.set_kernel_args Site.ins_cnt args1 false,
                            Call.print Msg.args_not_set] }
        else if dev.enqueue Site.ins_cnt elems none = false then
          { ret := cl_mem.null, bin_elems := some bin_elems, bin_prefix := none
            calls := c3 ++ [Call.set_kernel_args Site.ins_cnt args1 true,
                            Call.enqueue Site.ins_cnt Kernel.kernel_ins_cnt args1 elems none false,
                            Call.print Msg.not_enqueued] }
        else
          let scan := prefix_sum dev bin_elems bins true
          let bin_prefix := scan.ret
          let sorted_elems := sorted_entries dev bin_elems bin_prefix
          let c4 := c3 ++ [Call.set_kernel_args Site.ins_cnt args1 true,
                           Call.enqueue Site.ins_cnt Kernel.kernel_ins_cnt args1 elems none true,
                           Call.finish, Call.release_event] ++ scan.calls ++ sorted_elems.2
          if dev.create_kernel Kernel.kernel_reindex = false then
            { ret := cl_mem.null, bin_elems := some bin_elems, bin_prefix := some bin_prefix
              calls := c4 ++ [Call.create_kernel Kernel.kernel_reindex false,
                              Call.print Msg.no_kernel] }
          else if dev.create_buffer Buffer.bin_idx bins_bytes = false then
            { ret := cl_mem.null, bin_elems := some bin_elems, bin_prefix := some bin_prefix
              calls := c4 ++ [Call.create_kernel Kernel.kernel_reindex true,
                              Call.create_buffer Buffer.bin_idx bins_bytes false,
                              Call.print Msg.no_buffer] }
          else
            let bin_idx := cl_mem.obj Buffer.bin_idx
            let c5 := c4 ++ [Call.create_kernel Kernel.kernel_reindex true,
                             Call.create_buffer Buffer.bin_idx bins_bytes true,
                             Call.fill_buffer bin_idx bins_bytes
                               (dev.fill_buffer bin_idx bins_bytes)]
            let out_bytes := size_mul (size_mul 3 sorted_elems.1) sizeof_uint
            if dev.create_buffer Buffer.sorted out_bytes = false then
              { ret := cl_mem.null, bin_elems := some bin_elems, bin_prefix := some bin_prefix
                calls := c5 ++ [Call.create_buffer Buffer.sorted out_bytes false,
                                Call.print Msg.no_reordered_buffer] }
            else
              let out := cl_mem.obj Buffer.sorted
              let c6 := c5 ++ [Call.create_buffer Buffer.sorted out_bytes true]
              let args2 := [inp, out, in_bin, bin_prefix, bin_idx]
              if dev.set_kernel_args Site.reindex args2 = false then
                { ret := cl_mem.null, bin_elems := some bin_elems, bin_prefix := some bin_prefix
                  calls := c6 ++ [Call.set_kernel_args Site.reindex args2 false,
                                  Call.print Msg.args_not_set] }
              else if dev.enqueue Site.reindex elems none = false then
                { ret := cl_mem.null, bin_elems := some bin_elems, bin_prefix := some bin_prefix
                  calls := c6 ++ [Call.set_kernel_args Site.reindex args2 true,
                                  Call.enqueue Site.reindex Kernel.kernel_reindex args2 elems none
                                    false,
                                  Call.print Msg.not_enqueued] }
              else
                { ret := out, bin_elems := some bin_elems, bin_prefix := some bin_prefix
                  calls := c6 ++ [Call.set_kernel_args Site.reindex args2 true,
                                  Call.enqueue Site.reindex Kernel.kernel_reindex args2 elems none
                                    true,
                                  Call.finish, Call.release_event,
                                  Call.release_mem bin_idx, Call.release_mem in_bin,
                                  Call.release_kernel Kernel.kernel_ins_cnt,
                                  Call.release_kernel Kernel.kernel_reindex] }

/-! ## Device memory and the scan kernels

The kernels of `src/frnn/prefix_sum.cl` are not among the sources; they are
modelled from §4.1 and §4.3 of the specification.  A buffer is the function
from indices to the values it holds; what lies past the end of a buffer, and
what a new buffer holds, is whatever the memory held before. -/

/-- Contents of the device buffers. -/
def Mem : Type := Buffer → Nat → Nat

/-- The sum `f lo + f (lo + 1) + ... + f (lo + n - 1)`. -/
def sum_range (f : Nat → Nat) (lo : Nat) : Nat → Nat
  | 0 => 0
  | n + 1 => sum_range f lo n + f (lo + n)

/-- Modelled from the spec: the kernel `prefix_sum` of `src/frnn/prefix_sum.cl`
(BlockScan, §4.1 and stage 1 of §4.3).  A dispatch of `global` work-items in
work-groups of `loc` work-items runs `global / loc` work-groups; each
work-item handles two elements, so each work-group scans one block of
`2 * loc` elements of `inp`: it writes the exclusive prefix sum within the
block to `out` and, when a block-sums array is bound, the block total to the
entry of its block. -/
def kernel_prefix_sum (mem : Mem) (inp out : Buffer) (incr : Option Buffer)
    (global loc : Nat) : Mem :=
  let groups := global / loc
  let block := 2 * loc
  let scanned : Mem := fun b i =>
    if b = out ∧ i < groups * block then sum_range (mem inp) (i / block * block) (i % block)
    else mem b i
  match incr with
  | none => scanned
  | some sums => fun b i =>
    if b = sums ∧ i < groups then sum_range (mem inp) (i * block) block else scanned b i

/-- Modelled from the spec: the kernel `prefix_sum_post` of
`src/frnn/prefix_sum.cl` (CarryPropagation, stage 3 of §4.3).  The host
dispatches one work-item for each element past the first block, in work-groups
of `loc` work-items; the work-item of element `i` adds the scanned carry of the
block of `i`, a block being `2 * loc` elements. -/
def kernel_prefix_sum_post (mem : Mem) (out incr : Buffer) (global loc : Nat) : Mem :=
  fun b i =>
    if b = out ∧ 2 * loc ≤ i ∧ i < 2 * loc + global then
      mem out i + mem incr (i / (2 * loc))
    else mem b i

/-- The buffer behind a handle, if it is one. -/
def cl_mem.buffer : cl_mem → Option Buffer
  | .obj b => some b
  | _ => none

/-- Effect of one call on the device memory: an accepted dispatch of a scan
kernel runs it and a `clEnqueueFillBuffer` that succeeds (it is always called
with the pattern `zero`) clears the entries it covers.  The kernels of frnn.cl are not run here:
a dispatch of one of them leaves this memory as it is, so `exec` tells the
contents of a buffer up to the first such dispatch that is given the buffer. -/
def exec_call (mem : Mem) : Call → Mem
  | .enqueue _ Kernel.prefix_sum [cl_mem.obj inp, cl_mem.obj out, incr] global (some loc) true =>
    kernel_prefix_sum mem inp out incr.buffer global loc
  | .enqueue _ Kernel.prefix_sum_post [cl_mem.obj out, cl_mem.obj incr] global (some loc) true =>
    kernel_prefix_sum_post mem out incr global loc
  | .fill_buffer (cl_mem.obj b) bytes true => fun b' i =>
    if b' = b ∧ i < bytes / sizeof_uint then 0 else mem b' i
  | _ => mem

/-- Device memory after the calls of a run. -/
def exec (mem : Mem) (calls : List Call) : Mem := calls.foldl exec_call mem

/-! ## Devices used in the examples -/

/-- A device with maximum work-group size `W` whose runtime reports success for
every call and holds zeros in every buffer. -/
def Device.all_ok (W : Nat) : Device where
  max_workgroup_size := W
  create_kernel := fun _ => true
  create_buffer := fun _ _ => true
  set_kernel_args := fun _ _ => true
  enqueue := fun _ _ _ => true
  fill_buffer := fun _ _ => true
  read_uint := fun _ _ => 0

/-- As `Device.all_ok`, except that the runtime rejects every dispatch at site `s`. -/
def Device.rejecting (W : Nat) (s : Site) : Device where
  max_workgroup_size := W
  create_kernel := fun _ => true
  create_buffer := fun _ _ => true
  set_kernel_args := fun _ _ => true
  enqueue := fun s' _ _ => decide (s' ≠ s)
  fill_buffer := fun _ _ => true
  read_uint := fun _ _ => 0

/-- A device with maximum work-group size `W` whose runtime checks the sizes of
a dispatch the way `clEnqueueNDRangeKernel` specifies them (sizes not zero,
work-group size within the device limit and dividing the global size) and
reports success for every other call. -/
def Device.checking (W : Nat) : Device where
  max_workgroup_size := W
  create_kernel := fun _ => true
  create_buffer := fun _ _ => true
  set_kernel_args := fun _ _ => true
  enqueue := fun _ g l =>
    match l with
    | some l => decide (0 < l ∧ l ≤ W ∧ 0 < g ∧ g % l = 0)
    | none => decide (0 < g)
  fill_buffer := fun _ _ => true
  read_uint := fun _ _ => 0

/-- As `Device.all_ok`, except that every `clEnqueueFillBuffer` fails. -/
def Device.no_fill (W : Nat) : Device where
  max_workgroup_size := W
  create_kernel := fun _ => true
  create_buffer := fun _ _ => true
  set_kernel_args := fun _ _ => true
  enqueue := fun _ _ _ => true
  fill_buffer := fun _ _ => false
  read_uint := fun _ _ => 0

/-- Device memory with the value `1` in every entry of `data` and `0` elsewhere. -/
def Mem.ones : Mem := fun b _ => if b = Buffer.data then 1 else 0

/-- Whether a call reported a failure to the host code. -/
def Call.failed : Call → Bool
  | .create_kernel _ ok => !ok
  | .create_buffer _ _ ok => !ok
  | .fill_buffer _ _ ok => !ok
  | .set_kernel_args _ _ ok => !ok
  | .enqueue _ _ _ _ _ ok => !ok
  | _ => false

/-- The scan accepted its input: it returned a buffer and no call failed. -/
def Run.accepted (r : Run) : Bool :=
  decide (r.ret ≠ cl_mem.minus_one) && r.calls.all (fun c => !c.failed)

/-- The first `n` entries of the buffer `b`. -/
def Mem.read (mem : Mem) (b : Buffer) (n : Nat) : List Nat := (List.range n).map (mem b)

/-! ## Reading a run: what precedes a dispatch, and what follows it -/

/-- Whether a call is a dispatch that the runtime accepted. -/
def Call.accepted_dispatch : Call → Bool
  | .enqueue _ _ _ _ _ ok => ok
  | _ => false

/-- Every accepted dispatch is directly followed by `clFinish`: the host waits
for the kernel to complete before it makes any other call. -/
def waits_after_dispatch : List Call → Bool
  | [] => true
  | c :: cs => (!c.accepted_dispatch || cs.head? == some Call.finish) && waits_after_dispatch cs

/-! ## Fixture for `sorted_entries`: a device whose buffers hold given counts -/

/-- A device as `Device.all_ok 256` on which the buffer `bin_elems` holds
`counts` and the scan output holds `offsets`. -/
def Device.holding (counts offsets : Nat → Nat) : Device where
  max_workgroup_size := 256
  create_kernel := fun _ => true
  create_buffer := fun _ _ => true
  set_kernel_args := fun _ _ => true
  enqueue := fun _ _ _ => true
  fill_buffer := fun _ _ => true
  read_uint := fun m i =>
    if m = cl_mem.obj Buffer.bin_elems then counts i
    else if m = cl_mem.obj Buffer.scan_out then offsets i
    else 0

/-- Counts of five points: two in bin 63998 and three in the last real bin of
the 40^3 grid. -/
def counts_five (i : Nat) : Nat := if i = 63998 then 2 else if i = 63999 then 3 else 0

/-- The exclusive prefix sum of `counts_five` over the real bins. -/
def offsets_five (i : Nat) : Nat := if i = 63999 then 2 else 0

/-! ## The scatter pass of the counting sort (frnn.cl) -/

/-- Modelled from the spec: the counting kernel `kernel_ins_cnt` of
`src/frnn/frnn.cl` (SpatialBinner, §4.4), which is not among the sources.
`BinCounts[b]` is the number of points whose bin id is `b`; `bins` lists the
bin id of every point. -/
def bin_counts (bins : List Nat) (b : Nat) : Nat := bins.count b

/-- Modelled from the spec: `BinOffsets`, the exclusive prefix sum of
`BinCounts` (§3): `BinOffsets[0] = 0`, `BinOffsets[i+1] = BinOffsets[i] +
BinCounts[i]`. -/
def bin_offsets (bins : List Nat) (b : Nat) : Nat := sum_range (bin_counts bins) 0 b

/-- Modelled from the spec: the scatter kernel `kernel_reindex` of
`src/frnn/frnn.cl` (CountingSortScatter, §4.5), which is not among the sources.
The points are taken in the order of the list (any order is some list): each
fetches and increments `Cursor[bin]` to get its local rank, and its
destination is `BinOffsets[bin] + localRank`.  The result lists the
destination of every point, in the order of the points. -/
def scatter (offsets : Nat → Nat) : (Nat → Nat) → List Nat → List Nat
  | _, [] => []
  | cursor, b :: rest =>
    (offsets b + cursor b) ::
      scatter offsets (fun c => if c = b then cursor c + 1 else cursor c) rest

/-! ## `bin_file_read` and `csv_file_read_float_n` (lib/csv.c) -/

/-- The value of `EINVAL` in `<errno.h>`. -/
def EINVAL : Int := 22

/-- The value of `ENOSYS` in `<errno.h>`. -/
def ENOSYS : Int := 38

/-- The value of `EIO` in `<errno.h>`. -/
def EIO : Int := 5

/-- Conversion of an `int` to `bool` on return from a function of type `bool`:
non-zero is `true`. -/
def int_to_bool (x : Int) : Bool := decide (x ≠ 0)

/-- The number of words `fread(buf, sizeof(int), n, fp)` reads from a file that
holds `words`: `n`, or all the words of the file when it has fewer. -/
def fread (words : List Nat) (n : Nat) : List Nat := words.take n

/-- Result and buffer of `bin_file_read` (csv.c, lines 200-223). `malloc_ok`
tells whether the allocation succeeds, `file` is `none` when the file cannot
be opened and the words it holds otherwise. -/
def bin_file_read (malloc_ok : Bool) (file : Option (List Nat)) (n : Nat) :
    Bool × Option (List Nat) :=
  if malloc_ok = false then
    (int_to_bool (-1), none)
  else
    match file with
    | none => (int_to_bool (-EINVAL), some [])
    | some words =>
      let buf := fread words n
      let rdbytes := buf.length
      (decide (rdbytes ≠ n), some buf)

/-- The test that `opencl_compare_out_bin` (opencl.c, lines 457-461) makes on the
result of `bin_file_read`: a `true` result makes it return `-EIO`. -/
def compare_out_bin_read (malloc_ok : Bool) (file : Option (List Nat)) (n : Nat) :
    Option Int :=
  if (bin_file_read malloc_ok file n).1 then some (0 - EIO) else none

/-- Value of `csv_file_count` (csv.c): the number of values that parse, or
`-EINVAL` when the file cannot be opened. -/
def csv_file_count {α : Type} (file : Option (List α)) : Int :=
  match file with
  | none => -EINVAL
  | some v => v.length

/-- The read loop of `csv_file_read_float_n` from index `i` on, with the values
the file still holds: value `i` is stored at `(*buf)[i % n] + (i / n)`, where
row `k` starts at offset `k * (count / n)` of the one contiguous buffer.  The
loop ends when `i` reaches `count` or no value parses; its result is the
final `i` and the writes made, each a flat index with the value stored. -/
def read_loop {α : Type} (n count : Nat) : List α → Nat → Nat × List (Nat × α)
  | [], i => (i, [])
  | x :: rest, i =>
    if i < count then
      let r := read_loop n count rest (i + 1)
      (r.1, ((i % n) * (count / n) + i / n, x) :: r.2)
    else (i, [])

/-- Result and writes of `csv_file_read_float_n` (csv.c, lines 122-171) for a
tuple size `n`.  `file` is `none` when the file cannot be opened and the
values it holds otherwise (the same at both passes over it); `malloc_rows`
and `malloc_data` tell whether the two allocations succeed. -/
def csv_file_read_float_n {α : Type} (file : Option (List α)) (n : Nat)
    (malloc_rows malloc_data : Bool) : Int × List (Nat × α) :=
  let count := csv_file_count file
  if count < 0 then (-1, [])
  else if count % (n : Int) ≠ 0 then (-1, [])
  else if malloc_rows = false then (-1, [])
  else if malloc_data = false then (-1, [])
  else
    match file with
    | none => (-EINVAL, [])
    | some v =>
      let r := read_loop n count.toNat v 0
      ((r.1 : Int) / (n : Int), r.2)

/-! ## The option state (lib/opencl.c) -/

/-- The option fields of the `state` struct of opencl.c: `int platform`,
`int device`, `bool compare_output`, `unsigned int iterations`. -/
structure OptState where
  platform : Int
  device : Int
  compare_output : Bool
  iterations : Nat
  deriving DecidableEq, Repr

/-- The initial value of `state`. -/
def state_init : OptState :=
  { platform := 0, device := 0, compare_output := false, iterations := 10 }

/-- Conversion of an `unsigned int` to `int` (32 bits, two's complement). -/
def uint_to_int (u : Nat) : Int :=
  if u % 2 ^ 32 < 2 ^ 31 then ((u % 2 ^ 32 : Nat) : Int) else ((u % 2 ^ 32 : Nat) : Int) - 2 ^ 32

/-- The function `opencl_get_iterations`. -/
def opencl_get_iterations (st : OptState) : Nat := st.iterations

/-- The function `opencl_compare_output`. -/
def opencl_compare_output (st : OptState) : Bool := st.compare_output

/-- Result and state after `opencl_parse_option(c, optarg)` (opencl.c, lines
476-515).  `scanned` is the outcome of `sscanf(optarg, "%u", &optval)`:
`some u` when it converts one unsigned value `u` (it returns 1), `none`
otherwise. -/
def opencl_parse_option (st : OptState) (c : Char) (scanned : Option Nat) : Int × OptState :=
  if c = 'P' then
    match scanned with
    | none => (-EINVAL, st)
    | some optval => (0, { st with platform := uint_to_int optval })
  else if c = 'd' then
    match scanned with
    | none => (-EINVAL, st)
    | some optval => (0, { st with device := uint_to_int optval })
  else if c = 'I' then
    match scanned with
    | none => (-EINVAL, st)
    | some optval => (0, { st with iterations := optval % 2 ^ 32 })
  else if c = 'c' then
    (0, { st with compare_output := true })
  else
    (-ENOSYS, st)

/-- The state after a sequence of calls of `opencl_parse_option`, one per
option of a command line. -/
def parse_options (st : OptState) : List (Char × Option Nat) → OptState
  | [] => st
  | (c, scanned) :: rest => parse_options (opencl_parse_option st c scanned).2 rest
/-! ## Arithmetic of `next_pot` -/

theorem clz_scan_le (w x : Nat) : clz_scan w x ≤ w := by
  induction w with
  | zero => simp [clz_scan]
  | succ w ih =>
    unfold clz_scan
    split_ifs <;> omega

theorem clz_scan_upper (w x : Nat) (hx : x < 2 ^ w) : x < 2 ^ (w - clz_scan w x) := by
  induction w with
  | zero => simpa [clz_scan] using hx
  | succ w ih =>
    unfold clz_scan
    split_ifs with h
    · simpa using hx
    · have h1 : x < 2 ^ w := by omega
      have h2 := ih h1
      have h3 : w + 1 - (1 + clz_scan w x) = w - clz_scan w x := by omega
      rw [h3]; exact h2

theorem clz_scan_lower (w x : Nat) (hc : clz_scan w x < w) :
    2 ^ (w - clz_scan w x - 1) ≤ x := by
  induction w with
  | zero => simp [clz_scan] at hc
  | succ w ih =>
    unfold clz_scan at hc ⊢
    split_ifs at hc ⊢ with h
    · simpa using h
    · have h1 : clz_scan w x < w := by omega
      have h2 := ih h1
      have h3 : w + 1 - (1 + clz_scan w x) - 1 = w - clz_scan w x - 1 := by omega
      rw [h3]; exact h2

/-- A word that is not zero has at most 31 leading zero bits. -/
theorem clz_scan_lt (x : Nat) (h0 : 0 < x) (hx : x < 2 ^ 32) : clz_scan 32 x ≤ 31 := by
  by_contra hcon
  have hle := clz_scan_le 32 x
  have hup := clz_scan_upper 32 x hx
  have h32 : clz_scan 32 x = 32 := by omega
  rw [h32] at hup
  simp at hup
  omega

theorem clz_le (x : Nat) : clz x ≤ 31 := by
  unfold clz
  split_ifs with h
  · exact Nat.le_refl _
  · exact clz_scan_lt _ (Nat.pos_of_ne_zero h) (Nat.mod_lt _ (by norm_num))

theorem clz_of_pos (x : Nat) (h0 : 0 < x) (hx : x < 2 ^ 32) : clz x = clz_scan 32 x := by
  unfold clz
  rw [Nat.mod_eq_of_lt hx, if_neg (by omega)]

theorem next_pot_eq (n : Nat) :
    next_pot n = 2 ^ ((32 - clz (size_sub n 1)) % 32) % 2 ^ 32 := by
  unfold next_pot
  have hc : clz (size_sub n 1) ≤ 31 := clz_le _
  have : ((31 : Int) - (clz (size_sub n 1) : Int) + 1).toNat = 32 - clz (size_sub n 1) := by
    omega
  simp only [this, Nat.one_shiftLeft]

/-- For one element `next_pot` reaches `clz 0`, and its result is 2. -/
theorem next_pot_one : next_pot 1 = 2 := by decide

/-- For no element `next_pot` reaches the shift by 32, and its result is 1. -/
theorem next_pot_zero : next_pot 0 = 1 := by decide

/-- On `2 ≤ n ≤ 2 ^ 31` the result of `next_pot` is `2 ^ k` for the least `k` with `n ≤ 2 ^ k`. -/
theorem next_pot_spec (n : Nat) (h1 : 2 ≤ n) (h2 : n ≤ 2 ^ 31) :
    ∃ k, k ≤ 31 ∧ next_pot n = 2 ^ k ∧ n ≤ 2 ^ k ∧ (k = 0 ∨ 2 ^ (k - 1) < n) := by
  have hs : size_sub n 1 = n - 1 := by unfold size_sub; omega
  have hx : n - 1 < 2 ^ 32 := by omega
  have hclz : clz (n - 1) = clz_scan 32 (n - 1) := clz_of_pos _ (by omega) hx
  have hle := clz_scan_le 32 (n - 1)
  have hup := clz_scan_upper 32 (n - 1) hx
  have hk : 32 - clz_scan 32 (n - 1) ≤ 31 := by
    by_contra hcon
    have h0 : clz_scan 32 (n - 1) = 0 := by omega
    have := clz_scan_lower 32 (n - 1) (by omega)
    rw [h0] at this
    norm_num at this
    omega
  refine ⟨32 - clz_scan 32 (n - 1), hk, ?_, by omega, ?_⟩
  · have hmod : (32 - clz_scan 32 (n - 1)) % 32 = 32 - clz_scan 32 (n - 1) :=
      Nat.mod_eq_of_lt (by omega)
    rw [next_pot_eq, hs, hclz, hmod]
    exact Nat.mod_eq_of_lt (Nat.pow_lt_pow_right (by norm_num) (by omega))
  · by_cases hc : clz_scan 32 (n - 1) < 32
    · right
      have := clz_scan_lower 32 (n - 1) hc
      omega
    · left; omega

theorem next_pot_ge (n : Nat) (h1 : 1 ≤ n) (h2 : n ≤ 2 ^ 31) : n ≤ next_pot n := by
  rcases Nat.lt_or_ge n 2 with hlt | hge
  · have : n = 1 := by omega
    subst this
    rw [next_pot_one]
    omega
  · obtain ⟨k, -, hk, hn, -⟩ := next_pot_spec n hge h2
    omega

theorem next_pot_least (n j : Nat) (h1 : 2 ≤ n) (h2 : n ≤ 2 ^ 31) (hj : n ≤ 2 ^ j) :
    next_pot n ≤ 2 ^ j := by
  obtain ⟨k, -, hk, -, hmin⟩ := next_pot_spec n h1 h2
  rw [hk]
  rcases hmin with h0 | hlt
  · subst h0; exact Nat.one_le_two_pow
  · have : 2 ^ (k - 1) < 2 ^ j := lt_of_lt_of_le hlt hj
    have hkj : k - 1 < j := (Nat.pow_lt_pow_iff_right (by norm_num)).1 this
    exact Nat.pow_le_pow_right (by norm_num) (by omega)

theorem next_pot_lt_two_mul (n : Nat) (h1 : 2 ≤ n) (h2 : n ≤ 2 ^ 31) : next_pot n < 2 * n := by
  obtain ⟨k, -, hk, -, hmin⟩ := next_pot_spec n h1 h2
  rw [hk]
  rcases Nat.eq_zero_or_pos k with h0 | hpos
  · subst h0; simp; omega
  · rcases hmin with h0 | hlt
    · omega
    · have hk1 : k = (k - 1) + 1 := by omega
      rw [hk1, pow_succ]; omega
/-! ## The planner: `prefix_sum_elems_ceil` -/

theorem size_sub_add_one (a W : Nat) (h : a + W < 2 ^ 32) (hW : 1 ≤ W) :
    size_sub (size_add a W) 1 = a + W - 1 := by
  unfold size_sub size_add
  omega

theorem work_groups_eq (W N : Nat) (h : N / 2 + W < 2 ^ 32) (hW : 1 ≤ W) :
    (prefix_sum_elems_ceil W N).2 = (N / 2 + W - 1) / W := by
  show size_sub (size_add (N / 2) W) 1 / W = _
  rw [size_sub_add_one _ _ h hW]

theorem work_groups_mul_le (W N : Nat) (h : N / 2 + W < 2 ^ 32) (hW : 1 ≤ W) :
    (prefix_sum_elems_ceil W N).2 * W ≤ N / 2 + W - 1 := by
  rw [work_groups_eq W N h hW]
  exact Nat.div_mul_le_self _ _

theorem elems_ceil_multi (W N : Nat) (h : N + 2 * W ≤ 2 ^ 32) (hW : 1 ≤ W)
    (hg : (prefix_sum_elems_ceil W N).2 > 1) :
    (prefix_sum_elems_ceil W N).1 = 2 * (prefix_sum_elems_ceil W N).2 * W := by
  have hle := work_groups_mul_le W N (by omega) hW
  have hgW : (prefix_sum_elems_ceil W N).2 ≤ (prefix_sum_elems_ceil W N).2 * W :=
    Nat.le_mul_of_pos_right _ hW
  have hfst : (prefix_sum_elems_ceil W N).1
      = size_mul (size_mul 2 (prefix_sum_elems_ceil W N).2) W := by
    have hg2 := hg
    simp only [prefix_sum_elems_ceil] at hg2 ⊢
    rw [if_pos hg2]
  rw [hfst]
  generalize (prefix_sum_elems_ceil W N).2 = g at *
  have h1 : size_mul 2 g = 2 * g := by
    unfold size_mul; exact Nat.mod_eq_of_lt (by omega)
  have h3 : 2 * g * W = 2 * (g * W) := by ring
  rw [h1]
  unfold size_mul
  exact Nat.mod_eq_of_lt (by omega)

theorem elems_ceil_single (W N : Nat) (hg : (prefix_sum_elems_ceil W N).2 ≤ 1) :
    (prefix_sum_elems_ceil W N).1 = next_pot N := by
  have hg2 := hg
  simp only [prefix_sum_elems_ceil] at hg2 ⊢
  rw [if_neg (by omega)]

/-- C4 (as stated, refuted): with `W = 256` and `N = 1000` the block count is `2`
and the padded count is `1024`, not `2 * blockCount * B = 2048` for `B = 2 * W`. -/
theorem C4_counterexample :
    ¬ (∀ W N : Nat, 1 ≤ W → (prefix_sum_elems_ceil W N).2 > 1 →
        (prefix_sum_elems_ceil W N).1 = 2 * (prefix_sum_elems_ceil W N).2 * (2 * W)) := by
  intro h
  have := h 256 1000 (by decide) (by decide)
  revert this
  decide

/-- C4 (amended): when the block count is greater than 1 and `N + 2 * W` stays in
the range of `size_t`, the padded count is `2 * blockCount * W`, that is
`blockCount * B` for the block size `B = 2 * W`. -/
theorem C4_padded_count_multi_block (W N : Nat) (hW : 1 ≤ W) (hN : N + 2 * W ≤ 2 ^ 32)
    (hg : (prefix_sum_elems_ceil W N).2 > 1) :
    (prefix_sum_elems_ceil W N).1 = 2 * (prefix_sum_elems_ceil W N).2 * W ∧
    (prefix_sum_elems_ceil W N).1 = (prefix_sum_elems_ceil W N).2 * (2 * W) := by
  have h := elems_ceil_multi W N hN hW hg
  refine ⟨h, ?_⟩
  rw [h]; ring

/-- C4 (amended) at `W = 256`, `N = 1000`: two blocks, padded to `1024`. -/
theorem C4_padded_count_multi_block_witness :
    (prefix_sum_elems_ceil 256 1000).1 = 2 * (prefix_sum_elems_ceil 256 1000).2 * 256 ∧
    (prefix_sum_elems_ceil 256 1000).1 = (prefix_sum_elems_ceil 256 1000).2 * (2 * 256) :=
  C4_padded_count_multi_block 256 1000 (by decide) (by decide) (by decide)

theorem size_sub_lt (a b : Nat) : size_sub a b < 2 ^ 32 := by
  unfold size_sub
  omega

theorem work_groups_le (W N : Nat) (hN : N < 2 ^ 32) :
    (prefix_sum_elems_ceil W N).2 ≤ 2 ^ 31 := by
  show size_sub (size_add (N / 2) W) 1 / W ≤ 2 ^ 31
  rcases Nat.lt_or_ge W 2 with h1 | h2
  · rcases Nat.eq_zero_or_pos W with h0 | hpos
    · subst h0; simp
    · have : W = 1 := by omega
      subst this
      rw [size_sub_add_one _ _ (by omega) (by omega)]
      simp only [Nat.div_one]
      omega
  · have hv := size_sub_lt (size_add (N / 2) W) 1
    have hlt : size_sub (size_add (N / 2) W) 1 < 2 ^ 31 * W := by omega
    exact le_of_lt ((Nat.div_lt_iff_lt_mul (by omega)).2 hlt)

theorem capacity_exceeded_of_large (W N : Nat) (hW : 1 ≤ W) (hN : N < 2 ^ 32)
    (hB : (2 * W) ^ 2 < N) :
    (prefix_sum_elems_ceil W N).2 > 1 ∧ next_pot (prefix_sum_elems_ceil W N).2 > W := by
  have hW15 : W < 2 ^ 15 := by
    by_contra hcon
    have : 2 ^ 15 ≤ W := by omega
    have : (2 * 2 ^ 15) ^ 2 ≤ (2 * W) ^ 2 := Nat.pow_le_pow_left (by omega) 2
    norm_num at this
    omega
  have hwrap : N / 2 + W < 2 ^ 32 := by omega
  have h2W : 2 * W ≤ (prefix_sum_elems_ceil W N).2 := by
    rw [work_groups_eq W N hwrap hW]
    rw [Nat.le_div_iff_mul_le (by omega)]
    have : (2 * W) ^ 2 = 2 * (2 * W * W) := by ring
    omega
  have hle := work_groups_le W N hN
  have hge := next_pot_ge _ (by omega : 1 ≤ (prefix_sum_elems_ceil W N).2) hle
  constructor <;> omega

theorem prefix_sum_exceeds (dev : Device) (inp : cl_mem) (N : Nat) (time : Bool)
    (hk : dev.create_kernel Kernel.prefix_sum = true)
    (hg : (prefix_sum_elems_ceil dev.max_workgroup_size N).2 > 1)
    (hc : next_pot (prefix_sum_elems_ceil dev.max_workgroup_size N).2 > dev.max_workgroup_size) :
    prefix_sum dev inp N time =
      { ret := cl_mem.minus_one
        calls := [Call.compile_program, Call.create_kernel Kernel.prefix_sum true,
                  Call.print Msg.exceeds_limits, Call.release_kernel Kernel.prefix_sum,
                  Call.release_program] } := by
  simp [prefix_sum, hk, hg, hc, tear_down]

theorem prefix_sum_no_kernel (dev : Device) (inp : cl_mem) (N : Nat) (time : Bool)
    (hk : dev.create_kernel Kernel.prefix_sum = false) :
    prefix_sum dev inp N time =
      { ret := cl_mem.minus_one
        calls := [Call.compile_program, Call.create_kernel Kernel.prefix_sum false,
                  Call.print Msg.no_scan_kernel] } := by
  simp [prefix_sum, hk]

/-- C2: for a maximum work-group size `W ≥ 1` and an element count `N > B ^ 2`,
`B = 2 * W`, `prefix_sum` issues no kernel dispatch and returns `(cl_mem)-1`;
once its scan kernel exists it gets there through the capacity branch, which
prints "Data size prefix sum exceeds limits". -/
theorem C2_capacity_exceeded_above_B_squared (dev : Device) (inp : cl_mem) (N : Nat)
    (time : Bool) (hW : 1 ≤ dev.max_workgroup_size) (hN : N < 2 ^ 32)
    (hB : (2 * dev.max_workgroup_size) ^ 2 < N) :
    (prefix_sum dev inp N time).ret = cl_mem.minus_one ∧
    (prefix_sum dev inp N time).dispatches = [] ∧
    (dev.create_kernel Kernel.prefix_sum = true →
      Call.print Msg.exceeds_limits ∈ (prefix_sum dev inp N time).calls) := by
  obtain ⟨hg, hc⟩ := capacity_exceeded_of_large dev.max_workgroup_size N hW hN hB
  cases hk : dev.create_kernel Kernel.prefix_sum with
  | false =>
    rw [prefix_sum_no_kernel dev inp N time hk]
    simp [Run.dispatches, Call.is_dispatch]
  | true =>
    rw [prefix_sum_exceeds dev inp N time hk hg hc]
    simp [Run.dispatches, Call.is_dispatch]

/-- C2 at `W = 2`, `N = 17 > 16 = B ^ 2`. -/
theorem C2_capacity_exceeded_above_B_squared_witness :
    (1 ≤ (Device.all_ok 2).max_workgroup_size ∧ 17 < 2 ^ 32 ∧
      (2 * (Device.all_ok 2).max_workgroup_size) ^ 2 < 17) ∧
    (prefix_sum (Device.all_ok 2) (cl_mem.obj Buffer.data) 17 false).ret = cl_mem.minus_one ∧
    (prefix_sum (Device.all_ok 2) (cl_mem.obj Buffer.data) 17 false).dispatches = [] ∧
    ((Device.all_ok 2).create_kernel Kernel.prefix_sum = true →
      Call.print Msg.exceeds_limits ∈
        (prefix_sum (Device.all_ok 2) (cl_mem.obj Buffer.data) 17 false).calls) :=
  ⟨by decide,
   C2_capacity_exceeded_above_B_squared (Device.all_ok 2) (cl_mem.obj Buffer.data) 17 false
    (by decide) (by decide) (by decide)⟩

/-- C3 (as stated, refuted): on a device with `W = 256` (so `B = 512`) and
`N = 131074` the block count is `257` and its padded count `512` does not
exceed `B`, yet `prefix_sum` takes the capacity branch. -/
theorem C3_counterexample :
    Call.print Msg.exceeds_limits ∈
        (prefix_sum (Device.all_ok 256) (cl_mem.obj Buffer.data) 131074 false).calls ∧
    ¬ ((prefix_sum_elems_ceil 256 131074).2 > 1 ∧
        next_pot (prefix_sum_elems_ceil 256 131074).2 > 2 * 256) := by
  decide

theorem do_prefix_sum_calls (dev : Device) (s : Site) (l g : Nat) (inp out incr : cl_mem)
    (time : Bool) :
    (do_prefix_sum dev s l g inp out incr time).2 =
      Call.set_kernel_args s [inp, out, incr] (dev.set_kernel_args s [inp, out, incr]) ::
        (if dev.set_kernel_args s [inp, out, incr] = false then [Call.print Msg.args_not_set]
         else
          Call.enqueue s Kernel.prefix_sum [inp, out, incr] g (some l) (dev.enqueue s g (some l)) ::
            (if dev.enqueue s g (some l) = false then [Call.print Msg.not_enqueued]
             else timing time)) := by
  unfold do_prefix_sum
  cases h1 : dev.set_kernel_args s [inp, out, incr] <;>
    cases h2 : dev.enqueue s g (some l) <;> simp [h1, h2]

theorem do_prefix_sum_post_calls (dev : Device) (l w : Nat) (data incr : cl_mem) (time : Bool) :
    (do_prefix_sum_post dev l w data incr time).2 =
      Call.set_kernel_args Site.carry [data, incr] (dev.set_kernel_args Site.carry [data, incr]) ::
        (if dev.set_kernel_args Site.carry [data, incr] = false then [Call.print Msg.args_not_set]
         else
          Call.enqueue Site.carry Kernel.prefix_sum_post [data, incr]
              (size_sub w (size_mul 2 l)) (some l)
              (dev.enqueue Site.carry (size_sub w (size_mul 2 l)) (some l)) ::
            (if dev.enqueue Site.carry (size_sub w (size_mul 2 l)) (some l) = false then
              [Call.print Msg.not_enqueued]
             else timing time)) := by
  unfold do_prefix_sum_post
  cases h1 : dev.set_kernel_args Site.carry [data, incr] <;>
    cases h2 : dev.enqueue Site.carry (size_sub w (size_mul 2 l)) (some l) <;> simp [h1, h2]

theorem prefix_sum_no_incr (dev : Device) (inp : cl_mem) (N : Nat) (time : Bool)
    (hk : dev.create_kernel Kernel.prefix_sum = true)
    (hg : (prefix_sum_elems_ceil dev.max_workgroup_size N).2 > 1)
    (hc : ¬ next_pot (prefix_sum_elems_ceil dev.max_workgroup_size N).2 > dev.max_workgroup_size)
    (hb : dev.create_buffer Buffer.scan_incr
      (size_mul (next_pot (prefix_sum_elems_ceil dev.max_workgroup_size N).2) sizeof_uint) = false) :
    prefix_sum dev inp N time =
      { ret := cl_mem.minus_one
        calls := [Call.compile_program, Call.create_kernel Kernel.prefix_sum true,
                  Call.create_buffer Buffer.scan_incr
                    (size_mul (next_pot (prefix_sum_elems_ceil dev.max_workgroup_size N).2)
                      sizeof_uint) false,
                  Call.print Msg.no_incr_buffer, Call.release_kernel Kernel.prefix_sum,
                  Call.release_program] } := by
  simp [prefix_sum, hk, hg, hc, hb, tear_down]

theorem prefix_sum_no_post (dev : Device) (inp : cl_mem) (N : Nat) (time : Bool)
    (hk : dev.create_kernel Kernel.prefix_sum = true)
    (hg : (prefix_sum_elems_ceil dev.max_workgroup_size N).2 > 1)
    (hc : ¬ next_pot (prefix_sum_elems_ceil dev.max_workgroup_size N).2 > dev.max_workgroup_size)
    (hb : dev.create_buffer Buffer.scan_incr
      (size_mul (next_pot (prefix_sum_elems_ceil dev.max_workgroup_size N).2) sizeof_uint) = true)
    (hp : dev.create_kernel Kernel.prefix_sum_post = false) :
    prefix_sum dev inp N time =
      { ret := cl_mem.minus_one
        calls := [Call.compile_program, Call.create_kernel Kernel.prefix_sum true,
                  Call.create_buffer Buffer.scan_incr
                    (size_mul (next_pot (prefix_sum_elems_ceil dev.max_workgroup_size N).2)
                      sizeof_uint) true,
                  Call.create_kernel Kernel.prefix_sum_post false,
                  Call.print Msg.no_post_kernel, Call.release_kernel Kernel.prefix_sum,
                  Call.release_mem (cl_mem.obj Buffer.scan_incr), Call.release_program] } := by
  simp [prefix_sum, hk, hg, hc, hb, hp, tear_down]

theorem prefix_sum_two_level (dev : Device) (inp : cl_mem) (N : Nat) (time : Bool)
    (hk : dev.create_kernel Kernel.prefix_sum = true)
    (hg : (prefix_sum_elems_ceil dev.max_workgroup_size N).2 > 1)
    (hc : ¬ next_pot (prefix_sum_elems_ceil dev.max_workgroup_size N).2 > dev.max_workgroup_size)
    (hb : dev.create_buffer Buffer.scan_incr
      (size_mul (next_pot (prefix_sum_elems_ceil dev.max_workgroup_size N).2) sizeof_uint) = true)
    (hp : dev.create_kernel Kernel.prefix_sum_post = true) :
    prefix_sum dev inp N time =
      { ret := (prefix_sum_dispatch dev inp time dev.max_workgroup_size
                  (prefix_sum_elems_ceil dev.max_workgroup_size N).1
                  (prefix_sum_elems_ceil dev.max_workgroup_size N).2
                  (next_pot (prefix_sum_elems_ceil dev.max_workgroup_size N).2)
                  (cl_mem.obj Buffer.scan_incr) true).ret
        calls := [Call.compile_program, Call.create_kernel Kernel.prefix_sum true,
                  Call.create_buffer Buffer.scan_incr
                    (size_mul (next_pot (prefix_sum_elems_ceil dev.max_workgroup_size N).2)
                      sizeof_uint) true,
                  Call.create_kernel Kernel.prefix_sum_post true]
                 ++ (prefix_sum_dispatch dev inp time dev.max_workgroup_size
                  (prefix_sum_elems_ceil dev.max_workgroup_size N).1
                  (prefix_sum_elems_ceil dev.max_workgroup_size N).2
                  (next_pot (prefix_sum_elems_ceil dev.max_workgroup_size N).2)
                  (cl_mem.obj Buffer.scan_incr) true).calls } := by
  simp [prefix_sum, hk, hg, hc, hb, hp]

theorem prefix_sum_one_level (dev : Device) (inp : cl_mem) (N : Nat) (time : Bool)
    (hk : dev.create_kernel Kernel.prefix_sum = true)
    (hg : ¬ (prefix_sum_elems_ceil dev.max_workgroup_size N).2 > 1) :
    prefix_sum dev inp N time =
      { ret := (prefix_sum_dispatch dev inp time
                  ((prefix_sum_elems_ceil dev.max_workgroup_size N).1 / 2)
                  (prefix_sum_elems_ceil dev.max_workgroup_size N).1
                  (prefix_sum_elems_ceil dev.max_workgroup_size N).2 0 cl_mem.null false).ret
        calls := [Call.compile_program, Call.create_kernel Kernel.prefix_sum true]
                 ++ (prefix_sum_dispatch dev inp time
                  ((prefix_sum_elems_ceil dev.max_workgroup_size N).1 / 2)
                  (prefix_sum_elems_ceil dev.max_workgroup_size N).1
                  (prefix_sum_elems_ceil dev.max_workgroup_size N).2 0 cl_mem.null false).calls } := by
  simp [prefix_sum, hk, hg]

theorem dispatch_no_out (dev : Device) (inp : cl_mem) (time : Bool)
    (l w g incrs : Nat) (incr : cl_mem) (kp : Bool)
    (hb : dev.create_buffer Buffer.scan_out (size_mul w sizeof_uint) = false) :
    prefix_sum_dispatch dev inp time l w g incrs incr kp =
      { ret := cl_mem.minus_one
        calls := [Call.create_buffer Buffer.scan_out (size_mul w sizeof_uint) false,
                  Call.print Msg.no_out_buffer] ++ tear_down kp incr } := by
  simp [prefix_sum_dispatch, hb]

theorem dispatch_out (dev : Device) (inp : cl_mem) (time : Bool)
    (l w g incrs : Nat) (incr : cl_mem) (kp : Bool)
    (hb : dev.create_buffer Buffer.scan_out (size_mul w sizeof_uint) = true) :
    prefix_sum_dispatch dev inp time l w g incrs incr kp =
      { ret := cl_mem.obj Buffer.scan_out
        calls := [Call.create_buffer Buffer.scan_out (size_mul w sizeof_uint) true]
          ++ (do_prefix_sum dev Site.block_scan l (w / 2) inp (cl_mem.obj Buffer.scan_out)
                incr time).2
          ++ (if g > 1 then
                (do_prefix_sum dev Site.sums_scan (incrs / 2) (incrs / 2) incr incr
                  cl_mem.null time).2
                ++ (do_prefix_sum_post dev l w (cl_mem.obj Buffer.scan_out) incr time).2
              else [])
          ++ tear_down kp incr } := by
  simp [prefix_sum_dispatch, hb]

theorem exceeds_not_mem_dispatch (dev : Device) (inp : cl_mem) (time : Bool)
    (l w g incrs : Nat) (incr : cl_mem) (kp : Bool) :
    Call.print Msg.exceeds_limits ∉ (prefix_sum_dispatch dev inp time l w g incrs incr kp).calls := by
  cases hb : dev.create_buffer Buffer.scan_out (size_mul w sizeof_uint)
  · rw [dispatch_no_out _ _ _ _ _ _ _ _ _ hb]
    simp only [tear_down]
    split_ifs <;> simp
  · rw [dispatch_out _ _ _ _ _ _ _ _ _ hb]
    simp only [do_prefix_sum_calls, do_prefix_sum_post_calls, tear_down, timing]
    split_ifs <;> simp

theorem create_buffer_mem_dispatch (dev : Device) (inp : cl_mem) (time : Bool)
    (l w g incrs : Nat) (incr : cl_mem) (kp : Bool) :
    ∃ b bytes ok, Call.create_buffer b bytes ok ∈
      (prefix_sum_dispatch dev inp time l w g incrs incr kp).calls := by
  cases hb : dev.create_buffer Buffer.scan_out (size_mul w sizeof_uint)
  · rw [dispatch_no_out _ _ _ _ _ _ _ _ _ hb]
    exact ⟨Buffer.scan_out, size_mul w sizeof_uint, false, by simp⟩
  · rw [dispatch_out _ _ _ _ _ _ _ _ _ hb]
    exact ⟨Buffer.scan_out, size_mul w sizeof_uint, true, by simp⟩

/-- C3 (amended): once the scan kernel exists, `prefix_sum` takes the capacity
branch if and only if the block count is greater than 1 and its padded count
`next_pot blockCount` exceeds the maximum work-group size `W` (half of `B`); in
every other case it goes on to create a buffer. -/
theorem C3_capacity_check (dev : Device) (inp : cl_mem) (N : Nat) (time : Bool)
    (hk : dev.create_kernel Kernel.prefix_sum = true) :
    (Call.print Msg.exceeds_limits ∈ (prefix_sum dev inp N time).calls ↔
      ((prefix_sum_elems_ceil dev.max_workgroup_size N).2 > 1 ∧
        next_pot (prefix_sum_elems_ceil dev.max_workgroup_size N).2 > dev.max_workgroup_size)) ∧
    (¬ ((prefix_sum_elems_ceil dev.max_workgroup_size N).2 > 1 ∧
        next_pot (prefix_sum_elems_ceil dev.max_workgroup_size N).2 > dev.max_workgroup_size) →
      ∃ b bytes ok, Call.create_buffer b bytes ok ∈ (prefix_sum dev inp N time).calls) := by
  by_cases hg : (prefix_sum_elems_ceil dev.max_workgroup_size N).2 > 1
  · by_cases hc : next_pot (prefix_sum_elems_ceil dev.max_workgroup_size N).2
        > dev.max_workgroup_size
    · rw [prefix_sum_exceeds dev inp N time hk hg hc]
      simp [hg, hc]
    · cases hb : dev.create_buffer Buffer.scan_incr
        (size_mul (next_pot (prefix_sum_elems_ceil dev.max_workgroup_size N).2) sizeof_uint)
      · rw [prefix_sum_no_incr dev inp N time hk hg hc hb]
        refine ⟨by simp [hc], fun _ => ⟨_, _, _, by simp; exact ⟨rfl, rfl, rfl⟩⟩⟩
      · cases hp : dev.create_kernel Kernel.prefix_sum_post
        · rw [prefix_sum_no_post dev inp N time hk hg hc hb hp]
          refine ⟨by simp [hc], fun _ => ⟨_, _, _, by simp; exact ⟨rfl, rfl, rfl⟩⟩⟩
        · rw [prefix_sum_two_level dev inp N time hk hg hc hb hp]
          have hnd := exceeds_not_mem_dispatch dev inp time dev.max_workgroup_size
            (prefix_sum_elems_ceil dev.max_workgroup_size N).1
            (prefix_sum_elems_ceil dev.max_workgroup_size N).2
            (next_pot (prefix_sum_elems_ceil dev.max_workgroup_size N).2)
            (cl_mem.obj Buffer.scan_incr) true
          refine ⟨by simp [hc, hnd], fun _ => ⟨Buffer.scan_incr, _, true, by simp; exact Or.inl rfl⟩⟩
  · rw [prefix_sum_one_level dev inp N time hk hg]
    have hnd := exceeds_not_mem_dispatch dev inp time
      ((prefix_sum_elems_ceil dev.max_workgroup_size N).1 / 2)
      (prefix_sum_elems_ceil dev.max_workgroup_size N).1
      (prefix_sum_elems_ceil dev.max_workgroup_size N).2 0 cl_mem.null false
    obtain ⟨b, bytes, ok, hmem⟩ := create_buffer_mem_dispatch dev inp time
      ((prefix_sum_elems_ceil dev.max_workgroup_size N).1 / 2)
      (prefix_sum_elems_ceil dev.max_workgroup_size N).1
      (prefix_sum_elems_ceil dev.max_workgroup_size N).2 0 cl_mem.null false
    refine ⟨by simp [hg, hnd], fun _ => ⟨b, bytes, ok, by simp [hmem]⟩⟩

/-- C3 (amended) at `W = 2`, `N = 12`: three blocks, `next_pot 3 = 4 > 2`. -/
theorem C3_capacity_check_witness :
    (Device.all_ok 2).create_kernel Kernel.prefix_sum = true ∧
    (Call.print Msg.exceeds_limits ∈
        (prefix_sum (Device.all_ok 2) (cl_mem.obj Buffer.data) 12 false).calls ↔
      ((prefix_sum_elems_ceil (Device.all_ok 2).max_workgroup_size 12).2 > 1 ∧
        next_pot (prefix_sum_elems_ceil (Device.all_ok 2).max_workgroup_size 12).2
          > (Device.all_ok 2).max_workgroup_size)) :=
  ⟨rfl, (C3_capacity_check (Device.all_ok 2) (cl_mem.obj Buffer.data) 12 false rfl).1⟩

/-! ## The dispatch sequence of `prefix_sum` -/

theorem all_ok_resources (W : Nat) : (Device.all_ok W).resources_ok :=
  ⟨fun _ => rfl, fun _ _ => rfl, fun _ _ => rfl⟩

theorem sites_timing (time : Bool) : (timing time).filterMap Call.site = [] := by
  cases time <;> simp [timing, Call.site]

theorem sites_tear_down (kp : Bool) (incr : cl_mem) :
    (tear_down kp incr).filterMap Call.site = [] := by
  unfold tear_down
  split_ifs <;> simp [Call.site]

theorem sites_do_prefix_sum (dev : Device) (s : Site) (l g : Nat) (inp out incr : cl_mem)
    (time : Bool) :
    (do_prefix_sum dev s l g inp out incr time).2.filterMap Call.site =
      if dev.set_kernel_args s [inp, out, incr] = true then [s] else [] := by
  rw [do_prefix_sum_calls]
  cases dev.set_kernel_args s [inp, out, incr] <;>
    cases dev.enqueue s g (some l) <;> simp [Call.site, sites_timing]

theorem sites_do_prefix_sum_post (dev : Device) (l w : Nat) (data incr : cl_mem) (time : Bool) :
    (do_prefix_sum_post dev l w data incr time).2.filterMap Call.site =
      if dev.set_kernel_args Site.carry [data, incr] = true then [Site.carry] else [] := by
  rw [do_prefix_sum_post_calls]
  cases dev.set_kernel_args Site.carry [data, incr] <;>
    cases dev.enqueue Site.carry (size_sub w (size_mul 2 l)) (some l) <;>
    simp [Call.site, sites_timing]

theorem sites_dispatch (dev : Device) (inp : cl_mem) (time : Bool)
    (l w g incrs : Nat) (incr : cl_mem) (kp : Bool) :
    (prefix_sum_dispatch dev inp time l w g incrs incr kp).calls.filterMap Call.site =
      if dev.create_buffer Buffer.scan_out (size_mul w sizeof_uint) = true then
        (if dev.set_kernel_args Site.block_scan [inp, cl_mem.obj Buffer.scan_out, incr] = true
          then [Site.block_scan] else [])
        ++ (if g > 1 then
              (if dev.set_kernel_args Site.sums_scan [incr, incr, cl_mem.null] = true
                then [Site.sums_scan] else [])
              ++ (if dev.set_kernel_args Site.carry [cl_mem.obj Buffer.scan_out, incr] = true
                then [Site.carry] else [])
            else [])
      else [] := by
  cases hb : dev.create_buffer Buffer.scan_out (size_mul w sizeof_uint)
  · rw [dispatch_no_out _ _ _ _ _ _ _ _ _ hb]
    simp [sites_tear_down, Call.site]
  · rw [dispatch_out _ _ _ _ _ _ _ _ _ hb]
    by_cases hg : g > 1
    · simp [hg, List.filterMap_append, sites_tear_down, sites_do_prefix_sum,
        sites_do_prefix_sum_post, Call.site]
    · simp [hg, List.filterMap_append, sites_tear_down, sites_do_prefix_sum, Call.site]

theorem sites_one_level (dev : Device) (inp : cl_mem) (N : Nat) (time : Bool)
    (hres : dev.resources_ok) (hg : (prefix_sum_elems_ceil dev.max_workgroup_size N).2 ≤ 1) :
    (prefix_sum dev inp N time).sites = [Site.block_scan] := by
  obtain ⟨hk, hb, ha⟩ := hres
  rw [Run.sites, prefix_sum_one_level dev inp N time (hk _) (by omega)]
  simp [List.filterMap_append, sites_dispatch, hb, ha, Call.site]
  omega

theorem sites_two_level (dev : Device) (inp : cl_mem) (N : Nat) (time : Bool)
    (hres : dev.resources_ok) (hg : (prefix_sum_elems_ceil dev.max_workgroup_size N).2 > 1)
    (hc : next_pot (prefix_sum_elems_ceil dev.max_workgroup_size N).2 ≤ dev.max_workgroup_size) :
    (prefix_sum dev inp N time).sites = [Site.block_scan, Site.sums_scan, Site.carry] := by
  obtain ⟨hk, hb, ha⟩ := hres
  rw [Run.sites, prefix_sum_two_level dev inp N time (hk _) hg (by omega) (hb _ _) (hk _)]
  simp [List.filterMap_append, sites_dispatch, hb, ha, Call.site, hg]

/-- C7: with its kernels, buffers and arguments in place, `prefix_sum` issues
exactly one dispatch, the block scan, when the block count is at most 1, and
exactly the three dispatches block scan, scan of the block sums, carry
propagation, in this order, when the block count is greater than 1 and the
capacity check passes; for a single block the last two are never issued,
whatever the runtime answers. -/
theorem C7_dispatch_sequence (dev : Device) (inp : cl_mem) (N : Nat) (time : Bool) :
    (dev.resources_ok → (prefix_sum_elems_ceil dev.max_workgroup_size N).2 ≤ 1 →
      (prefix_sum dev inp N time).sites = [Site.block_scan]) ∧
    (dev.resources_ok → (prefix_sum_elems_ceil dev.max_workgroup_size N).2 > 1 →
      next_pot (prefix_sum_elems_ceil dev.max_workgroup_size N).2 ≤ dev.max_workgroup_size →
      (prefix_sum dev inp N time).sites = [Site.block_scan, Site.sums_scan, Site.carry]) ∧
    ((prefix_sum_elems_ceil dev.max_workgroup_size N).2 ≤ 1 →
      Site.sums_scan ∉ (prefix_sum dev inp N time).sites ∧
      Site.carry ∉ (prefix_sum dev inp N time).sites) := by
  refine ⟨?_, ?_, ?_⟩
  · exact fun hres hg => sites_one_level dev inp N time hres hg
  · exact fun hres hg hc => sites_two_level dev inp N time hres hg hc
  · intro hg
    cases hk : dev.create_kernel Kernel.prefix_sum
    · rw [Run.sites, prefix_sum_no_kernel dev inp N time hk]
      simp [Call.site]
    · rw [Run.sites, prefix_sum_one_level dev inp N time hk (by omega)]
      have hng : ¬ (prefix_sum_elems_ceil dev.max_workgroup_size N).2 > 1 := by omega
      simp only [List.filterMap_append, sites_dispatch, hng]
      split_ifs <;> simp_all [Call.site]

/-- C7 at `W = 2`: one dispatch for `N = 4`, three for `N = 8`. -/
theorem C7_dispatch_sequence_witness :
    (prefix_sum (Device.all_ok 2) (cl_mem.obj Buffer.data) 4 true).sites = [Site.block_scan] ∧
    (prefix_sum (Device.all_ok 2) (cl_mem.obj Buffer.data) 8 true).sites
      = [Site.block_scan, Site.sums_scan, Site.carry] :=
  ⟨(C7_dispatch_sequence (Device.all_ok 2) (cl_mem.obj Buffer.data) 4 true).1
      (all_ok_resources 2) (by decide),
   (C7_dispatch_sequence (Device.all_ok 2) (cl_mem.obj Buffer.data) 8 true).2.1
      (all_ok_resources 2) (by decide) (by decide)⟩

/-! ## The carry buffer -/

theorem no_wrap_of_multi (W N : Nat) (hN : N < 2 ^ 32)
    (hg : (prefix_sum_elems_ceil W N).2 > 1) : 1 ≤ W ∧ N / 2 + W < 2 ^ 32 := by
  have hW : 1 ≤ W := by
    rcases Nat.eq_zero_or_pos W with h0 | hpos
    · subst h0
      have : (prefix_sum_elems_ceil 0 N).2 = 0 := by
        show size_sub (size_add (N / 2) 0) 1 / 0 = 0
        simp
      omega
    · exact hpos
  refine ⟨hW, ?_⟩
  by_contra hcon
  have hv := size_sub_lt (size_add (N / 2) W) 1
  have hlt : size_sub (size_add (N / 2) W) 1 < 2 * W := by omega
  have h2 : size_sub (size_add (N / 2) W) 1 / W < 2 := (Nat.div_lt_iff_lt_mul hW).2 hlt
  have h3 : (prefix_sum_elems_ceil W N).2 = size_sub (size_add (N / 2) W) 1 / W := rfl
  omega

theorem incrs_bounds (W N : Nat) (hN : N < 2 ^ 32)
    (hg : (prefix_sum_elems_ceil W N).2 > 1)
    (hc : next_pot (prefix_sum_elems_ceil W N).2 ≤ W) :
    (prefix_sum_elems_ceil W N).2 ≤ next_pot (prefix_sum_elems_ceil W N).2 ∧
    2 ≤ next_pot (prefix_sum_elems_ceil W N).2 ∧
    next_pot (prefix_sum_elems_ceil W N).2 ≤ 2 ^ 15 := by
  obtain ⟨hW, hwrap⟩ := no_wrap_of_multi W N hN hg
  have hmul := work_groups_mul_le W N hwrap hW
  have hle := work_groups_le W N hN
  generalize (prefix_sum_elems_ceil W N).2 = g at *
  obtain ⟨k, hk31, hk, hgk, hmin⟩ := next_pot_spec g (by omega) hle
  rw [hk] at hc ⊢
  have hkpos : 1 ≤ k := by
    rcases Nat.eq_zero_or_pos k with h0 | hpos
    · subst h0; simp at hgk; omega
    · exact hpos
  have hhalf : 2 ^ (k - 1) ≤ g - 1 := by
    rcases hmin with h0 | hlt
    · omega
    · omega
  have hprod : 2 ^ (k - 1) * 2 ^ k ≤ (g - 1) * W := Nat.mul_le_mul hhalf hc
  have hgW : (g - 1) * W < 2 ^ 31 := by
    have : (g - 1) * W = g * W - W := by
      rw [Nat.sub_mul, Nat.one_mul]
    omega
  have hpow : 2 ^ (k - 1 + k) < 2 ^ 31 := by
    rw [pow_add]; omega
  have hk15 : k - 1 + k < 31 := (Nat.pow_lt_pow_iff_right (by norm_num)).1 hpow
  refine ⟨hgk, ?_, Nat.pow_le_pow_right (by norm_num) (by omega)⟩
  calc 2 = 2 ^ 1 := by norm_num
    _ ≤ 2 ^ k := Nat.pow_le_pow_right (by norm_num) hkpos

theorem incr_create_not_mem_dispatch (dev : Device) (inp : cl_mem) (time : Bool)
    (l w g incrs : Nat) (incr : cl_mem) (kp : Bool) (bytes : Nat) (ok : Bool) :
    Call.create_buffer Buffer.scan_incr bytes ok ∉
      (prefix_sum_dispatch dev inp time l w g incrs incr kp).calls := by
  cases hb : dev.create_buffer Buffer.scan_out (size_mul w sizeof_uint)
  · rw [dispatch_no_out _ _ _ _ _ _ _ _ _ hb]
    simp only [tear_down]
    split_ifs <;> simp
  · rw [dispatch_out _ _ _ _ _ _ _ _ _ hb]
    simp only [do_prefix_sum_calls, do_prefix_sum_post_calls, tear_down, timing]
    split_ifs <;> simp

theorem enqueue_mem_do_prefix_sum (dev : Device) (s : Site) (l g : Nat) (inp out incr : cl_mem)
    (time : Bool) (s' : Site) (k : Kernel) (args : List cl_mem) (glob : Nat) (loc : Option Nat)
    (ok : Bool)
    (h : Call.enqueue s' k args glob loc ok ∈ (do_prefix_sum dev s l g inp out incr time).2) :
    s' = s ∧ k = Kernel.prefix_sum ∧ args = [inp, out, incr] ∧ glob = g ∧ loc = some l := by
  rw [do_prefix_sum_calls] at h
  cases h1 : dev.set_kernel_args s [inp, out, incr] <;>
    cases h2 : dev.enqueue s g (some l) <;> cases time <;>
    simp [h1, h2, timing] at h <;> simp [h]

theorem enqueue_mem_do_prefix_sum_post (dev : Device) (l w : Nat) (data incr : cl_mem)
    (time : Bool) (s' : Site) (k : Kernel) (args : List cl_mem) (glob : Nat) (loc : Option Nat)
    (ok : Bool)
    (h : Call.enqueue s' k args glob loc ok ∈ (do_prefix_sum_post dev l w data incr time).2) :
    s' = Site.carry := by
  rw [do_prefix_sum_post_calls] at h
  cases h1 : dev.set_kernel_args Site.carry [data, incr] <;>
    cases h2 : dev.enqueue Site.carry (size_sub w (size_mul 2 l)) (some l) <;> cases time <;>
    simp [h1, h2, timing] at h <;> simp [h]

theorem enqueue_not_mem_tear_down (kp : Bool) (incr : cl_mem) (s' : Site) (k : Kernel)
    (args : List cl_mem) (glob : Nat) (loc : Option Nat) (ok : Bool) :
    Call.enqueue s' k args glob loc ok ∉ tear_down kp incr := by
  unfold tear_down
  split_ifs <;> simp

theorem sums_scan_mem_dispatch (dev : Device) (inp : cl_mem) (time : Bool)
    (l w g incrs : Nat) (incr : cl_mem) (kp : Bool) (k : Kernel) (args : List cl_mem)
    (glob : Nat) (loc : Option Nat) (ok : Bool)
    (h : Call.enqueue Site.sums_scan k args glob loc ok ∈
      (prefix_sum_dispatch dev inp time l w g incrs incr kp).calls) :
    g > 1 ∧ k = Kernel.prefix_sum ∧ args = [incr, incr, cl_mem.null] ∧
      glob = incrs / 2 ∧ loc = some (incrs / 2) := by
  cases hb : dev.create_buffer Buffer.scan_out (size_mul w sizeof_uint)
  · rw [dispatch_no_out _ _ _ _ _ _ _ _ _ hb] at h
    simp only [List.mem_append, List.mem_cons, List.mem_singleton, reduceCtorEq,
      List.not_mem_nil, false_or, enqueue_not_mem_tear_down] at h
  · rw [dispatch_out _ _ _ _ _ _ _ _ _ hb] at h
    simp only [List.mem_append, List.mem_cons, List.mem_singleton, reduceCtorEq,
      List.not_mem_nil, false_or, or_false, enqueue_not_mem_tear_down] at h
    rcases h with h | h
    · have := (enqueue_mem_do_prefix_sum _ _ _ _ _ _ _ _ _ _ _ _ _ _ h).1
      exact absurd this (by decide)
    · by_cases hg : g > 1
      · rw [if_pos hg, List.mem_append] at h
        rcases h with h | h
        · obtain ⟨-, h2, h3, h4, h5⟩ := enqueue_mem_do_prefix_sum _ _ _ _ _ _ _ _ _ _ _ _ _ _ h
          exact ⟨hg, h2, h3, h4, h5⟩
        · have := enqueue_mem_do_prefix_sum_post _ _ _ _ _ _ _ _ _ _ _ _ h
          exact absurd this (by decide)
      · rw [if_neg hg] at h
        simp at h

theorem release_incr_mem_dispatch (dev : Device) (inp : cl_mem) (time : Bool)
    (l w g incrs : Nat) (kp : Bool) :
    Call.release_mem (cl_mem.obj Buffer.scan_incr) ∈
      (prefix_sum_dispatch dev inp time l w g incrs (cl_mem.obj Buffer.scan_incr) kp).calls := by
  cases hb : dev.create_buffer Buffer.scan_out (size_mul w sizeof_uint)
  · rw [dispatch_no_out _ _ _ _ _ _ _ _ _ hb]
    simp [tear_down]
  · rw [dispatch_out _ _ _ _ _ _ _ _ _ hb]
    simp [tear_down]

theorem incr_bytes_eq (W N : Nat) (hN : N < 2 ^ 32)
    (hg : (prefix_sum_elems_ceil W N).2 > 1)
    (hc : ¬ next_pot (prefix_sum_elems_ceil W N).2 > W) :
    size_mul (next_pot (prefix_sum_elems_ceil W N).2) sizeof_uint
      = sizeof_uint * next_pot (prefix_sum_elems_ceil W N).2 := by
  obtain ⟨-, -, h15⟩ := incrs_bounds W N hN hg (by omega)
  unfold size_mul sizeof_uint
  omega

/-- C8: the carry buffer (`incr`) is created only when the block count is
greater than 1; it then has `next_pot blockCount` entries, at least as many as
there are blocks; the stage-2 dispatch scans it in place as one work-group of
`next_pot blockCount / 2` work-items, a number between 1 and the maximum
work-group size; a created carry buffer is released before `prefix_sum`
returns; and with all resources in place a multi-block run that passes the
capacity check does create and scan it. -/
theorem C8_carry_buffer (dev : Device) (inp : cl_mem) (N : Nat) (time : Bool)
    (hN : N < 2 ^ 32) :
    (∀ bytes ok, Call.create_buffer Buffer.scan_incr bytes ok ∈ (prefix_sum dev inp N time).calls →
      (prefix_sum_elems_ceil dev.max_workgroup_size N).2 > 1 ∧
      bytes = sizeof_uint * next_pot (prefix_sum_elems_ceil dev.max_workgroup_size N).2 ∧
      (prefix_sum_elems_ceil dev.max_workgroup_size N).2
        ≤ next_pot (prefix_sum_elems_ceil dev.max_workgroup_size N).2) ∧
    (∀ k args glob loc ok,
      Call.enqueue Site.sums_scan k args glob loc ok ∈ (prefix_sum dev inp N time).calls →
      k = Kernel.prefix_sum ∧
      args = [cl_mem.obj Buffer.scan_incr, cl_mem.obj Buffer.scan_incr, cl_mem.null] ∧
      glob = next_pot (prefix_sum_elems_ceil dev.max_workgroup_size N).2 / 2 ∧
      loc = some (next_pot (prefix_sum_elems_ceil dev.max_workgroup_size N).2 / 2) ∧
      1 ≤ next_pot (prefix_sum_elems_ceil dev.max_workgroup_size N).2 / 2 ∧
      next_pot (prefix_sum_elems_ceil dev.max_workgroup_size N).2 / 2
        ≤ dev.max_workgroup_size) ∧
    (∀ bytes, Call.create_buffer Buffer.scan_incr bytes true ∈ (prefix_sum dev inp N time).calls →
      Call.release_mem (cl_mem.obj Buffer.scan_incr) ∈ (prefix_sum dev inp N time).calls) ∧
    (dev.resources_ok → (prefix_sum_elems_ceil dev.max_workgroup_size N).2 > 1 →
      next_pot (prefix_sum_elems_ceil dev.max_workgroup_size N).2 ≤ dev.max_workgroup_size →
      Call.create_buffer Buffer.scan_incr
        (sizeof_uint * next_pot (prefix_sum_elems_ceil dev.max_workgroup_size N).2) true
        ∈ (prefix_sum dev inp N time).calls ∧
      Site.sums_scan ∈ (prefix_sum dev inp N time).sites) := by
  refine ⟨?_, ?_, ?_, ?_⟩
  · intro bytes ok h
    cases hk : dev.create_kernel Kernel.prefix_sum
    · rw [prefix_sum_no_kernel dev inp N time hk] at h
      simp at h
    · by_cases hg : (prefix_sum_elems_ceil dev.max_workgroup_size N).2 > 1
      · by_cases hc : next_pot (prefix_sum_elems_ceil dev.max_workgroup_size N).2
            > dev.max_workgroup_size
        · rw [prefix_sum_exceeds dev inp N time hk hg hc] at h
          simp at h
        · have hbytes := incr_bytes_eq dev.max_workgroup_size N hN hg hc
          obtain ⟨hle, -, -⟩ := incrs_bounds dev.max_workgroup_size N hN hg (by omega)
          cases hb : dev.create_buffer Buffer.scan_incr
            (size_mul (next_pot (prefix_sum_elems_ceil dev.max_workgroup_size N).2) sizeof_uint)
          · rw [prefix_sum_no_incr dev inp N time hk hg hc hb] at h
            simp at h
            exact ⟨hg, by rw [h.1, hbytes], hle⟩
          · cases hp : dev.create_kernel Kernel.prefix_sum_post
            · rw [prefix_sum_no_post dev inp N time hk hg hc hb hp] at h
              simp at h
              exact ⟨hg, by rw [h.1, hbytes], hle⟩
            · rw [prefix_sum_two_level dev inp N time hk hg hc hb hp] at h
              simp [incr_create_not_mem_dispatch] at h
              exact ⟨hg, by rw [h.1, hbytes], hle⟩
      · rw [prefix_sum_one_level dev inp N time hk hg] at h
        simp [incr_create_not_mem_dispatch] at h
  · intro k args glob loc ok h
    cases hk : dev.create_kernel Kernel.prefix_sum
    · rw [prefix_sum_no_kernel dev inp N time hk] at h
      simp at h
    · by_cases hg : (prefix_sum_elems_ceil dev.max_workgroup_size N).2 > 1
      · by_cases hc : next_pot (prefix_sum_elems_ceil dev.max_workgroup_size N).2
            > dev.max_workgroup_size
        · rw [prefix_sum_exceeds dev inp N time hk hg hc] at h
          simp at h
        · obtain ⟨-, h2, -⟩ := incrs_bounds dev.max_workgroup_size N hN hg (by omega)
          cases hb : dev.create_buffer Buffer.scan_incr
            (size_mul (next_pot (prefix_sum_elems_ceil dev.max_workgroup_size N).2) sizeof_uint)
          · rw [prefix_sum_no_incr dev inp N time hk hg hc hb] at h
            simp at h
          · cases hp : dev.create_kernel Kernel.prefix_sum_post
            · rw [prefix_sum_no_post dev inp N time hk hg hc hb hp] at h
              simp at h
            · rw [prefix_sum_two_level dev inp N time hk hg hc hb hp] at h
              simp only [List.mem_append, List.mem_cons, List.mem_singleton, reduceCtorEq,
                List.not_mem_nil, false_or, or_false] at h
              obtain ⟨-, h2', h3, h4, h5⟩ := sums_scan_mem_dispatch _ _ _ _ _ _ _ _ _ _ _ _ _ _ h
              exact ⟨h2', h3, h4, h5, by omega, by omega⟩
      · rw [prefix_sum_one_level dev inp N time hk hg] at h
        simp only [List.mem_append, List.mem_cons, List.mem_singleton, reduceCtorEq,
          List.not_mem_nil, false_or, or_false] at h
        exact absurd (sums_scan_mem_dispatch _ _ _ _ _ _ _ _ _ _ _ _ _ _ h).1 hg
  · intro bytes h
    cases hk : dev.create_kernel Kernel.prefix_sum
    · rw [prefix_sum_no_kernel dev inp N time hk] at h
      simp at h
    · by_cases hg : (prefix_sum_elems_ceil dev.max_workgroup_size N).2 > 1
      · by_cases hc : next_pot (prefix_sum_elems_ceil dev.max_workgroup_size N).2
            > dev.max_workgroup_size
        · rw [prefix_sum_exceeds dev inp N time hk hg hc] at h
          simp at h
        · cases hb : dev.create_buffer Buffer.scan_incr
            (size_mul (next_pot (prefix_sum_elems_ceil dev.max_workgroup_size N).2) sizeof_uint)
          · rw [prefix_sum_no_incr dev inp N time hk hg hc hb] at h
            simp at h
          · cases hp : dev.create_kernel Kernel.prefix_sum_post
            · rw [prefix_sum_no_post dev inp N time hk hg hc hb hp]
              simp
            · rw [prefix_sum_two_level dev inp N time hk hg hc hb hp]
              simp [release_incr_mem_dispatch]
      · rw [prefix_sum_one_level dev inp N time hk hg] at h
        simp [incr_create_not_mem_dispatch] at h
  · rintro ⟨hk, hb, ha⟩ hg hc
    have hc' : ¬ next_pot (prefix_sum_elems_ceil dev.max_workgroup_size N).2
        > dev.max_workgroup_size := by omega
    have hbytes := incr_bytes_eq dev.max_workgroup_size N hN hg hc'
    constructor
    · rw [prefix_sum_two_level dev inp N time (hk _) hg hc' (hb _ _) (hk _), hbytes]
      simp
    · rw [sites_two_level dev inp N time ⟨hk, hb, ha⟩ hg hc]
      simp

/-- C8 at `W = 2`, `N = 8`: two blocks, a carry buffer of two entries. -/
theorem C8_carry_buffer_witness :
    8 < 2 ^ 32 ∧
    Call.create_buffer Buffer.scan_incr
        (sizeof_uint * next_pot (prefix_sum_elems_ceil (Device.all_ok 2).max_workgroup_size 8).2)
        true
      ∈ (prefix_sum (Device.all_ok 2) (cl_mem.obj Buffer.data) 8 true).calls ∧
    Site.sums_scan ∈ (prefix_sum (Device.all_ok 2) (cl_mem.obj Buffer.data) 8 true).sites :=
  ⟨by decide,
   (C8_carry_buffer (Device.all_ok 2) (cl_mem.obj Buffer.data) 8 true (by decide)).2.2.2
    (all_ok_resources 2) (by decide) (by decide)⟩

/-! ## Failures inside the pipeline -/

/-- C9 (the code at the failing input): on a device with `W = 2` that rejects the
block-scan dispatch, `prefix_sum` on 8 elements gets `-1` from `do_prefix_sum`,
prints the enqueue diagnostic, still issues the scan of the block sums and the
carry propagation, and returns the output buffer.  The same on a runtime that
only checks the dispatch sizes: for `W = 2` and 5 elements the block scan asks
for a work-group of 4 work-items, is rejected, and `prefix_sum` returns the
output buffer. -/
theorem C9_dispatch_failure_ignored :
    (do_prefix_sum (Device.rejecting 2 Site.block_scan) Site.block_scan 2 4
      (cl_mem.obj Buffer.data) (cl_mem.obj Buffer.scan_out) (cl_mem.obj Buffer.scan_incr)
      false).1 = -1 ∧
    Call.print Msg.not_enqueued ∈
      (prefix_sum (Device.rejecting 2 Site.block_scan) (cl_mem.obj Buffer.data) 8 false).calls ∧
    (prefix_sum (Device.rejecting 2 Site.block_scan) (cl_mem.obj Buffer.data) 8 false).sites
      = [Site.block_scan, Site.sums_scan, Site.carry] ∧
    (prefix_sum (Device.rejecting 2 Site.block_scan) (cl_mem.obj Buffer.data) 8 false).ret
      = cl_mem.obj Buffer.scan_out ∧
    Call.enqueue Site.block_scan Kernel.prefix_sum
        [cl_mem.obj Buffer.data, cl_mem.obj Buffer.scan_out, cl_mem.null] 4 (some 4) false ∈
      (prefix_sum (Device.checking 2) (cl_mem.obj Buffer.data) 5 false).calls ∧
    (prefix_sum (Device.checking 2) (cl_mem.obj Buffer.data) 5 false).ret
      = cl_mem.obj Buffer.scan_out := by
  decide

/-- C10 (the code at the failing input): on a device with `W = 128` the scan of
the bin counts is rejected by the capacity check and `prefix_sum` returns
`(cl_mem)-1`; `frnn_sort` and `ndt_sort` store that handle in `bin_prefix`, bind
it as an argument of `kernel_reindex`, dispatch the scatter and return the
sorted-points buffer. -/
theorem C10_sort_continues_after_scan_failure :
    SortRun.bin_prefix (frnn_sort (Device.all_ok 128) 1000 (cl_mem.obj Buffer.data))
      = some cl_mem.minus_one ∧
    (frnn_sort (Device.all_ok 128) 1000 (cl_mem.obj Buffer.data)).sites
      = [Site.ins_cnt, Site.reindex] ∧
    (frnn_sort (Device.all_ok 128) 1000 (cl_mem.obj Buffer.data)).ret
      = cl_mem.obj Buffer.sorted ∧
    SortRun.bin_prefix (ndt_sort (Device.all_ok 128) 1000 (cl_mem.obj Buffer.data))
      = some cl_mem.minus_one ∧
    (ndt_sort (Device.all_ok 128) 1000 (cl_mem.obj Buffer.data)).sites
      = [Site.ins_cnt, Site.reindex] ∧
    (ndt_sort (Device.all_ok 128) 1000 (cl_mem.obj Buffer.data)).ret
      = cl_mem.obj Buffer.sorted := by
  decide

/-! ## The two-level scan on the device memory -/

theorem sum_range_congr (f g : Nat → Nat) (lo n : Nat)
    (h : ∀ t, t < n → f (lo + t) = g (lo + t)) : sum_range f lo n = sum_range g lo n := by
  induction n with
  | zero => simp [sum_range]
  | succ n ih =>
    rw [sum_range, sum_range, ih (fun t ht => h t (by omega)), h n (by omega)]

theorem exec_append (mem : Mem) (a b : List Call) :
    exec mem (a ++ b) = exec (exec mem a) b := by
  simp [exec, List.foldl_append]

theorem exec_cons (mem : Mem) (c : Call) (cs : List Call) :
    exec mem (c :: cs) = exec (exec_call mem c) cs := rfl

theorem exec_nil (mem : Mem) : exec mem [] = mem := rfl

theorem exec_timing (mem : Mem) (time : Bool) : exec mem (timing time) = mem := by
  cases time <;> simp [timing, exec, exec_call]

theorem exec_tear_down (mem : Mem) (kp : Bool) (incr : cl_mem) :
    exec mem (tear_down kp incr) = mem := by
  unfold tear_down
  split_ifs <;> simp [exec, exec_call]

/-- C1 (the code at the failing input): with `W = 2` and `N = 9` elements, all
equal to 1, the block count is computed from `9 / 2 = 4` and the padded count
is `8`; on a runtime that checks every dispatch the scan accepts the input,
creates an output buffer of 8 entries (32 bytes), fills them with `0, ..., 7`,
and leaves index 8 alone, where the exclusive prefix sum is `8`.  The same
rounding happens at `W = 256`, `N = 1025`, padded to `1024`.  On the spec
scenario, 10 ones with `W = 8`, the output is `0, ..., 9`. -/
theorem C1_scan_drops_last_odd_element :
    prefix_sum_elems_ceil 2 9 = (8, 2) ∧
    prefix_sum_elems_ceil 256 1025 = (1024, 2) ∧
    (prefix_sum (Device.checking 2) (cl_mem.obj Buffer.data) 9 false).accepted = true ∧
    (prefix_sum (Device.checking 2) (cl_mem.obj Buffer.data) 9 false).ret
      = cl_mem.obj Buffer.scan_out ∧
    Call.create_buffer Buffer.scan_out 32 true ∈
      (prefix_sum (Device.checking 2) (cl_mem.obj Buffer.data) 9 false).calls ∧
    (exec Mem.ones (prefix_sum (Device.checking 2) (cl_mem.obj Buffer.data) 9 false).calls).read
      Buffer.scan_out 9 = [0, 1, 2, 3, 4, 5, 6, 7, 0] ∧
    sum_range (Mem.ones Buffer.data) 0 8 = 8 ∧
    (prefix_sum (Device.checking 8) (cl_mem.obj Buffer.data) 10 false).accepted = true ∧
    (exec Mem.ones (prefix_sum (Device.checking 8) (cl_mem.obj Buffer.data) 10 false).calls).read
      Buffer.scan_out 10 = [0, 1, 2, 3, 4, 5, 6, 7, 8, 9] := by
  decide

/-! ## Capacity up to `W ^ 2`, and the element counts 1 and 0 -/

theorem exceeds_mem_only_if (dev : Device) (inp : cl_mem) (N : Nat) (time : Bool)
    (h : Call.print Msg.exceeds_limits ∈ (prefix_sum dev inp N time).calls) :
    (prefix_sum_elems_ceil dev.max_workgroup_size N).2 > 1 ∧
      next_pot (prefix_sum_elems_ceil dev.max_workgroup_size N).2 > dev.max_workgroup_size := by
  cases hk : dev.create_kernel Kernel.prefix_sum
  · rw [prefix_sum_no_kernel dev inp N time hk] at h
    simp at h
  · by_cases hg : (prefix_sum_elems_ceil dev.max_workgroup_size N).2 > 1
    · by_cases hc : next_pot (prefix_sum_elems_ceil dev.max_workgroup_size N).2
          > dev.max_workgroup_size
      · exact ⟨hg, hc⟩
      · cases hb : dev.create_buffer Buffer.scan_incr
          (size_mul (next_pot (prefix_sum_elems_ceil dev.max_workgroup_size N).2) sizeof_uint)
        · rw [prefix_sum_no_incr dev inp N time hk hg hc hb] at h
          simp at h
        · cases hp : dev.create_kernel Kernel.prefix_sum_post
          · rw [prefix_sum_no_post dev inp N time hk hg hc hb hp] at h
            simp at h
          · rw [prefix_sum_two_level dev inp N time hk hg hc hb hp] at h
            simp [exceeds_not_mem_dispatch] at h
    · rw [prefix_sum_one_level dev inp N time hk hg] at h
      simp [exceeds_not_mem_dispatch] at h

theorem fits_of_le_sq (W N : Nat) (hN32 : N < 2 ^ 32) (hN : N ≤ W ^ 2) :
    ¬ ((prefix_sum_elems_ceil W N).2 > 1 ∧ next_pot (prefix_sum_elems_ceil W N).2 > W) := by
  rintro ⟨hg, hc⟩
  obtain ⟨hW, hwrap⟩ := no_wrap_of_multi W N hN32 hg
  have hmul := work_groups_mul_le W N hwrap hW
  have hle := work_groups_le W N hN32
  have hlt := next_pot_lt_two_mul _ (by omega : 2 ≤ (prefix_sum_elems_ceil W N).2) hle
  generalize (prefix_sum_elems_ceil W N).2 = g at *
  have h2g : W + 2 ≤ 2 * g := by omega
  have h1 : (W + 2) * W ≤ 2 * g * W := Nat.mul_le_mul_right W h2g
  have h2 : 2 * g * W = 2 * (g * W) := by ring
  have h3 : (W + 2) * W = W ^ 2 + 2 * W := by ring
  omega

/-- C17: for every maximum work-group size `W ≥ 1` and every element count `N`
with `1 ≤ N ≤ W ^ 2` the capacity check of `prefix_sum` passes: the run does
not print "Data size prefix sum exceeds limits", whatever the runtime answers. -/
theorem C17_capacity_up_to_W_squared (dev : Device) (inp : cl_mem) (N : Nat) (time : Bool)
    (_hW : 1 ≤ dev.max_workgroup_size) (_h1 : 1 ≤ N) (hN32 : N < 2 ^ 32)
    (hN : N ≤ dev.max_workgroup_size ^ 2) :
    ¬ ((prefix_sum_elems_ceil dev.max_workgroup_size N).2 > 1 ∧
        next_pot (prefix_sum_elems_ceil dev.max_workgroup_size N).2 > dev.max_workgroup_size) ∧
    Call.print Msg.exceeds_limits ∉ (prefix_sum dev inp N time).calls := by
  have hfit := fits_of_le_sq dev.max_workgroup_size N hN32 hN
  exact ⟨hfit, fun h => hfit (exceeds_mem_only_if dev inp N time h)⟩

/-- C17 at `W = 4`, `N = 16`: two blocks, `next_pot 2 = 2 ≤ 4`. -/
theorem C17_capacity_up_to_W_squared_witness :
    (1 ≤ (Device.all_ok 4).max_workgroup_size ∧ 1 ≤ 16 ∧ 16 < 2 ^ 32 ∧
      16 ≤ (Device.all_ok 4).max_workgroup_size ^ 2) ∧
    ¬ ((prefix_sum_elems_ceil (Device.all_ok 4).max_workgroup_size 16).2 > 1 ∧
        next_pot (prefix_sum_elems_ceil (Device.all_ok 4).max_workgroup_size 16).2
          > (Device.all_ok 4).max_workgroup_size) ∧
    Call.print Msg.exceeds_limits ∉
      (prefix_sum (Device.all_ok 4) (cl_mem.obj Buffer.data) 16 false).calls :=
  ⟨by decide,
   C17_capacity_up_to_W_squared (Device.all_ok 4) (cl_mem.obj Buffer.data) 16 false
    (by decide) (by decide) (by decide) (by decide)⟩

theorem work_groups_zero (W N : Nat) (hN : N ≤ 1) : (prefix_sum_elems_ceil W N).2 = 0 := by
  show size_sub (size_add (N / 2) W) 1 / W = 0
  have h0 : N / 2 = 0 := by omega
  rw [h0]
  rcases Nat.eq_zero_or_pos W with hW | hW
  · subst hW; simp
  · apply Nat.div_eq_of_lt
    unfold size_sub size_add
    omega

theorem elems_ceil_zero (W : Nat) : prefix_sum_elems_ceil W 0 = (1, 0) := by
  have hg := work_groups_zero W 0 (by decide)
  have h1 := elems_ceil_single W 0 (by omega)
  exact Prod.ext (by rw [h1, next_pot_zero]) hg

theorem kernel_prefix_sum_empty (mem : Mem) (inp out : Buffer) (incr : Option Buffer) :
    kernel_prefix_sum mem inp out incr 0 0 = mem := by
  funext b i
  cases incr <;> simp [kernel_prefix_sum]

theorem exec_do_prefix_sum_empty (dev : Device) (s : Site) (inp out incr : cl_mem) (time : Bool)
    (mem : Mem) : exec mem (do_prefix_sum dev s 0 0 inp out incr time).2 = mem := by
  rw [do_prefix_sum_calls]
  cases dev.set_kernel_args s [inp, out, incr] <;> cases dev.enqueue s 0 (some 0) <;>
    cases inp <;> cases out <;>
    simp [exec_cons, exec_nil, exec_timing, exec_call, kernel_prefix_sum_empty]

/-- With a block count of 0 and a padded count below 2 the single block scan
gets the global size 0 and the work-group size 0; the run leaves the device
memory as it was. -/
theorem prefix_sum_tiny (dev : Device) (inp : cl_mem) (N : Nat) (time : Bool) (hN : N ≤ 1)
    (hp : (prefix_sum_elems_ceil dev.max_workgroup_size N).1 / 2 = 0) :
    (∀ s k args g l ok, Call.enqueue s k args g l ok ∈ (prefix_sum dev inp N time).calls →
      s = Site.block_scan ∧ g = 0 ∧ l = some 0) ∧
    (∀ mem : Mem, exec mem (prefix_sum dev inp N time).calls = mem) ∧
    ((∃ m, Call.print m ∈ (prefix_sum dev inp N time).calls) ∨
      (prefix_sum dev inp N time).sites = [Site.block_scan]) := by
  have hg0 := work_groups_zero dev.max_workgroup_size N hN
  have hg : ¬ (prefix_sum_elems_ceil dev.max_workgroup_size N).2 > 1 := by omega
  cases hk : dev.create_kernel Kernel.prefix_sum
  · rw [prefix_sum_no_kernel dev inp N time hk]
    refine ⟨?_, ?_, Or.inl ⟨Msg.no_scan_kernel, by simp⟩⟩
    · intro s k args g l ok h
      simp at h
    · intro mem
      simp [exec_cons, exec_nil, exec_call]
  · rw [Run.sites, prefix_sum_one_level dev inp N time hk hg]
    simp only [hp]
    cases hb : dev.create_buffer Buffer.scan_out
      (size_mul (prefix_sum_elems_ceil dev.max_workgroup_size N).1 sizeof_uint)
    · rw [dispatch_no_out _ _ _ _ _ _ _ _ _ hb]
      refine ⟨?_, ?_, Or.inl ⟨Msg.no_out_buffer, by simp⟩⟩
      · intro s k args g l ok h
        simp [enqueue_not_mem_tear_down] at h
      · intro mem
        simp [exec_append, exec_cons, exec_nil, exec_call, exec_tear_down]
    · rw [dispatch_out _ _ _ _ _ _ _ _ _ hb]
      simp only [if_neg hg, hp]
      refine ⟨?_, ?_, ?_⟩
      · intro s k args g l ok h
        simp only [List.mem_append, List.mem_cons, List.mem_singleton, reduceCtorEq,
          List.not_mem_nil, false_or, or_false, enqueue_not_mem_tear_down] at h
        obtain ⟨h1, -, -, h4, h5⟩ := enqueue_mem_do_prefix_sum _ _ _ _ _ _ _ _ _ _ _ _ _ _ h
        exact ⟨h1, h4, h5⟩
      · intro mem
        simp [exec_append, exec_cons, exec_nil, exec_call, exec_tear_down,
          exec_do_prefix_sum_empty]
      · cases ha : dev.set_kernel_args Site.block_scan
          [inp, cl_mem.obj Buffer.scan_out, cl_mem.null]
        · left
          refine ⟨Msg.args_not_set, ?_⟩
          rw [do_prefix_sum_calls]
          simp [ha]
        · right
          simp [List.filterMap_append, sites_do_prefix_sum, sites_tear_down, Call.site, ha]

/-- C12 (the code at the failing input): `prefix_sum` has no case for an empty
input.  For no element and every device it goes on to the block scan, and
every dispatch it issues has the global size 0 and the work-group size 0; on
every runtime it either prints a diagnostic or issues that dispatch.  A
runtime that checks the dispatch sizes gets the dispatch, rejects it, and the
diagnostic is printed. -/
theorem C12_no_element_is_not_a_no_op (dev : Device) (inp : cl_mem) (time : Bool) :
    (∀ s k args g l ok, Call.enqueue s k args g l ok ∈ (prefix_sum dev inp 0 time).calls →
      s = Site.block_scan ∧ g = 0 ∧ l = some 0) ∧
    ((∃ m, Call.print m ∈ (prefix_sum dev inp 0 time).calls) ∨
      (prefix_sum dev inp 0 time).sites = [Site.block_scan]) ∧
    (prefix_sum (Device.all_ok 256) (cl_mem.obj Buffer.data) 0 false).sites
      = [Site.block_scan] ∧
    (prefix_sum (Device.checking 256) (cl_mem.obj Buffer.data) 0 false).sites
      = [Site.block_scan] ∧
    Call.enqueue Site.block_scan Kernel.prefix_sum
        [cl_mem.obj Buffer.data, cl_mem.obj Buffer.scan_out, cl_mem.null] 0 (some 0) false ∈
      (prefix_sum (Device.checking 256) (cl_mem.obj Buffer.data) 0 false).calls ∧
    Call.print Msg.not_enqueued ∈
      (prefix_sum (Device.checking 256) (cl_mem.obj Buffer.data) 0 false).calls := by
  have h0 := elems_ceil_zero dev.max_workgroup_size
  have ht := prefix_sum_tiny dev inp 0 time (by decide) (by rw [h0]; rfl)
  exact ⟨ht.1, ht.2.2, by decide, by decide, by decide, by decide⟩
/-! ## The bin buffers of the sort drivers -/

theorem sites_prefix_sum_subset (dev : Device) (inp : cl_mem) (N : Nat) (time : Bool) :
    (prefix_sum dev inp N time).sites ⊆ [Site.block_scan, Site.sums_scan, Site.carry] := by
  rw [Run.sites]
  cases hk : dev.create_kernel Kernel.prefix_sum
  · rw [prefix_sum_no_kernel dev inp N time hk]
    simp [Call.site]
  · by_cases hg : (prefix_sum_elems_ceil dev.max_workgroup_size N).2 > 1
    · by_cases hc : next_pot (prefix_sum_elems_ceil dev.max_workgroup_size N).2
          > dev.max_workgroup_size
      · rw [prefix_sum_exceeds dev inp N time hk hg hc]
        simp [Call.site]
      · cases hb : dev.create_buffer Buffer.scan_incr
          (size_mul (next_pot (prefix_sum_elems_ceil dev.max_workgroup_size N).2) sizeof_uint)
        · rw [prefix_sum_no_incr dev inp N time hk hg hc hb]
          simp [Call.site]
        · cases hp : dev.create_kernel Kernel.prefix_sum_post
          · rw [prefix_sum_no_post dev inp N time hk hg hc hb hp]
            simp [Call.site]
          · rw [prefix_sum_two_level dev inp N time hk hg hc hb hp]
            simp only [List.filterMap_append, sites_dispatch]
            split_ifs <;> simp [Call.site]
    · rw [prefix_sum_one_level dev inp N time hk hg]
      simp only [List.filterMap_append, sites_dispatch]
      split_ifs <;> simp [Call.site]

/-- The calls of a run of `frnn_sort` that returns a buffer. -/
theorem frnn_sort_success (dev : Device) (elems : Nat) (inp : cl_mem)
    (hret : (frnn_sort dev elems inp).ret ≠ cl_mem.null) :
    (frnn_sort dev elems inp).calls =
      [Call.create_kernel Kernel.kernel_ins_cnt true,
       Call.create_buffer Buffer.in_bin (size_mul elems sizeof_uint) true,
       Call.create_buffer Buffer.bin_elems (size_mul (prefix_sum_elems_ceil dev.max_workgroup_size
        (frnn_bins_dim * frnn_bins_dim * frnn_bins_dim)).1 sizeof_uint) true,
       Call.fill_buffer (cl_mem.obj Buffer.bin_elems) (size_mul (prefix_sum_elems_ceil dev.max_workgroup_size
        (frnn_bins_dim * frnn_bins_dim * frnn_bins_dim)).1 sizeof_uint)
         (dev.fill_buffer (cl_mem.obj Buffer.bin_elems) (size_mul (prefix_sum_elems_ceil dev.max_workgroup_size
        (frnn_bins_dim * frnn_bins_dim * frnn_bins_dim)).1 sizeof_uint)),
       Call.set_kernel_args Site.ins_cnt [inp, cl_mem.obj Buffer.in_bin, cl_mem.obj Buffer.bin_elems] true]
      ++ [Call.enqueue Site.ins_cnt Kernel.kernel_ins_cnt [inp, cl_mem.obj Buffer.in_bin, cl_mem.obj Buffer.bin_elems] elems none true,
          Call.finish, Call.release_event]
      ++ (prefix_sum dev (cl_mem.obj Buffer.bin_elems) (prefix_sum_elems_ceil dev.max_workgroup_size
        (frnn_bins_dim * frnn_bins_dim * frnn_bins_dim)).1 true).calls
      ++ [Call.create_kernel Kernel.kernel_reindex true,
       Call.create_buffer Buffer.bin_idx (size_mul (prefix_sum_elems_ceil dev.max_workgroup_size
        (frnn_bins_dim * frnn_bins_dim * frnn_bins_dim)).1 sizeof_uint) true,
       Call.fill_buffer (cl_mem.obj Buffer.bin_idx) (size_mul (prefix_sum_elems_ceil dev.max_workgroup_size
        (frnn_bins_dim * frnn_bins_dim * frnn_bins_dim)).1 sizeof_uint)
         (dev.fill_buffer (cl_mem.obj Buffer.bin_idx) (size_mul (prefix_sum_elems_ceil dev.max_workgroup_size
        (frnn_bins_dim * frnn_bins_dim * frnn_bins_dim)).1 sizeof_uint)),
       Call.create_buffer Buffer.sorted (size_mul (size_mul 3 elems) sizeof_uint) true,
       Call.set_kernel_args Site.reindex [inp, cl_mem.obj Buffer.sorted, cl_mem.obj Buffer.in_bin,
        (prefix_sum dev (cl_mem.obj Buffer.bin_elems) (prefix_sum_elems_ceil dev.max_workgroup_size
        (frnn_bins_dim * frnn_bins_dim * frnn_bins_dim)).1 true).ret, cl_mem.obj Buffer.bin_idx] true]
      ++ [Call.enqueue Site.reindex Kernel.kernel_reindex [inp, cl_mem.obj Buffer.sorted, cl_mem.obj Buffer.in_bin,
        (prefix_sum dev (cl_mem.obj Buffer.bin_elems) (prefix_sum_elems_ceil dev.max_workgroup_size
        (frnn_bins_dim * frnn_bins_dim * frnn_bins_dim)).1 true).ret, cl_mem.obj Buffer.bin_idx] elems none true,
          Call.finish, Call.release_event,
          Call.release_mem (cl_mem.obj Buffer.bin_idx), Call.release_mem (cl_mem.obj Buffer.in_bin),
          Call.release_kernel Kernel.kernel_ins_cnt,
          Call.release_kernel Kernel.kernel_reindex] := by
  cases k1 : dev.create_kernel Kernel.kernel_ins_cnt
  · simp only [frnn_sort, k1, Bool.true_eq_false, eq_self_iff_true,
      if_true, if_false] at hret
    exact absurd rfl hret
  cases c1 : dev.create_buffer Buffer.in_bin (size_mul elems sizeof_uint)
  · simp only [frnn_sort, k1, c1, Bool.true_eq_false, eq_self_iff_true,
      if_true, if_false] at hret
    exact absurd rfl hret
  cases c2 : dev.create_buffer Buffer.bin_elems (size_mul (prefix_sum_elems_ceil dev.max_workgroup_size
        (frnn_bins_dim * frnn_bins_dim * frnn_bins_dim)).1 sizeof_uint)
  · simp only [frnn_sort, k1, c1, c2, Bool.true_eq_false, eq_self_iff_true,
      if_true, if_false] at hret
    exact absurd rfl hret
  cases a1 : dev.set_kernel_args Site.ins_cnt [inp, cl_mem.obj Buffer.in_bin, cl_mem.obj Buffer.bin_elems]
  · simp only [frnn_sort, k1, c1, c2, a1, Bool.true_eq_false, eq_self_iff_true,
      if_true, if_false] at hret
    exact absurd rfl hret
  cases e1 : dev.enqueue Site.ins_cnt elems none
  · simp only [frnn_sort, k1, c1, c2, a1, e1, Bool.true_eq_false, eq_self_iff_true,
      if_true, if_false] at hret
    exact absurd rfl hret
  cases k2 : dev.create_kernel Kernel.kernel_reindex
  · simp only [frnn_sort, k1, c1, c2, a1, e1, k2, Bool.true_eq_false, eq_self_iff_true,
      if_true, if_false] at hret
    exact absurd rfl hret
  cases c3 : dev.create_buffer Buffer.bin_idx (size_mul (prefix_sum_elems_ceil dev.max_workgroup_size
        (frnn_bins_dim * frnn_bins_dim * frnn_bins_dim)).1 sizeof_uint)
  · simp only [frnn_sort, k1, c1, c2, a1, e1, k2, c3, Bool.true_eq_false, eq_self_iff_true,
      if_true, if_false] at hret
    exact absurd rfl hret
  cases c4 : dev.create_buffer Buffer.sorted (size_mul (size_mul 3 elems) sizeof_uint)
  · simp only [frnn_sort, k1, c1, c2, a1, e1, k2, c3, c4, Bool.true_eq_false, eq_self_iff_true,
      if_true, if_false] at hret
    exact absurd rfl hret
  cases a2 : dev.set_kernel_args Site.reindex [inp, cl_mem.obj Buffer.sorted, cl_mem.obj Buffer.in_bin,
        (prefix_sum dev (cl_mem.obj Buffer.bin_elems) (prefix_sum_elems_ceil dev.max_workgroup_size
        (frnn_bins_dim * frnn_bins_dim * frnn_bins_dim)).1 true).ret, cl_mem.obj Buffer.bin_idx]
  · simp only [frnn_sort, k1, c1, c2, a1, e1, k2, c3, c4, a2, Bool.true_eq_false, eq_self_iff_true,
      if_true, if_false] at hret
    exact absurd rfl hret
  cases e2 : dev.enqueue Site.reindex elems none
  · simp only [frnn_sort, k1, c1, c2, a1, e1, k2, c3, c4, a2, e2, Bool.true_eq_false, eq_self_iff_true,
      if_true, if_false] at hret
    exact absurd rfl hret
  simp only [frnn_sort, k1, c1, c2, a1, e1, k2, c3, c4, a2, e2, Bool.true_eq_false, eq_self_iff_true,
      if_true, if_false]
  simp

/-- The result of `clEnqueueFillBuffer` is not looked at: on a device where every
fill fails, `frnn_sort` issues the same dispatches and returns the sorted
buffer. -/
theorem fill_result_discarded :
    (frnn_sort (Device.no_fill 1024) 5 (cl_mem.obj Buffer.data)).sites
      = (frnn_sort (Device.all_ok 1024) 5 (cl_mem.obj Buffer.data)).sites ∧
    Site.ins_cnt ∈ (frnn_sort (Device.no_fill 1024) 5 (cl_mem.obj Buffer.data)).sites ∧
    (frnn_sort (Device.no_fill 1024) 5 (cl_mem.obj Buffer.data)).ret
      = cl_mem.obj Buffer.sorted := by
  decide

theorem waits_append (l1 l2 : List Call) (h1 : waits_after_dispatch l1 = true)
    (h2 : waits_after_dispatch l2 = true) : waits_after_dispatch (l1 ++ l2) = true := by
  induction l1 with
  | nil => simpa using h2
  | cons c cs ih =>
    simp only [waits_after_dispatch, Bool.and_eq_true, Bool.or_eq_true] at h1
    obtain ⟨hc, hcs⟩ := h1
    simp only [List.cons_append, waits_after_dispatch, Bool.and_eq_true, Bool.or_eq_true]
    refine ⟨?_, ih hcs⟩
    rcases hc with hc | hc
    · exact Or.inl hc
    · cases cs with
      | nil => simp at hc
      | cons d ds => exact Or.inr (by simpa using hc)

theorem waits_tear_down (kp : Bool) (incr : cl_mem) :
    waits_after_dispatch (tear_down kp incr) = true := by
  unfold tear_down
  split_ifs <;> rfl

theorem waits_do_prefix_sum (dev : Device) (s : Site) (l g : Nat) (inp out incr : cl_mem) :
    waits_after_dispatch (do_prefix_sum dev s l g inp out incr true).2 = true := by
  rw [do_prefix_sum_calls]
  cases dev.set_kernel_args s [inp, out, incr] <;> cases dev.enqueue s g (some l) <;> rfl

theorem waits_do_prefix_sum_post (dev : Device) (l w : Nat) (data incr : cl_mem) :
    waits_after_dispatch (do_prefix_sum_post dev l w data incr true).2 = true := by
  rw [do_prefix_sum_post_calls]
  cases dev.set_kernel_args Site.carry [data, incr] <;>
    cases dev.enqueue Site.carry (size_sub w (size_mul 2 l)) (some l) <;> rfl

theorem waits_dispatch (dev : Device) (inp : cl_mem) (l w g incrs : Nat) (incr : cl_mem)
    (kp : Bool) :
    waits_after_dispatch (prefix_sum_dispatch dev inp true l w g incrs incr kp).calls = true := by
  cases hb : dev.create_buffer Buffer.scan_out (size_mul w sizeof_uint)
  · rw [dispatch_no_out _ _ _ _ _ _ _ _ _ hb]
    exact waits_append _ _ rfl (waits_tear_down kp incr)
  · rw [dispatch_out _ _ _ _ _ _ _ _ _ hb]
    refine waits_append _ _ (waits_append _ _ (waits_append _ _ rfl
      (waits_do_prefix_sum _ _ _ _ _ _ _)) ?_) (waits_tear_down kp incr)
    split_ifs
    · exact waits_append _ _ (waits_do_prefix_sum _ _ _ _ _ _ _)
        (waits_do_prefix_sum_post _ _ _ _ _)
    · rfl

/-- With timing on, every accepted dispatch of `prefix_sum` is directly followed
by `clFinish`. -/
theorem waits_prefix_sum (dev : Device) (inp : cl_mem) (N : Nat) :
    waits_after_dispatch (prefix_sum dev inp N true).calls = true := by
  cases hk : dev.create_kernel Kernel.prefix_sum
  · rw [prefix_sum_no_kernel dev inp N true hk]
    rfl
  · by_cases hg : (prefix_sum_elems_ceil dev.max_workgroup_size N).2 > 1
    · by_cases hc : next_pot (prefix_sum_elems_ceil dev.max_workgroup_size N).2
          > dev.max_workgroup_size
      · rw [prefix_sum_exceeds dev inp N true hk hg hc]
        rfl
      · cases hb : dev.create_buffer Buffer.scan_incr
          (size_mul (next_pot (prefix_sum_elems_ceil dev.max_workgroup_size N).2) sizeof_uint)
        · rw [prefix_sum_no_incr dev inp N true hk hg hc hb]
          rfl
        · cases hp : dev.create_kernel Kernel.prefix_sum_post
          · rw [prefix_sum_no_post dev inp N true hk hg hc hb hp]
            rfl
          · rw [prefix_sum_two_level dev inp N true hk hg hc hb hp]
            exact waits_append _ _ rfl (waits_dispatch _ _ _ _ _ _ _ _)
    · rw [prefix_sum_one_level dev inp N true hk hg]
      exact waits_append _ _ rfl (waits_dispatch _ _ _ _ _ _ _ _)

/-- C14: on every run of `frnn_sort` that returns a buffer, the dispatches are
the counting kernel, then the dispatches of the scan `prefix_sum` (all of them
scan dispatches), then the scatter kernel, in this order; and every accepted
dispatch of the run is directly followed by `clFinish`, so that no later call,
in particular no later dispatch, is made before the kernel has completed. -/
theorem C14_count_scan_scatter_order (dev : Device) (elems : Nat) (inp : cl_mem)
    (hret : (frnn_sort dev elems inp).ret ≠ cl_mem.null) :
    (frnn_sort dev elems inp).sites =
      Site.ins_cnt ::
        ((prefix_sum dev (cl_mem.obj Buffer.bin_elems)
            (prefix_sum_elems_ceil dev.max_workgroup_size
              (frnn_bins_dim * frnn_bins_dim * frnn_bins_dim)).1 true).sites
          ++ [Site.reindex]) ∧
    (prefix_sum dev (cl_mem.obj Buffer.bin_elems)
        (prefix_sum_elems_ceil dev.max_workgroup_size
          (frnn_bins_dim * frnn_bins_dim * frnn_bins_dim)).1 true).sites
      ⊆ [Site.block_scan, Site.sums_scan, Site.carry] ∧
    waits_after_dispatch (frnn_sort dev elems inp).calls = true := by
  have hcalls := frnn_sort_success dev elems inp hret
  have hw := waits_prefix_sum dev (cl_mem.obj Buffer.bin_elems)
    (prefix_sum_elems_ceil dev.max_workgroup_size
      (frnn_bins_dim * frnn_bins_dim * frnn_bins_dim)).1
  have hsub := sites_prefix_sum_subset dev (cl_mem.obj Buffer.bin_elems)
    (prefix_sum_elems_ceil dev.max_workgroup_size
      (frnn_bins_dim * frnn_bins_dim * frnn_bins_dim)).1 true
  rw [SortRun.sites, hcalls]
  generalize (prefix_sum dev (cl_mem.obj Buffer.bin_elems)
    (prefix_sum_elems_ceil dev.max_workgroup_size
      (frnn_bins_dim * frnn_bins_dim * frnn_bins_dim)).1 true) = scan at hw hsub ⊢
  refine ⟨?_, hsub, ?_⟩
  · simp [List.filterMap_append, Run.sites, Call.site]
  · exact waits_append _ _ (waits_append _ _ (waits_append _ _ (waits_append _ _ rfl rfl) hw)
      rfl) rfl

/-- C14 on a device with `W = 1024` and 5 points: the run returns the sorted
buffer, and its dispatches are the count, the three scan dispatches and the
scatter. -/
theorem C14_count_scan_scatter_order_witness :
    (frnn_sort (Device.all_ok 1024) 5 (cl_mem.obj Buffer.data)).ret ≠ cl_mem.null ∧
    (frnn_sort (Device.all_ok 1024) 5 (cl_mem.obj Buffer.data)).sites =
      Site.ins_cnt ::
        ((prefix_sum (Device.all_ok 1024) (cl_mem.obj Buffer.bin_elems)
            (prefix_sum_elems_ceil (Device.all_ok 1024).max_workgroup_size
              (frnn_bins_dim * frnn_bins_dim * frnn_bins_dim)).1 true).sites
          ++ [Site.reindex]) ∧
    waits_after_dispatch (frnn_sort (Device.all_ok 1024) 5 (cl_mem.obj Buffer.data)).calls
      = true :=
  ⟨by decide,
   (C14_count_scan_scatter_order (Device.all_ok 1024) 5 (cl_mem.obj Buffer.data) (by decide)).1,
   (C14_count_scan_scatter_order (Device.all_ok 1024) 5 (cl_mem.obj Buffer.data) (by decide)).2.2⟩
/-! ## `sorted_entries`: the number of sorted points read back (ndt.c) -/

theorem sum_range_succ (f : Nat → Nat) (lo n : Nat) :
    sum_range f lo (n + 1) = sum_range f lo n + f (lo + n) := rfl

theorem sum_range_eq_zero (f : Nat → Nat) (lo n : Nat) (h : ∀ j, j < n → f (lo + j) = 0) :
    sum_range f lo n = 0 := by
  induction n with
  | zero => rfl
  | succ n ih =>
    rw [sum_range, ih (fun j hj => h j (by omega)), h n (by omega)]

/-- The grid of ndt.c has 64000 real bins. -/
theorem ndt_bins : ndt_bins_dim * ndt_bins_dim * ndt_bins_dim = 63999 + 1 := by decide

/-- The value of `sorted_entries` in terms of the two entries it reads. -/
theorem sorted_entries_val (dev : Device) (bin_elems bin_prefix : cl_mem) :
    (sorted_entries dev bin_elems bin_prefix).1 =
      (dev.read_uint bin_prefix 63999 + dev.read_uint bin_elems 63999) % 2 ^ 32 := by
  simp [sorted_entries, ndt_bins]

theorem holding_counts (counts offsets : Nat → Nat) :
    (Device.holding counts offsets).read_uint (cl_mem.obj Buffer.bin_elems) = counts := by
  funext i
  simp [Device.holding]

theorem holding_offsets (counts offsets : Nat → Nat) :
    (Device.holding counts offsets).read_uint (cl_mem.obj Buffer.scan_out) = offsets := by
  funext i
  simp [Device.holding]

/-- The offsets of a device that holds all its points in the bins 63998 and
63999 are the exclusive prefix sum of its counts over the real bins. -/
theorem offsets_of_last_two (counts : Nat → Nat) (a : Nat)
    (h0 : ∀ j, j < 63998 → counts j = 0) (ha : counts 63998 = a) (i : Nat) (hi : i < 64000) :
    (if i = 63999 then a else 0) = sum_range counts 0 i := by
  by_cases h : i = 63999
  · subst h
    rw [if_pos rfl]
    have h1 := sum_range_succ counts 0 63998
    rw [show (63999 : Nat) = 63998 + 1 from rfl, h1,
      sum_range_eq_zero counts 0 63998 (fun j hj => by rw [Nat.zero_add]; exact h0 j hj),
      Nat.zero_add, Nat.zero_add, ha]
  · rw [if_neg h, sum_range_eq_zero counts 0 i
      (fun j hj => by rw [Nat.zero_add]; exact h0 j (by omega))]

/-- Whenever `bin_prefix` is the exclusive prefix sum of `bin_elems` over the
64000 real bins, `sorted_entries` returns the sum of `bin_elems` over these
bins as an `unsigned int`, that is modulo `2 ^ 32`. -/
theorem sorted_entries_sum (dev : Device) (bin_elems bin_prefix : cl_mem)
    (hpre : ∀ i, i < ndt_bins_dim * ndt_bins_dim * ndt_bins_dim →
      dev.read_uint bin_prefix i = sum_range (dev.read_uint bin_elems) 0 i) :
    ndt_bins_dim * ndt_bins_dim * ndt_bins_dim - 1 = 63999 ∧
    (sorted_entries dev bin_elems bin_prefix).1 =
      sum_range (dev.read_uint bin_elems) 0 (ndt_bins_dim * ndt_bins_dim * ndt_bins_dim)
        % 2 ^ 32 ∧
    (sorted_entries dev bin_elems bin_prefix).1 =
      (dev.read_uint bin_prefix 63999 + dev.read_uint bin_elems 63999) % 2 ^ 32 ∧
    (sum_range (dev.read_uint bin_elems) 0 (ndt_bins_dim * ndt_bins_dim * ndt_bins_dim)
        < 2 ^ 32 →
      (sorted_entries dev bin_elems bin_prefix).1 =
        sum_range (dev.read_uint bin_elems) 0 (ndt_bins_dim * ndt_bins_dim * ndt_bins_dim) ∧
      (sorted_entries dev bin_elems bin_prefix).1 =
        dev.read_uint bin_prefix 63999 + dev.read_uint bin_elems 63999) ∧
    ∀ N, N < 2 ^ 32 →
      sum_range (dev.read_uint bin_elems) 0 (ndt_bins_dim * ndt_bins_dim * ndt_bins_dim) = N →
      (sorted_entries dev bin_elems bin_prefix).1 = N := by
  have hval := sorted_entries_val dev bin_elems bin_prefix
  rw [ndt_bins] at hpre ⊢
  have hsum : sum_range (dev.read_uint bin_elems) 0 (63999 + 1)
      = dev.read_uint bin_prefix 63999 + dev.read_uint bin_elems 63999 := by
    rw [hpre 63999 (by omega)]
    have h1 := sum_range_succ (dev.read_uint bin_elems) 0 63999
    rw [h1, Nat.zero_add]
  rw [hsum, hval]
  refine ⟨rfl, rfl, rfl, fun h => ?_, fun N hN h => ?_⟩
  · rw [Nat.mod_eq_of_lt h]
    exact ⟨rfl, rfl⟩
  · rw [h, Nat.mod_eq_of_lt hN]

/-! ## `bin_file_read`: the sense of its result (lib/csv.c) -/

/-- C18: `bin_file_read` returns `false` exactly when the allocation succeeds,
the file opens and all `n` words are read, and `true` in every other case (a
short read, a file that cannot be opened, a failed allocation): the opposite
of the documented "true iff all words were successfully read".  On a file of
one word read with `n = 1` the result is `false`; `opencl_compare_out_bin`
takes a `true` result as the error. -/
theorem C18_bin_file_read_result_inverted :
    (∀ (malloc_ok : Bool) (file : Option (List Nat)) (n : Nat),
      (bin_file_read malloc_ok file n).1 = false ↔
        malloc_ok = true ∧ ∃ words, file = some words ∧
          (bin_file_read malloc_ok file n).2 = some (words.take n) ∧ n ≤ words.length) ∧
    (bin_file_read true (some [7]) 1).1 = false ∧
    (bin_file_read true (some [7]) 2).1 = true ∧
    (bin_file_read true none 1).1 = true ∧
    (bin_file_read false (some [7]) 1).1 = true ∧
    compare_out_bin_read true (some [7]) 1 = none ∧
    compare_out_bin_read true (some [7]) 2 = some (0 - EIO) := by
  refine ⟨?_, by decide, by decide, by decide, by decide, by decide, by decide⟩
  intro malloc_ok file n
  cases malloc_ok
  · simp [bin_file_read, int_to_bool]
  · cases file with
    | none => simp [bin_file_read, int_to_bool, EINVAL]
    | some words =>
      simp only [bin_file_read, fread, List.length_take]
      simp
/-! ## `opencl_parse_option`: results and the fields it writes (lib/opencl.c) -/

theorem uint_to_int_small (u : Nat) (h : u < 2 ^ 31) : uint_to_int u = (u : Int) := by
  have h1 : u % 2 ^ 32 = u := Nat.mod_eq_of_lt (by omega)
  unfold uint_to_int
  rw [h1, if_pos h]

/-- An option other than a successful `-I` leaves the iteration count as it is. -/
theorem iterations_kept (st : OptState) (c : Char) (scanned : Option Nat) (hc : c ≠ 'I') :
    (opencl_parse_option st c scanned).2.iterations = st.iterations := by
  unfold opencl_parse_option
  split_ifs
  · cases scanned <;> rfl
  · cases scanned <;> rfl
  · rfl
  · rfl

theorem iterations_default (opts : List (Char × Option Nat)) (st : OptState)
    (h : ∀ o ∈ opts, o.1 ≠ 'I') :
    opencl_get_iterations (parse_options st opts) = opencl_get_iterations st := by
  induction opts generalizing st with
  | nil => rfl
  | cons o rest ih =>
    obtain ⟨c, scanned⟩ := o
    rw [parse_options, ih _ (fun o ho => h o (List.mem_cons_of_mem _ ho))]
    exact iterations_kept st c scanned (h (c, scanned) (List.mem_cons_self _ _))

/-- C20, as stated, fails: `-P` with the argument `4294967295`, which parses to the
unsigned value `u = 4294967295`, returns 0 and leaves `-1` in the `int` field
`platform`, not `u`. -/
theorem C20_counterexample :
    (opencl_parse_option state_init 'P' (some 4294967295)).1 = 0 ∧
    (opencl_parse_option state_init 'P' (some 4294967295)).2.platform = -1 ∧
    (opencl_parse_option state_init 'P' (some 4294967295)).2.platform ≠ 4294967295 := by
  decide

/-- C20, amended: `opencl_parse_option` returns 0 exactly when it succeeds.  For
`P` or `d` with an argument parsing to an unsigned `u` it sets only the
platform or device field, to `u` converted to `int` (`u` itself when
`u < 2 ^ 31`); for `I` it sets only the iterations field to `u`, so that
`opencl_get_iterations` returns `u` afterwards, and returns 10 when no `I` was
given; for `c` it sets only `compare_output` to true.  When the argument of
`P`, `d` or `I` does not parse it returns `-EINVAL`, for every other option
character `-ENOSYS`, and in both cases the state is unchanged. -/
theorem C20_parse_option (st : OptState) (c : Char) (scanned : Option Nat) :
    ((opencl_parse_option st c scanned).1 = 0 ↔
      (c = 'c' ∨ ((c = 'P' ∨ c = 'd' ∨ c = 'I') ∧ scanned.isSome = true))) ∧
    (∀ u, u < 2 ^ 32 → scanned = some u →
      (c = 'P' → (opencl_parse_option st c scanned).2 = { st with platform := uint_to_int u } ∧
        (u < 2 ^ 31 → (opencl_parse_option st c scanned).2.platform = (u : Int))) ∧
      (c = 'd' → (opencl_parse_option st c scanned).2 = { st with device := uint_to_int u } ∧
        (u < 2 ^ 31 → (opencl_parse_option st c scanned).2.device = (u : Int))) ∧
      (c = 'I' → (opencl_parse_option st c scanned).2 = { st with iterations := u } ∧
        opencl_get_iterations (opencl_parse_option st c scanned).2 = u)) ∧
    (c = 'c' → (opencl_parse_option st c scanned).2 = { st with compare_output := true }) ∧
    ((c = 'P' ∨ c = 'd' ∨ c = 'I') → scanned = none →
      (opencl_parse_option st c scanned).1 = -EINVAL ∧
      (opencl_parse_option st c scanned).2 = st) ∧
    (c ≠ 'P' → c ≠ 'd' → c ≠ 'I' → c ≠ 'c' →
      (opencl_parse_option st c scanned).1 = -ENOSYS ∧
      (opencl_parse_option st c scanned).2 = st) ∧
    opencl_get_iterations state_init = 10 ∧
    (∀ opts : List (Char × Option Nat), (∀ o ∈ opts, o.1 ≠ 'I') →
      opencl_get_iterations (parse_options state_init opts) = 10) := by
  refine ⟨?_, ?_, ?_, ?_, ?_, rfl, fun opts h => iterations_default opts state_init h⟩
  · unfold opencl_parse_option
    split_ifs with h1 h2 h3 h4
    · subst h1
      cases scanned <;> simp [EINVAL]
    · subst h2
      cases scanned <;> simp [EINVAL]
    · subst h3
      cases scanned <;> simp [EINVAL]
    · subst h4
      simp
    · simp [ENOSYS, h1, h2, h3, h4]
  · intro u hu hs
    subst hs
    refine ⟨fun h => ?_, fun h => ?_, fun h => ?_⟩
    · subst h
      exact ⟨rfl, fun hu31 => uint_to_int_small u hu31⟩
    · subst h
      exact ⟨rfl, fun hu31 => uint_to_int_small u hu31⟩
    · subst h
      have hmod : u % 2 ^ 32 = u := Nat.mod_eq_of_lt hu
      have hst : (opencl_parse_option st 'I' (some u)).2 = { st with iterations := u % 2 ^ 32 } :=
        rfl
      rw [hst, hmod]
      exact ⟨rfl, rfl⟩
  · intro h
    subst h
    rfl
  · intro h hs
    subst hs
    rcases h with h | h | h <;> subst h <;> exact ⟨rfl, rfl⟩
  · intro h1 h2 h3 h4
    simp [opencl_parse_option, h1, h2, h3, h4]

/-- C20 at `-I 25` after the initial state: it returns 0 and 25 iterations are
reported; the other fields keep their initial values. -/
theorem C20_parse_option_witness :
    (25 : Nat) < 2 ^ 32 ∧
    (opencl_parse_option state_init 'I' (some 25)).2 = { state_init with iterations := 25 } ∧
    opencl_get_iterations (opencl_parse_option state_init 'I' (some 25)).2 = 25 :=
  ⟨by decide,
   ((C20_parse_option state_init 'I' (some 25)).2.1 25 (by decide) rfl).2.2 rfl⟩
/-! ## `csv_file_read_float_n`: the struct-of-arrays placement (lib/csv.c) -/

/-- The read loop, in closed form: while values remain and `i` is below `count`,
value `j` goes to the flat index `(j % n) * (count / n) + j / n`. -/
theorem read_loop_eq {α : Type} (n count : Nat) (rest : List α) (i : Nat)
    (h : i + rest.length ≤ count) :
    read_loop n count rest i =
      (i + rest.length,
       (rest.enumFrom i).map (fun p => ((p.1 % n) * (count / n) + p.1 / n, p.2))) := by
  induction rest generalizing i with
  | nil => rfl
  | cons x rest ih =>
    have hlen : (x :: rest).length = rest.length + 1 := rfl
    have hi : i < count := by omega
    rw [read_loop, if_pos hi, ih (i + 1) (by omega), hlen, List.enumFrom_cons, List.map_cons]
    exact Prod.ext (by show i + 1 + rest.length = i + (rest.length + 1); omega) rfl

/-- The flat index of value `i` determines `i`, for tuples of `n` values in a
buffer of `n * m` values. -/
theorem flat_index_inj (n m i j : Nat) (hi : i < n * m) (hj : j < n * m)
    (h : (i % n) * m + i / n = (j % n) * m + j / n) : i = j := by
  have hn : 0 < n := Nat.pos_of_ne_zero (fun h0 => by subst h0; omega)
  have hm : 0 < m := Nat.pos_of_ne_zero (fun h0 => by subst h0; omega)
  have hid : i / n < m := Nat.div_lt_of_lt_mul hi
  have hjd : j / n < m := Nat.div_lt_of_lt_mul hj
  have h1 := congrArg (fun x => x / m) h
  have h2 := congrArg (fun x => x % m) h
  simp only [Nat.mul_comm _ m, Nat.mul_add_div hm, Nat.mul_add_mod, Nat.div_eq_of_lt hid,
    Nat.div_eq_of_lt hjd, Nat.mod_eq_of_lt hid, Nat.mod_eq_of_lt hjd, Nat.add_zero] at h1 h2
  have hi2 := Nat.div_add_mod i n
  have hj2 := Nat.div_add_mod j n
  rw [h1, h2] at hi2
  omega

theorem flat_index_lt (n m i : Nat) (hi : i < n * m) : (i % n) * m + i / n < n * m := by
  have hn : 0 < n := Nat.pos_of_ne_zero (fun h0 => by subst h0; omega)
  have hid : i / n < m := Nat.div_lt_of_lt_mul hi
  have hmod : i % n + 1 ≤ n := Nat.mod_lt i hn
  have := Nat.mul_le_mul_right m hmod
  rw [Nat.add_mul, Nat.one_mul] at this
  omega

/-- The flat indices of a complete read are the indices `0 .. n * m - 1`, each
once. -/
theorem flat_index_perm (n m : Nat) :
    ((List.range (n * m)).map (fun i => (i % n) * m + i / n)).Perm (List.range (n * m)) := by
  apply (List.subperm_of_subset ?_ ?_).perm_of_length_le
  · simp
  · exact List.Nodup.map_on
      (fun x hx y hy h => flat_index_inj n m x y (List.mem_range.mp hx) (List.mem_range.mp hy) h)
      (List.nodup_range _)
  · intro d hd
    obtain ⟨i, hi, rfl⟩ := List.mem_map.mp hd
    exact List.mem_range.mpr (flat_index_lt n m i (List.mem_range.mp hi))

/-- C19: for a tuple size `n ≥ 1` and a file holding the values `v`, when `v` has
`count = n * m` values `csv_file_read_float_n` returns `m`; it stores value
`i` at the flat index `(i % n) * m + i / n` of the one contiguous buffer, so
that component `k` of tuple `t`, `v[t * n + k]`, is at `k * m + t`; the flat
indices written are the indices `0 .. count - 1`, each exactly once.  When
`count` is not a multiple of `n` it returns `-1` and writes nothing. -/
theorem C19_struct_of_arrays {α : Type} (v : List α) (n : Nat) (hn : 0 < n) :
    (∀ m, v.length = n * m →
      (csv_file_read_float_n (some v) n true true).1 = (m : Int) ∧
      (csv_file_read_float_n (some v) n true true).2 =
        v.enum.map (fun p => ((p.1 % n) * m + p.1 / n, p.2)) ∧
      (∀ k t x, k < n → t < m → v[t * n + k]? = some x →
        (k * m + t, x) ∈ (csv_file_read_float_n (some v) n true true).2) ∧
      ((csv_file_read_float_n (some v) n true true).2.map Prod.fst).Perm
        (List.range (n * m))) ∧
    (v.length % n ≠ 0 → csv_file_read_float_n (some v) n true true = (-1, [])) := by
  constructor
  · intro m hlen
    have hdiv : n * m / n = m := Nat.mul_div_cancel_left m hn
    have hrun : csv_file_read_float_n (some v) n true true =
        ((m : Int), v.enum.map (fun p => ((p.1 % n) * m + p.1 / n, p.2))) := by
      have hmod : ((v.length : Int) % (n : Int)) = 0 := by
        rw [hlen]
        exact_mod_cast Nat.mul_mod_right n m
      have hloop := read_loop_eq n (n * m) v 0 (by omega)
      simp only [csv_file_read_float_n, csv_file_count]
      rw [if_neg (by omega), if_neg (by simpa using hmod), if_neg (by simp), if_neg (by simp)]
      simp only [Int.toNat_ofNat]
      rw [hlen, hloop, hdiv, Nat.zero_add, hlen]
      refine Prod.ext ?_ rfl
      show ((n * m : Nat) : Int) / (n : Int) = (m : Int)
      rw [← Int.natCast_div, hdiv]
    rw [hrun]
    refine ⟨rfl, rfl, ?_, ?_⟩
    · intro k t x hk ht hx
      refine List.mem_map.mpr ⟨(t * n + k, x), List.mk_mem_enum_iff_getElem?.mpr hx, ?_⟩
      have h1 : (t * n + k) % n = k := by
        rw [Nat.mul_comm, Nat.mul_add_mod, Nat.mod_eq_of_lt hk]
      have h2 : (t * n + k) / n = t := by
        rw [Nat.mul_comm, Nat.mul_add_div hn, Nat.div_eq_of_lt hk, Nat.add_zero]
      simp only [h1, h2]
    · have hfst : (v.enum.map (fun p => ((p.1 % n) * m + p.1 / n, p.2))).map Prod.fst
          = (List.range (n * m)).map (fun i => (i % n) * m + i / n) := by
        rw [← hlen, ← List.enum_map_fst, List.map_map, List.map_map]
        rfl
      rw [hfst]
      exact flat_index_perm n m
  · intro hmod
    have hmod2 : ¬ ((v.length : Int) % (n : Int)) = 0 := by
      intro h
      apply hmod
      exact_mod_cast h
    simp only [csv_file_read_float_n, csv_file_count]
    rw [if_neg (by omega), if_pos hmod2]

/-- C19 on two 3-tuples: the result is 2 and the buffer holds the first
components, then the second, then the third. -/
theorem C19_struct_of_arrays_witness :
    0 < 3 ∧ [10, 11, 12, 20, 21, 22].length = 3 * 2 ∧
    (csv_file_read_float_n (some [10, 11, 12, 20, 21, 22]) 3 true true).1 = 2 ∧
    ((csv_file_read_float_n (some [10, 11, 12, 20, 21, 22]) 3 true true).2.map Prod.fst).Perm
      (List.range (3 * 2)) :=
  ⟨by decide, rfl,
   ((C19_struct_of_arrays [10, 11, 12, 20, 21, 22] 3 (by decide)).1 2 rfl).1,
   ((C19_struct_of_arrays [10, 11, 12, 20, 21, 22] 3 (by decide)).1 2 rfl).2.2.2⟩
/-! ## The scatter pass: destinations of the counting sort -/

theorem sum_range_add_fun (f g : Nat → Nat) (lo n : Nat) :
    sum_range (fun x => f x + g x) lo n = sum_range f lo n + sum_range g lo n := by
  induction n with
  | zero => rfl
  | succ n ih =>
    rw [sum_range_succ, sum_range_succ, sum_range_succ, ih]
    omega

theorem sum_range_indicator (b M : Nat) (hb : b < M) :
    sum_range (fun x => if b = x then 1 else 0) 0 M = 1 := by
  induction M with
  | zero => omega
  | succ M ih =>
    rw [sum_range_succ, Nat.zero_add]
    by_cases h : b = M
    · subst h
      rw [sum_range_eq_zero _ 0 b (fun j hj => by
        rw [Nat.zero_add]
        exact if_neg (by omega)), if_pos rfl]
    · rw [ih (by omega), if_neg h]

theorem sum_range_le (f : Nat → Nat) (a b : Nat) (h : a ≤ b) :
    sum_range f 0 a ≤ sum_range f 0 b := by
  induction b with
  | zero =>
    have : a = 0 := by omega
    subst this
    exact Nat.le_refl _
  | succ b ih =>
    by_cases hab : a = b + 1
    · subst hab
      exact Nat.le_refl _
    · rw [sum_range_succ]
      exact Nat.le_trans (ih (by omega)) (Nat.le_add_right _ _)

theorem bin_counts_cons (b : Nat) (rest : List Nat) (x : Nat) :
    bin_counts (b :: rest) x = bin_counts rest x + (if b = x then 1 else 0) := by
  unfold bin_counts
  rw [List.count_cons]
  simp

/-- The counts of all bins add up to the number of points (`sum(BinCounts) == N`)
when every bin id is below the number of bins. -/
theorem bin_counts_total (M : Nat) (bins : List Nat) (hb : ∀ b ∈ bins, b < M) :
    sum_range (bin_counts bins) 0 M = bins.length := by
  induction bins with
  | nil => exact sum_range_eq_zero _ 0 M (fun _ _ => rfl)
  | cons b rest ih =>
    have hfun : bin_counts (b :: rest) = fun x => bin_counts rest x + (if b = x then 1 else 0) :=
      funext (bin_counts_cons b rest)
    rw [hfun, sum_range_add_fun, ih (fun c hc => hb c (List.mem_cons_of_mem _ hc)),
      sum_range_indicator b M (hb b (List.mem_cons_self _ _))]
    rfl

/-- The slots of different bins do not overlap: the slots of bin `a` end where
those of the next bin start. -/
theorem offsets_step (cnt : Nat → Nat) (a b : Nat) (h : a < b) :
    sum_range cnt 0 a + cnt a ≤ sum_range cnt 0 b := by
  have h1 := sum_range_le cnt (a + 1) b h
  rw [sum_range_succ, Nat.zero_add] at h1
  exact h1

theorem scatter_length (offs cursor : Nat → Nat) (rest : List Nat) :
    (scatter offs cursor rest).length = rest.length := by
  induction rest generalizing cursor with
  | nil => rfl
  | cons b rest ih => simp [scatter, ih]

/-- Every destination handed out lies among the slots of the bin of its point,
from the cursor of that bin on. -/
theorem scatter_zip_bounds (cnt cursor : Nat → Nat) (rest : List Nat)
    (h : ∀ b, cursor b + rest.count b ≤ cnt b) :
    ∀ p ∈ List.zip rest (scatter (fun b => sum_range cnt 0 b) cursor rest),
      sum_range cnt 0 p.1 + cursor p.1 ≤ p.2 ∧ p.2 < sum_range cnt 0 p.1 + cnt p.1 := by
  induction rest generalizing cursor with
  | nil => intro p hp; simp [scatter] at hp
  | cons b rest ih =>
    intro p hp
    have hb := h b
    rw [List.count_cons_self] at hb
    rw [scatter, List.zip_cons_cons, List.mem_cons] at hp
    rcases hp with hp | hp
    · subst hp
      exact ⟨Nat.le_refl _, by
        show sum_range cnt 0 b + cursor b < sum_range cnt 0 b + cnt b
        omega⟩
    · have hstep : ∀ x, (if x = b then cursor x + 1 else cursor x) + rest.count x ≤ cnt x := by
        intro x
        have hx := h x
        by_cases hxb : x = b
        · subst hxb
          rw [if_pos rfl]
          omega
        · rw [List.count_cons_of_ne hxb] at hx
          rw [if_neg hxb]
          exact hx
      obtain ⟨h1, h2⟩ := ih _ hstep p hp
      refine ⟨?_, h2⟩
      by_cases hpb : p.1 = b
      · rw [if_pos hpb] at h1
        omega
      · rw [if_neg hpb] at h1
        exact h1

theorem scatter_mem_zip (offs cursor : Nat → Nat) (rest : List Nat) (d : Nat)
    (hd : d ∈ scatter offs cursor rest) :
    ∃ b, (b, d) ∈ List.zip rest (scatter offs cursor rest) := by
  induction rest generalizing cursor with
  | nil => simp [scatter] at hd
  | cons b rest ih =>
    rw [scatter, List.mem_cons] at hd
    rw [scatter, List.zip_cons_cons]
    rcases hd with hd | hd
    · exact ⟨b, by rw [hd]; exact List.mem_cons_self _ _⟩
    · obtain ⟨c, hc⟩ := ih _ hd
      exact ⟨c, List.mem_cons_of_mem _ hc⟩

/-- No two points get the same destination. -/
theorem scatter_nodup (cnt cursor : Nat → Nat) (rest : List Nat)
    (h : ∀ b, cursor b + rest.count b ≤ cnt b) :
    (scatter (fun b => sum_range cnt 0 b) cursor rest).Nodup := by
  induction rest generalizing cursor with
  | nil => exact List.nodup_nil
  | cons b rest ih =>
    have hb := h b
    rw [List.count_cons_self] at hb
    have hstep : ∀ x, (if x = b then cursor x + 1 else cursor x) + rest.count x ≤ cnt x := by
      intro x
      have hx := h x
      by_cases hxb : x = b
      · subst hxb
        rw [if_pos rfl]
        omega
      · rw [List.count_cons_of_ne hxb] at hx
        rw [if_neg hxb]
        exact hx
    rw [scatter, List.nodup_cons]
    refine ⟨fun hmem => ?_, ih _ hstep⟩
    obtain ⟨c, hc⟩ := scatter_mem_zip _ _ _ _ hmem
    obtain ⟨h1, h2⟩ := scatter_zip_bounds cnt _ rest hstep (c, _) hc
    simp only at h1 h2
    by_cases hcb : c = b
    · subst hcb
      rw [if_pos rfl] at h1
      omega
    · rcases Nat.lt_or_gt_of_ne hcb with hlt | hgt
      · have := offsets_step cnt c b hlt
        omega
      · have := offsets_step cnt b c hgt
        omega

/-- C15: for every list of points with bin ids in `[0, D^3)`, with `BinOffsets`
the exclusive prefix sum of `BinCounts` and `Cursor` all zero at the start,
the destinations `BinOffsets[bin] + localRank` handed out by the scatter are
pairwise different and are the indices `0 .. N - 1`, each exactly once; the
destination of a point of bin `b` lies in the `BinCounts[b]` slots from
`BinOffsets[b]` on, so that a point of a lower bin comes before every point
of a higher bin; and the counts add up to `N`. -/
theorem C15_scatter_bijection (D : Nat) (bins : List Nat) (hb : ∀ b ∈ bins, b < D ^ 3) :
    (scatter (bin_offsets bins) (fun _ => 0) bins).length = bins.length ∧
    (scatter (bin_offsets bins) (fun _ => 0) bins).Nodup ∧
    (scatter (bin_offsets bins) (fun _ => 0) bins).Perm (List.range bins.length) ∧
    (∀ p ∈ List.zip bins (scatter (bin_offsets bins) (fun _ => 0) bins),
      bin_offsets bins p.1 ≤ p.2 ∧ p.2 < bin_offsets bins p.1 + bin_counts bins p.1) ∧
    (∀ p ∈ List.zip bins (scatter (bin_offsets bins) (fun _ => 0) bins),
      ∀ q ∈ List.zip bins (scatter (bin_offsets bins) (fun _ => 0) bins),
        p.1 < q.1 → p.2 < q.2) ∧
    bin_offsets bins (D ^ 3) = bins.length := by
  have hcur : ∀ b, (fun _ : Nat => 0) b + bins.count b ≤ bin_counts bins b := by
    intro b
    show 0 + bins.count b ≤ bins.count b
    omega
  have hoff : bin_offsets bins = fun b => sum_range (bin_counts bins) 0 b := rfl
  have htotal := bin_counts_total (D ^ 3) bins hb
  have hbounds := scatter_zip_bounds (bin_counts bins) (fun _ => 0) bins hcur
  have hnodup := scatter_nodup (bin_counts bins) (fun _ => 0) bins hcur
  rw [← hoff] at hbounds hnodup
  have hlen := scatter_length (bin_offsets bins) (fun _ => 0) bins
  refine ⟨hlen, hnodup, ?_, ?_, ?_, htotal⟩
  · apply (List.subperm_of_subset hnodup ?_).perm_of_length_le
    · simp [hlen]
    · intro d hd
      obtain ⟨c, hc⟩ := scatter_mem_zip _ _ _ _ hd
      obtain ⟨-, h2⟩ := hbounds (c, d) hc
      have hcD : c < D ^ 3 := hb c (List.of_mem_zip hc).1
      have := offsets_step (bin_counts bins) c (D ^ 3) hcD
      rw [htotal] at this
      exact List.mem_range.mpr (by
        show d < bins.length
        have h3 : d < sum_range (bin_counts bins) 0 c + bin_counts bins c := h2
        omega)
  · intro p hp
    obtain ⟨h1, h2⟩ := hbounds p hp
    exact ⟨by simpa using h1, h2⟩
  · intro p hp q hq hlt
    obtain ⟨-, h2⟩ := hbounds p hp
    obtain ⟨h3, -⟩ := hbounds q hq
    have := offsets_step (bin_counts bins) p.1 q.1 hlt
    have h2a : p.2 < sum_range (bin_counts bins) 0 p.1 + bin_counts bins p.1 := h2
    have h3a : sum_range (bin_counts bins) 0 q.1 + 0 ≤ q.2 := h3
    omega

/-- C15 on 8 points, one per cell of a `D = 2` grid: the counts are all 1, the
offsets are `0 .. 7`, every point goes to the slot of its bin, and the
destinations are the indices `0 .. 7`, each once. -/
theorem C15_scatter_bijection_witness :
    (∀ b ∈ [5, 2, 7, 0, 3, 6, 1, 4], b < 2 ^ 3) ∧
    (List.range 8).map (bin_counts [5, 2, 7, 0, 3, 6, 1, 4]) = [1, 1, 1, 1, 1, 1, 1, 1] ∧
    (List.range 8).map (bin_offsets [5, 2, 7, 0, 3, 6, 1, 4]) = [0, 1, 2, 3, 4, 5, 6, 7] ∧
    scatter (bin_offsets [5, 2, 7, 0, 3, 6, 1, 4]) (fun _ => 0) [5, 2, 7, 0, 3, 6, 1, 4]
      = [5, 2, 7, 0, 3, 6, 1, 4] ∧
    (scatter (bin_offsets [5, 2, 7, 0, 3, 6, 1, 4]) (fun _ => 0) [5, 2, 7, 0, 3, 6, 1, 4]).Perm
      (List.range [5, 2, 7, 0, 3, 6, 1, 4].length) :=
  ⟨by decide, by decide, by decide, by decide,
   (C15_scatter_bijection 2 [5, 2, 7, 0, 3, 6, 1, 4] (by decide)).2.2.1⟩
/-! ## `sorted_entries` on the counts of a point set -/

theorem sum_range_indicator_le (b M : Nat) :
    sum_range (fun x => if b = x then 1 else 0) 0 M ≤ 1 := by
  rcases Nat.lt_or_ge b M with h | h
  · rw [sum_range_indicator b M h]
  · rw [sum_range_eq_zero _ 0 M (fun j hj => by
      rw [Nat.zero_add]
      exact if_neg (by omega))]
    omega

/-- The counts of the bins below `M` add up to at most the number of points:
every point is counted in at most one bin. -/
theorem bin_counts_total_le (M : Nat) (bins : List Nat) :
    sum_range (bin_counts bins) 0 M ≤ bins.length := by
  induction bins with
  | nil =>
    rw [sum_range_eq_zero _ 0 M (fun _ _ => rfl)]
    exact Nat.zero_le _
  | cons b rest ih =>
    have hfun : bin_counts (b :: rest) = fun x => bin_counts rest x + (if b = x then 1 else 0) :=
      funext (bin_counts_cons b rest)
    have hind := sum_range_indicator_le b M
    rw [hfun, sum_range_add_fun, List.length_cons]
    omega

/-- C16: whenever `bin_elems` holds, over the `40^3 = 64000` real bins (last bin
index 63999), the bin counts of a set of points whose number is an `unsigned
int`, as the `unsigned int elems` points of `ndt_sort` are, and `bin_prefix`
is the exclusive prefix sum of `bin_elems` over these bins, `sorted_entries`
returns the sum of `bin_elems` over all real bins, which is
`BinOffsets[63999] + BinCounts[63999]`; whenever this sum is `N` the result
is `N`, and when every point lies in a real bin the sum, and so the result, is
the number of points. -/
theorem C16_sorted_entries_total (dev : Device) (bin_elems bin_prefix : cl_mem)
    (bins : List Nat) (hN : bins.length < 2 ^ 32)
    (hcnt : ∀ i, i < ndt_bins_dim * ndt_bins_dim * ndt_bins_dim →
      dev.read_uint bin_elems i = List.count i bins)
    (hpre : ∀ i, i < ndt_bins_dim * ndt_bins_dim * ndt_bins_dim →
      dev.read_uint bin_prefix i = sum_range (dev.read_uint bin_elems) 0 i) :
    ndt_bins_dim * ndt_bins_dim * ndt_bins_dim - 1 = 63999 ∧
    (sorted_entries dev bin_elems bin_prefix).1 =
      sum_range (dev.read_uint bin_elems) 0 (ndt_bins_dim * ndt_bins_dim * ndt_bins_dim) ∧
    (sorted_entries dev bin_elems bin_prefix).1 =
      dev.read_uint bin_prefix 63999 + dev.read_uint bin_elems 63999 ∧
    (∀ N, sum_range (dev.read_uint bin_elems) 0 (ndt_bins_dim * ndt_bins_dim * ndt_bins_dim) = N →
      (sorted_entries dev bin_elems bin_prefix).1 = N) ∧
    ((∀ b ∈ bins, b < ndt_bins_dim * ndt_bins_dim * ndt_bins_dim) →
      sum_range (dev.read_uint bin_elems) 0 (ndt_bins_dim * ndt_bins_dim * ndt_bins_dim)
        = bins.length ∧
      (sorted_entries dev bin_elems bin_prefix).1 = bins.length) := by
  have hcongr : sum_range (dev.read_uint bin_elems) 0
      (ndt_bins_dim * ndt_bins_dim * ndt_bins_dim)
      = sum_range (bin_counts bins) 0 (ndt_bins_dim * ndt_bins_dim * ndt_bins_dim) :=
    sum_range_congr _ _ 0 _ (fun t ht => by
      rw [Nat.zero_add]
      exact hcnt t ht)
  have hle := bin_counts_total_le (ndt_bins_dim * ndt_bins_dim * ndt_bins_dim) bins
  have hfit : sum_range (dev.read_uint bin_elems) 0
      (ndt_bins_dim * ndt_bins_dim * ndt_bins_dim) < 2 ^ 32 := by
    rw [hcongr]
    omega
  obtain ⟨hlast, -, -, hres, -⟩ := sorted_entries_sum dev bin_elems bin_prefix hpre
  obtain ⟨hsum, hval⟩ := hres hfit
  refine ⟨hlast, hsum, hval, fun N h => by rw [hsum, h], fun hb => ?_⟩
  have htot : sum_range (dev.read_uint bin_elems) 0
      (ndt_bins_dim * ndt_bins_dim * ndt_bins_dim) = bins.length := by
    rw [hcongr]
    exact bin_counts_total _ bins hb
  exact ⟨htot, by rw [hsum, htot]⟩

/-- C16 on a device that holds the counts of five points, two in bin 63998 and
three in bin 63999, and their exclusive prefix sum: `sorted_entries` returns
5. -/
theorem C16_sorted_entries_total_witness :
    [63998, 63998, 63999, 63999, 63999].length < 2 ^ 32 ∧
    (sorted_entries (Device.holding counts_five offsets_five)
        (cl_mem.obj Buffer.bin_elems) (cl_mem.obj Buffer.scan_out)).1 = 5 :=
  have hcnt : ∀ i, i < ndt_bins_dim * ndt_bins_dim * ndt_bins_dim →
      (Device.holding counts_five offsets_five).read_uint (cl_mem.obj Buffer.bin_elems) i
        = List.count i [63998, 63998, 63999, 63999, 63999] := by
    intro i _
    rw [holding_counts]
    unfold counts_five
    by_cases h1 : i = 63998
    · subst h1
      rfl
    · by_cases h2 : i = 63999
      · subst h2
        rfl
      · rw [if_neg h1, if_neg h2]
        simp [List.count_cons, Ne.symm h1, Ne.symm h2]
  have hpre : ∀ i, i < ndt_bins_dim * ndt_bins_dim * ndt_bins_dim →
      (Device.holding counts_five offsets_five).read_uint (cl_mem.obj Buffer.scan_out) i
        = sum_range ((Device.holding counts_five offsets_five).read_uint
            (cl_mem.obj Buffer.bin_elems)) 0 i := by
    rw [holding_counts, holding_offsets, ndt_bins]
    exact offsets_of_last_two counts_five 2
      (fun j hj => by unfold counts_five; rw [if_neg (by omega), if_neg (by omega)]) rfl
  ⟨by decide,
   ((C16_sorted_entries_total (Device.holding counts_five offsets_five)
      (cl_mem.obj Buffer.bin_elems) (cl_mem.obj Buffer.scan_out)
      [63998, 63998, 63999, 63999, 63999] (by decide) hcnt hpre).2.2.2.2
        (by decide)).2⟩
/-! ## The sizes of the dispatches of `prefix_sum` -/

theorem enqueue_mem_do_prefix_sum_post_sizes (dev : Device) (l w : Nat) (data incr : cl_mem)
    (time : Bool) (s' : Site) (k : Kernel) (args : List cl_mem) (glob : Nat) (loc : Option Nat)
    (ok : Bool)
    (h : Call.enqueue s' k args glob loc ok ∈ (do_prefix_sum_post dev l w data incr time).2) :
    k = Kernel.prefix_sum_post ∧ glob = size_sub w (size_mul 2 l) ∧ loc = some l := by
  rw [do_prefix_sum_post_calls] at h
  cases h1 : dev.set_kernel_args Site.carry [data, incr] <;>
    cases h2 : dev.enqueue Site.carry (size_sub w (size_mul 2 l)) (some l) <;> cases time <;>
    simp [h1, h2, timing] at h <;> simp [h]

/-- The dispatches that `prefix_sum_dispatch` can make, with their sizes. -/
theorem enqueue_mem_dispatch (dev : Device) (inp : cl_mem) (time : Bool)
    (l w g incrs : Nat) (incr : cl_mem) (kp : Bool) (s : Site) (k : Kernel)
    (args : List cl_mem) (glob : Nat) (loc : Option Nat) (ok : Bool)
    (h : Call.enqueue s k args glob loc ok ∈
      (prefix_sum_dispatch dev inp time l w g incrs incr kp).calls) :
    (s = Site.block_scan ∧ glob = w / 2 ∧ loc = some l) ∨
    (s = Site.sums_scan ∧ g > 1 ∧ glob = incrs / 2 ∧ loc = some (incrs / 2)) ∨
    (s = Site.carry ∧ g > 1 ∧ glob = size_sub w (size_mul 2 l) ∧ loc = some l) := by
  cases hb : dev.create_buffer Buffer.scan_out (size_mul w sizeof_uint)
  · rw [dispatch_no_out _ _ _ _ _ _ _ _ _ hb] at h
    simp only [List.mem_append, List.mem_cons, List.mem_singleton, reduceCtorEq,
      List.not_mem_nil, false_or, enqueue_not_mem_tear_down] at h
  · rw [dispatch_out _ _ _ _ _ _ _ _ _ hb] at h
    simp only [List.mem_append, List.mem_cons, List.mem_singleton, reduceCtorEq,
      List.not_mem_nil, false_or, or_false, enqueue_not_mem_tear_down] at h
    rcases h with h | h
    · obtain ⟨h1, -, -, h4, h5⟩ := enqueue_mem_do_prefix_sum _ _ _ _ _ _ _ _ _ _ _ _ _ _ h
      exact Or.inl ⟨h1, h4, h5⟩
    · by_cases hg : g > 1
      · rw [if_pos hg, List.mem_append] at h
        rcases h with h | h
        · obtain ⟨h1, -, -, h4, h5⟩ := enqueue_mem_do_prefix_sum _ _ _ _ _ _ _ _ _ _ _ _ _ _ h
          exact Or.inr (Or.inl ⟨h1, hg, h4, h5⟩)
        · have h1 := enqueue_mem_do_prefix_sum_post _ _ _ _ _ _ _ _ _ _ _ _ h
          obtain ⟨-, h4, h5⟩ := enqueue_mem_do_prefix_sum_post_sizes _ _ _ _ _ _ _ _ _ _ _ _ h
          exact Or.inr (Or.inr ⟨h1, hg, h4, h5⟩)
      · rw [if_neg hg] at h
        simp at h

/-- The dispatches that `prefix_sum` can make, with their sizes: a dispatch is
made only past the capacity check. -/
theorem enqueue_mem_prefix_sum (dev : Device) (inp : cl_mem) (N : Nat) (time : Bool)
    (s : Site) (k : Kernel) (args : List cl_mem) (glob : Nat) (loc : Option Nat) (ok : Bool)
    (h : Call.enqueue s k args glob loc ok ∈ (prefix_sum dev inp N time).calls) :
    ¬ ((prefix_sum_elems_ceil dev.max_workgroup_size N).2 > 1 ∧
        next_pot (prefix_sum_elems_ceil dev.max_workgroup_size N).2 > dev.max_workgroup_size) ∧
    ((s = Site.block_scan ∧ glob = (prefix_sum_elems_ceil dev.max_workgroup_size N).1 / 2 ∧
        loc = some (if (prefix_sum_elems_ceil dev.max_workgroup_size N).2 > 1
          then dev.max_workgroup_size
          else (prefix_sum_elems_ceil dev.max_workgroup_size N).1 / 2)) ∨
     (s = Site.sums_scan ∧ (prefix_sum_elems_ceil dev.max_workgroup_size N).2 > 1 ∧
        glob = next_pot (prefix_sum_elems_ceil dev.max_workgroup_size N).2 / 2 ∧
        loc = some (next_pot (prefix_sum_elems_ceil dev.max_workgroup_size N).2 / 2)) ∨
     (s = Site.carry ∧ (prefix_sum_elems_ceil dev.max_workgroup_size N).2 > 1 ∧
        glob = size_sub (prefix_sum_elems_ceil dev.max_workgroup_size N).1
          (size_mul 2 dev.max_workgroup_size) ∧
        loc = some dev.max_workgroup_size)) := by
  cases hk : dev.create_kernel Kernel.prefix_sum
  · rw [prefix_sum_no_kernel dev inp N time hk] at h
    simp at h
  · by_cases hg : (prefix_sum_elems_ceil dev.max_workgroup_size N).2 > 1
    · by_cases hc : next_pot (prefix_sum_elems_ceil dev.max_workgroup_size N).2
          > dev.max_workgroup_size
      · rw [prefix_sum_exceeds dev inp N time hk hg hc] at h
        simp at h
      · cases hb : dev.create_buffer Buffer.scan_incr
          (size_mul (next_pot (prefix_sum_elems_ceil dev.max_workgroup_size N).2) sizeof_uint)
        · rw [prefix_sum_no_incr dev inp N time hk hg hc hb] at h
          simp at h
        · cases hp : dev.create_kernel Kernel.prefix_sum_post
          · rw [prefix_sum_no_post dev inp N time hk hg hc hb hp] at h
            simp at h
          · rw [prefix_sum_two_level dev inp N time hk hg hc hb hp] at h
            simp only [List.mem_append, List.mem_cons, List.mem_singleton, reduceCtorEq,
              List.not_mem_nil, false_or, or_false] at h
            refine ⟨fun hcon => hc hcon.2, ?_⟩
            rw [if_pos hg]
            rcases enqueue_mem_dispatch _ _ _ _ _ _ _ _ _ _ _ _ _ _ _ h with h1 | h1 | h1
            · exact Or.inl h1
            · exact Or.inr (Or.inl h1)
            · exact Or.inr (Or.inr h1)
    · rw [prefix_sum_one_level dev inp N time hk hg] at h
      simp only [List.mem_append, List.mem_cons, List.mem_singleton, reduceCtorEq,
        List.not_mem_nil, false_or, or_false] at h
      refine ⟨fun hcon => hg hcon.1, ?_⟩
      rw [if_neg hg]
      rcases enqueue_mem_dispatch _ _ _ _ _ _ _ _ _ _ _ _ _ _ _ h with h1 | h1 | h1
      · exact Or.inl h1
      · exact absurd h1.2.1 hg
      · exact absurd h1.2.1 hg

/-- On the multi-block path the global size of the carry propagation,
`paddedCount - 2 * W` in `size_t`, is `2 * W * (g - 1)`: positive, a multiple
of `W`, at most `N`, and the number of elements of `g - 1` blocks. -/
theorem carry_global (W N : Nat) (hN : N < 2 ^ 32) (hg : (prefix_sum_elems_ceil W N).2 > 1) :
    size_sub (prefix_sum_elems_ceil W N).1 (size_mul 2 W)
      = 2 * W * ((prefix_sum_elems_ceil W N).2 - 1) ∧
    0 < 2 * W * ((prefix_sum_elems_ceil W N).2 - 1) ∧
    2 * W * ((prefix_sum_elems_ceil W N).2 - 1) ≤ N := by
  obtain ⟨hW, hwrap⟩ := no_wrap_of_multi W N hN hg
  have hmul := work_groups_mul_le W N hwrap hW
  have hpad : (prefix_sum_elems_ceil W N).1
      = size_mul (size_mul 2 (prefix_sum_elems_ceil W N).2) W := by
    show (if (prefix_sum_elems_ceil W N).2 > 1
      then size_mul (size_mul 2 (prefix_sum_elems_ceil W N).2) W else next_pot N) = _
    rw [if_pos hg]
  rw [hpad]
  generalize (prefix_sum_elems_ceil W N).2 = g at *
  have hg1 : g - 1 + 1 = g := by omega
  have hprod : g * W = (g - 1) * W + W := by
    conv_lhs => rw [← hg1]
    rw [Nat.add_mul, Nat.one_mul]
  have hpos : 1 * W ≤ (g - 1) * W := Nat.mul_le_mul_right W (by omega)
  have hgle : g - 1 ≤ (g - 1) * W := Nat.le_mul_of_pos_right _ hW
  have e1 : 2 * W * (g - 1) = 2 * ((g - 1) * W) := by ring
  have e2 : 2 * g % 2 ^ 32 * W = 2 * (g * W) := by
    rw [Nat.mod_eq_of_lt (by omega)]
    ring
  rw [e1]
  unfold size_sub size_mul
  rw [e2]
  generalize (g - 1) * W = q at *
  refine ⟨by omega, by omega, by omega⟩

/-- C21: every carry-propagation dispatch of `prefix_sum` is made with a block
count `g > 1`, with the work-group size `W` and with the global size
`paddedCount - 2 * W` (in `size_t`), which is `2 * W * (g - 1)`: a positive
multiple of `W`, the number of elements of all blocks but the first (`g - 1`
blocks of `2 * W` elements); when `N + 2 * W` is in the range of `size_t` the
padded count is `2 * g * W` and the subtraction is the one of natural
numbers.  With all resources in place a multi-block run that passes the
capacity check makes this dispatch. -/
theorem C21_carry_dispatch_size (dev : Device) (inp : cl_mem) (N : Nat) (time : Bool)
    (hN : N < 2 ^ 32) :
    (∀ k args glob loc ok,
      Call.enqueue Site.carry k args glob loc ok ∈ (prefix_sum dev inp N time).calls →
      (prefix_sum_elems_ceil dev.max_workgroup_size N).2 > 1 ∧
      loc = some dev.max_workgroup_size ∧
      glob = size_sub (prefix_sum_elems_ceil dev.max_workgroup_size N).1
        (size_mul 2 dev.max_workgroup_size) ∧
      glob = 2 * dev.max_workgroup_size * ((prefix_sum_elems_ceil dev.max_workgroup_size N).2 - 1) ∧
      0 < glob ∧ glob % dev.max_workgroup_size = 0 ∧
      glob = ((prefix_sum_elems_ceil dev.max_workgroup_size N).2 - 1)
        * (2 * dev.max_workgroup_size) ∧
      (N + 2 * dev.max_workgroup_size ≤ 2 ^ 32 →
        (prefix_sum_elems_ceil dev.max_workgroup_size N).1
          = 2 * (prefix_sum_elems_ceil dev.max_workgroup_size N).2 * dev.max_workgroup_size ∧
        glob = (prefix_sum_elems_ceil dev.max_workgroup_size N).1
          - 2 * dev.max_workgroup_size)) ∧
    (dev.resources_ok → (prefix_sum_elems_ceil dev.max_workgroup_size N).2 > 1 →
      next_pot (prefix_sum_elems_ceil dev.max_workgroup_size N).2 ≤ dev.max_workgroup_size →
      Site.carry ∈ (prefix_sum dev inp N time).sites) := by
  constructor
  · intro k args glob loc ok h
    obtain ⟨-, h1 | h1 | h1⟩ := enqueue_mem_prefix_sum dev inp N time _ _ _ _ _ _ h
    · exact absurd h1.1 (by decide)
    · exact absurd h1.1 (by decide)
    · obtain ⟨-, hg, hglob, hloc⟩ := h1
      obtain ⟨hW, -⟩ := no_wrap_of_multi dev.max_workgroup_size N hN hg
      obtain ⟨e1, e2, -⟩ := carry_global dev.max_workgroup_size N hN hg
      rw [e1] at hglob
      refine ⟨hg, hloc, by rw [hglob, e1], hglob, by rw [hglob]; exact e2, ?_, ?_, ?_⟩
      · rw [hglob, Nat.mul_comm 2, Nat.mul_assoc]
        exact Nat.mul_mod_right _ _
      · rw [hglob]
        ring
      · intro hfit
        have hpad := elems_ceil_multi dev.max_workgroup_size N hfit hW hg
        refine ⟨hpad, ?_⟩
        rw [hglob, hpad]
        generalize (prefix_sum_elems_ceil dev.max_workgroup_size N).2 = g at *
        have hg1 : g - 1 + 1 = g := by omega
        have : 2 * g * dev.max_workgroup_size
            = 2 * dev.max_workgroup_size * (g - 1) + 2 * dev.max_workgroup_size := by
          conv_lhs => rw [← hg1]
          ring
        omega
  · intro hres hg hc
    rw [sites_two_level dev inp N time hres hg hc]
    simp

/-- C21 at `W = 4`, `N = 24`: three blocks, a padded count of 24, and the carry
propagation runs on `24 - 8 = 16` work-items, two blocks of 8 elements, in
work-groups of 4. -/
theorem C21_carry_dispatch_size_witness :
    24 < 2 ^ 32 ∧
    Call.enqueue Site.carry Kernel.prefix_sum_post
        [cl_mem.obj Buffer.scan_out, cl_mem.obj Buffer.scan_incr] 16 (some 4) true
      ∈ (prefix_sum (Device.all_ok 4) (cl_mem.obj Buffer.data) 24 false).calls ∧
    (prefix_sum_elems_ceil (Device.all_ok 4).max_workgroup_size 24).2 > 1 ∧
    16 = 2 * (Device.all_ok 4).max_workgroup_size
      * ((prefix_sum_elems_ceil (Device.all_ok 4).max_workgroup_size 24).2 - 1) :=
  ⟨by decide, by decide,
   ((C21_carry_dispatch_size (Device.all_ok 4) (cl_mem.obj Buffer.data) 24 false (by decide)).1
      Kernel.prefix_sum_post [cl_mem.obj Buffer.scan_out, cl_mem.obj Buffer.scan_incr]
      16 (some 4) true (by decide)).1,
   ((C21_carry_dispatch_size (Device.all_ok 4) (cl_mem.obj Buffer.data) 24 false (by decide)).1
      Kernel.prefix_sum_post [cl_mem.obj Buffer.scan_out, cl_mem.obj Buffer.scan_incr]
      16 (some 4) true (by decide)).2.2.2.1⟩
/-! ## The scan of one element -/

/-- The block count times the work-group size covers half the element count,
rounded down. -/
theorem half_le_work_groups_mul (W N : Nat) (h : N / 2 + W < 2 ^ 32) (hW : 1 ≤ W) :
    N / 2 ≤ (prefix_sum_elems_ceil W N).2 * W := by
  rw [work_groups_eq W N h hW]
  have h1 := Nat.div_add_mod (N / 2 + W - 1) W
  have h2 := Nat.mod_lt (N / 2 + W - 1) hW
  rw [Nat.mul_comm] at h1
  generalize (N / 2 + W - 1) / W * W = q at *
  omega

/-- C22 (the code at the failing inputs): for `W = 256`, `N = 1025` the padded
count is 1024, and for `W = 2`, `N = 9` it is 8: both below `N`.  In the
range of `size_t` the padded count is below `N` exactly on the multi-block
path when `N = 2 * blockCount * W + 1`, and it is then `N - 1`; for every
other `N ≥ 1` it is at least `N`. -/
theorem C22_padded_count_below_element_count :
    prefix_sum_elems_ceil 256 1025 = (1024, 2) ∧
    prefix_sum_elems_ceil 2 9 = (8, 2) ∧
    (∀ W N : Nat, 1 ≤ W → 1 ≤ N → N ≤ 2 ^ 31 → N + 2 * W ≤ 2 ^ 32 →
      ((prefix_sum_elems_ceil W N).1 < N ↔
        ((prefix_sum_elems_ceil W N).2 > 1 ∧ N = 2 * (prefix_sum_elems_ceil W N).2 * W + 1)) ∧
      N - 1 ≤ (prefix_sum_elems_ceil W N).1) := by
  refine ⟨by decide, by decide, ?_⟩
  intro W N hW h1 h31 hfit
  by_cases hg : (prefix_sum_elems_ceil W N).2 > 1
  · have hhalf := half_le_work_groups_mul W N (by omega) hW
    rw [elems_ceil_multi W N hfit hW hg]
    generalize (prefix_sum_elems_ceil W N).2 = g at *
    have e : 2 * g * W = 2 * (g * W) := by ring
    rw [e]
    generalize g * W = q at *
    refine ⟨⟨fun h => ⟨hg, by omega⟩, fun h => by omega⟩, by omega⟩
  · rw [elems_ceil_single W N (by omega)]
    have hge := next_pot_ge N h1 h31
    exact ⟨⟨fun h => by omega, fun h => absurd h.1 hg⟩, by omega⟩
/-! ## Padding a padded count again -/

theorem next_pot_pow (k : Nat) (hk1 : 1 ≤ k) (hk : k ≤ 31) : next_pot (2 ^ k) = 2 ^ k := by
  have h1 : 2 ^ 1 ≤ 2 ^ k := Nat.pow_le_pow_right (by norm_num) hk1
  have h2 : 2 ^ k ≤ 2 ^ 31 := Nat.pow_le_pow_right (by norm_num) hk
  exact Nat.le_antisymm (next_pot_least (2 ^ k) k (by omega) h2 (Nat.le_refl _))
    (next_pot_ge (2 ^ k) (by omega) h2)

theorem elems_ceil_multi_raw (W N : Nat) (hg : (prefix_sum_elems_ceil W N).2 > 1) :
    (prefix_sum_elems_ceil W N).1 = size_mul (size_mul 2 (prefix_sum_elems_ceil W N).2) W := by
  show (if (prefix_sum_elems_ceil W N).2 > 1
    then size_mul (size_mul 2 (prefix_sum_elems_ceil W N).2) W else next_pot N) = _
  rw [if_pos hg]

/-- An element count of `q` full blocks gives the block count `q`. -/
theorem work_groups_of_blocks (W q : Nat) (hW : 1 ≤ W) (hq : q * W + W < 2 ^ 32) :
    (prefix_sum_elems_ceil W (2 * (q * W))).2 = q := by
  have hhalf : 2 * (q * W) / 2 = q * W := Nat.mul_div_cancel_left _ (by norm_num)
  rw [work_groups_eq W (2 * (q * W)) (by rw [hhalf]; exact hq) hW, hhalf]
  apply Nat.div_eq_of_lt_le
  · omega
  · rw [Nat.add_mul, Nat.one_mul]
    omega

/-- On the multi-block path padding is idempotent for every work-group size. -/
theorem idempotent_multi (W N : Nat) (hN : N < 2 ^ 32)
    (hg : (prefix_sum_elems_ceil W N).2 > 1)
    (hfit : 2 * ((prefix_sum_elems_ceil W N).2 * W) < 2 ^ 32) :
    (prefix_sum_elems_ceil W (prefix_sum_elems_ceil W N).1).1 = (prefix_sum_elems_ceil W N).1 := by
  obtain ⟨hW, hwrap⟩ := no_wrap_of_multi W N hN hg
  have hpad := elems_ceil_multi_raw W N hg
  have hle := work_groups_le W N hN
  have h2W : 2 * W ≤ (prefix_sum_elems_ceil W N).2 * W := Nat.mul_le_mul_right W hg
  have hgle : (prefix_sum_elems_ceil W N).2 ≤ (prefix_sum_elems_ceil W N).2 * W :=
    Nat.le_mul_of_pos_right _ hW
  have hval : (prefix_sum_elems_ceil W N).1 = 2 * ((prefix_sum_elems_ceil W N).2 * W) := by
    rw [hpad]
    unfold size_mul
    rw [Nat.mod_eq_of_lt (by omega : 2 * (prefix_sum_elems_ceil W N).2 < 2 ^ 32),
      Nat.mul_assoc, Nat.mod_eq_of_lt hfit]
  have hg2 := work_groups_of_blocks W (prefix_sum_elems_ceil W N).2 hW (by omega)
  rw [← hval] at hg2
  rw [elems_ceil_multi_raw W _ (by rw [hg2]; exact hg), hg2, ← hpad]

/-- C23, as stated, fails: with the maximum work-group size `W = 3`, five elements
are padded to 8 and 8 elements are padded to 12; with `W = 32000` the 64000
bins of ndt.c are padded to 65536 and 65536 to 128000. -/
theorem C23_counterexample :
    (prefix_sum_elems_ceil 3 5).1 = 8 ∧
    (prefix_sum_elems_ceil 3 (prefix_sum_elems_ceil 3 5).1).1 = 12 ∧
    (prefix_sum_elems_ceil 32000 (ndt_bins_dim * ndt_bins_dim * ndt_bins_dim)).1 = 65536 ∧
    (prefix_sum_elems_ceil 32000
      (prefix_sum_elems_ceil 32000 (ndt_bins_dim * ndt_bins_dim * ndt_bins_dim)).1).1
        = 128000 := by
  decide

/-- C23, amended: for every maximum work-group size that is a power of two,
`W = 2 ^ w`, and every element count `N ≥ 1` with `N + 2 * W` in the range of
`size_t`, padding the padded count again gives the padded count:
`prefix_sum_elems_ceil(prefix_sum_elems_ceil(N)) = prefix_sum_elems_ceil(N)`. -/
theorem C23_idempotent_for_power_of_two (w N : Nat) (h1 : 1 ≤ N)
    (hfit : N + 2 * 2 ^ w ≤ 2 ^ 32) :
    (prefix_sum_elems_ceil (2 ^ w) (prefix_sum_elems_ceil (2 ^ w) N).1).1
      = (prefix_sum_elems_ceil (2 ^ w) N).1 := by
  have hW1 : 1 ≤ 2 ^ w := Nat.one_le_two_pow
  have hN : N < 2 ^ 32 := by omega
  by_cases hg : (prefix_sum_elems_ceil (2 ^ w) N).2 > 1
  · have hmul := work_groups_mul_le (2 ^ w) N (by omega) hW1
    exact idempotent_multi (2 ^ w) N hN hg (by omega)
  · have hsingle := elems_ceil_single (2 ^ w) N (by omega)
    have hgeq := work_groups_eq (2 ^ w) N (by omega) hW1
    have hhalf : N / 2 ≤ 2 ^ w := by
      have hlt2 : (N / 2 + 2 ^ w - 1) / 2 ^ w < 2 := by omega
      have := (Nat.div_lt_iff_lt_mul hW1).1 hlt2
      omega
    have h31 : N ≤ 2 ^ 31 := by omega
    have hone : ∀ k, 1 ≤ k → k ≤ w + 1 → k ≤ 31 →
        (prefix_sum_elems_ceil (2 ^ w) (2 ^ k)).1 = 2 ^ k := by
      -- a padded count that fits one block
      intro k hk1 hkw hk31
      have hp : 2 ^ k ≤ 2 ^ (w + 1) := Nat.pow_le_pow_right (by norm_num) hkw
      rw [pow_succ] at hp
      have hk2 : 2 ^ k ≤ 2 ^ 31 := Nat.pow_le_pow_right (by norm_num) hk31
      have hg2 : (prefix_sum_elems_ceil (2 ^ w) (2 ^ k)).2 ≤ 1 := by
        rw [work_groups_eq (2 ^ w) (2 ^ k) (by omega) hW1]
        have : (2 ^ k / 2 + 2 ^ w - 1) / 2 ^ w < 2 :=
          (Nat.div_lt_iff_lt_mul hW1).2 (by omega)
        omega
      rw [elems_ceil_single (2 ^ w) (2 ^ k) hg2, next_pot_pow k hk1 hk31]
    rcases Nat.lt_or_ge N 2 with hlt | h2
    · -- one element: the padded count is 2
      have hN1 : N = 1 := by omega
      subst hN1
      rw [hsingle, next_pot_one]
      exact hone 1 (by omega) (by omega) (by omega)
    · obtain ⟨k, hk31, hk, hNk, hmin⟩ := next_pot_spec N h2 h31
      have hk1 : 1 ≤ k := by
        rcases Nat.eq_zero_or_pos k with h0 | hpos
        · subst h0
          simp at hNk
          omega
        · exact hpos
      rw [hsingle, hk]
      by_cases hkw : k ≤ w + 1
      · exact hone k hk1 hkw hk31
      · -- `N = 2 * W + 1`: the padded count is `4 * W`, two blocks
        have hk1 : w + 1 ≤ k - 1 := by omega
        have hp : 2 ^ (w + 1) ≤ 2 ^ (k - 1) := Nat.pow_le_pow_right (by norm_num) hk1
        rw [pow_succ] at hp
        have hNeq : 2 ^ (k - 1) < N := by
          rcases hmin with h | h
          · omega
          · exact h
        have hle2 : 2 ^ (k - 1) ≤ 2 ^ (w + 1) := by
          rw [pow_succ]
          omega
        have hkle : k - 1 ≤ w + 1 := (Nat.pow_le_pow_iff_right (by norm_num)).1 hle2
        have hkeq : k = w + 2 := by omega
        subst hkeq
        have h4 : 2 ^ (w + 2) = 2 * (2 * 2 ^ w) := by
          rw [pow_succ, pow_succ]
          ring
        have h29 : 2 ^ (w + 2) ≤ 2 ^ 31 := Nat.pow_le_pow_right (by norm_num) hk31
        have hg2 := work_groups_of_blocks (2 ^ w) 2 hW1 (by omega)
        rw [← h4] at hg2
        rw [elems_ceil_multi_raw (2 ^ w) _ (by rw [hg2]; decide), hg2]
        unfold size_mul
        rw [h4]
        omega

/-- C23 (amended) at `W = 2 ^ 8 = 256`, `N = 513`: the padded count 1024 is padded
to 1024. -/
theorem C23_idempotent_for_power_of_two_witness :
    1 ≤ 513 ∧ 513 + 2 * 2 ^ 8 ≤ 2 ^ 32 ∧ (prefix_sum_elems_ceil (2 ^ 8) 513).1 = 1024 ∧
    (prefix_sum_elems_ceil (2 ^ 8) (prefix_sum_elems_ceil (2 ^ 8) 513).1).1
      = (prefix_sum_elems_ceil (2 ^ 8) 513).1 :=
  ⟨by decide, by decide, by decide,
   C23_idempotent_for_power_of_two 8 513 (by decide) (by decide)⟩
/-! ## The work-group size of the block scan -/

/-- For a power-of-two work-group size `W` the element count `2 * W + 1` is
scanned as one block, padded to `4 * W` elements. -/
theorem elems_ceil_two_blocks_plus_one (w : Nat) (hw : w ≤ 29) :
    prefix_sum_elems_ceil (2 ^ w) (2 * 2 ^ w + 1) = (4 * 2 ^ w, 1) := by
  have hW1 : 1 ≤ 2 ^ w := Nat.one_le_two_pow
  have hW29 : 2 ^ w ≤ 2 ^ 29 := Nat.pow_le_pow_right (by norm_num) hw
  have hg : (prefix_sum_elems_ceil (2 ^ w) (2 * 2 ^ w + 1)).2 = 1 := by
    rw [work_groups_eq (2 ^ w) (2 * 2 ^ w + 1) (by omega) hW1]
    apply Nat.div_eq_of_lt_le <;> omega
  have h4 : 2 ^ (w + 2) = 4 * 2 ^ w := by
    rw [pow_succ, pow_succ]
    ring
  have h2 : 2 ^ (w + 1) = 2 * 2 ^ w := by
    rw [pow_succ]
    ring
  obtain ⟨k, hk31, hk, hNk, -⟩ := next_pot_spec (2 * 2 ^ w + 1) (by omega) (by omega)
  have hle := next_pot_least (2 * 2 ^ w + 1) (w + 2) (by omega) (by omega) (by omega)
  have hkw : w + 2 ≤ k := by
    by_contra hcon
    have := Nat.pow_le_pow_right (by norm_num : 2 > 0) (by omega : k ≤ w + 1)
    omega
  have hge : 2 ^ (w + 2) ≤ 2 ^ k := Nat.pow_le_pow_right (by norm_num) hkw
  refine Prod.ext ?_ hg
  rw [elems_ceil_single _ _ (by omega)]
  show next_pot (2 * 2 ^ w + 1) = 4 * 2 ^ w
  omega

/-- C24 (the code at the failing input): with `W = 256` and `N = 513` the capacity
check passes with one block, the padded count is 1024, and the block scan is
dispatched with the global size 512 and the work-group size 512, twice the
maximum work-group size of the device; a runtime that checks the sizes
rejects the dispatch.  On the single-block path the work-group size is always
half the padded count, and for every power-of-two `W` the element count
`2 * W + 1` gives the work-group size `2 * W`. -/
theorem C24_block_scan_exceeds_device_limit :
    prefix_sum_elems_ceil 256 513 = (1024, 1) ∧
    ¬ ((prefix_sum_elems_ceil 256 513).2 > 1 ∧
        next_pot (prefix_sum_elems_ceil 256 513).2 > 256) ∧
    Call.enqueue Site.block_scan Kernel.prefix_sum
        [cl_mem.obj Buffer.data, cl_mem.obj Buffer.scan_out, cl_mem.null] 512 (some 512) true
      ∈ (prefix_sum (Device.all_ok 256) (cl_mem.obj Buffer.data) 513 false).calls ∧
    Call.enqueue Site.block_scan Kernel.prefix_sum
        [cl_mem.obj Buffer.data, cl_mem.obj Buffer.scan_out, cl_mem.null] 512 (some 512) false
      ∈ (prefix_sum (Device.checking 256) (cl_mem.obj Buffer.data) 513 false).calls ∧
    (∀ (dev : Device) (inp : cl_mem) (N : Nat) (time : Bool) k args glob loc ok,
      Call.enqueue Site.block_scan k args glob loc ok ∈ (prefix_sum dev inp N time).calls →
      (prefix_sum_elems_ceil dev.max_workgroup_size N).2 ≤ 1 →
      glob = (prefix_sum_elems_ceil dev.max_workgroup_size N).1 / 2 ∧
      loc = some ((prefix_sum_elems_ceil dev.max_workgroup_size N).1 / 2)) ∧
    (∀ w, w ≤ 29 →
      prefix_sum_elems_ceil (2 ^ w) (2 * 2 ^ w + 1) = (4 * 2 ^ w, 1) ∧
      2 ^ w < (prefix_sum_elems_ceil (2 ^ w) (2 * 2 ^ w + 1)).1 / 2) := by
  refine ⟨by decide, by decide, by decide, by decide, ?_, ?_⟩
  · intro dev inp N time k args glob loc ok h hg
    obtain ⟨-, h1 | h1 | h1⟩ := enqueue_mem_prefix_sum dev inp N time _ _ _ _ _ _ h
    · obtain ⟨-, hglob, hloc⟩ := h1
      rw [if_neg (by omega)] at hloc
      exact ⟨hglob, hloc⟩
    · exact absurd h1.1 (by decide)
    · exact absurd h1.1 (by decide)
  · intro w hw
    have h := elems_ceil_two_blocks_plus_one w hw
    refine ⟨h, ?_⟩
    rw [h]
    have hW1 : 1 ≤ 2 ^ w := Nat.one_le_two_pow
    show 2 ^ w < 4 * 2 ^ w / 2
    omega
/-! ## The exact capacity of the two-level scan -/

/-- Against a power of two, `next_pot g` compares as `g` does. -/
theorem next_pot_le_pow_iff (g w : Nat) (h1 : 2 ≤ g) (h2 : g ≤ 2 ^ 31) :
    next_pot g ≤ 2 ^ w ↔ g ≤ 2 ^ w :=
  ⟨fun h => Nat.le_trans (next_pot_ge g (by omega) h2) h, fun h => next_pot_least g w h1 h2 h⟩

/-- The capacity check for a power-of-two work-group size, as a bound on the
element count. -/
theorem capacity_pow2 (w N : Nat) (hw : w ≤ 31) (hN : N < 2 ^ 32) :
    ¬ ((prefix_sum_elems_ceil (2 ^ w) N).2 > 1 ∧
        next_pot (prefix_sum_elems_ceil (2 ^ w) N).2 > 2 ^ w) ↔
      N ≤ 2 * (2 ^ w) ^ 2 + 1 := by
  have hW1 : 1 ≤ 2 ^ w := Nat.one_le_two_pow
  have hW31 : 2 ^ w ≤ 2 ^ 31 := Nat.pow_le_pow_right (by norm_num) hw
  have hle := work_groups_le (2 ^ w) N hN
  have hgeq := work_groups_eq (2 ^ w) N (by omega) hW1
  have hsq : (2 ^ w) ^ 2 = 2 ^ w * 2 ^ w := by ring
  have hiff : (prefix_sum_elems_ceil (2 ^ w) N).2 ≤ 2 ^ w ↔ N ≤ 2 * (2 ^ w) ^ 2 + 1 := by
    rw [hgeq, ← Nat.lt_succ_iff, Nat.div_lt_iff_lt_mul hW1, Nat.succ_eq_add_one, Nat.add_mul,
      Nat.one_mul, hsq]
    generalize 2 ^ w * 2 ^ w = q
    omega
  rw [← hiff]
  by_cases hg : (prefix_sum_elems_ceil (2 ^ w) N).2 > 1
  · have hnp := next_pot_le_pow_iff (prefix_sum_elems_ceil (2 ^ w) N).2 w (by omega) hle
    constructor
    · intro h
      exact hnp.1 (by
        by_contra hcon
        exact h ⟨hg, by omega⟩)
    · intro h hcon
      have := hnp.2 h
      omega
  · constructor
    · intro _
      omega
    · intro _ hcon
      exact hg hcon.1

/-- C25: for every maximum work-group size that is a power of two, `W = 2 ^ w`
in the range of `size_t`, and every element count `N ≥ 1` in the range of
`size_t`, the capacity check of `prefix_sum` passes if and only if
`N ≤ 2 * W ^ 2 + 1`: once the scan kernel exists, the run prints "Data size
prefix sum exceeds limits" exactly for the larger `N`. -/
theorem C25_exact_capacity (dev : Device) (inp : cl_mem) (w N : Nat) (time : Bool)
    (hdev : dev.max_workgroup_size = 2 ^ w) (hw : w ≤ 31) (_h1 : 1 ≤ N) (hN : N < 2 ^ 32) :
    (¬ ((prefix_sum_elems_ceil dev.max_workgroup_size N).2 > 1 ∧
        next_pot (prefix_sum_elems_ceil dev.max_workgroup_size N).2 > dev.max_workgroup_size) ↔
      N ≤ 2 * dev.max_workgroup_size ^ 2 + 1) ∧
    (dev.create_kernel Kernel.prefix_sum = true →
      (Call.print Msg.exceeds_limits ∉ (prefix_sum dev inp N time).calls ↔
        N ≤ 2 * dev.max_workgroup_size ^ 2 + 1)) := by
  have hcap : ¬ ((prefix_sum_elems_ceil dev.max_workgroup_size N).2 > 1 ∧
        next_pot (prefix_sum_elems_ceil dev.max_workgroup_size N).2 > dev.max_workgroup_size) ↔
      N ≤ 2 * dev.max_workgroup_size ^ 2 + 1 := by
    rw [hdev]
    exact capacity_pow2 w N hw hN
  refine ⟨hcap, fun hk => ?_⟩
  rw [← hcap]
  constructor
  · intro h hcon
    apply h
    rw [prefix_sum_exceeds dev inp N time hk hcon.1 hcon.2]
    simp
  · intro h hmem
    exact h (exceeds_mem_only_if dev inp N time hmem)

/-- C25 at `W = 2 ^ 1 = 2`: `N = 9 = 2 * 2 ^ 2 + 1` passes the capacity check and
`N = 10` does not. -/
theorem C25_exact_capacity_witness :
    (Device.all_ok 2).max_workgroup_size = 2 ^ 1 ∧ 1 ≤ 31 ∧ 1 ≤ 9 ∧ 9 < 2 ^ 32 ∧
    Call.print Msg.exceeds_limits ∉
      (prefix_sum (Device.all_ok 2) (cl_mem.obj Buffer.data) 9 false).calls ∧
    Call.print Msg.exceeds_limits ∈
      (prefix_sum (Device.all_ok 2) (cl_mem.obj Buffer.data) 10 false).calls :=
  ⟨rfl, by decide, by decide, by decide,
   ((C25_exact_capacity (Device.all_ok 2) (cl_mem.obj Buffer.data) 1 9 false rfl (by decide)
      (by decide) (by decide)).2 rfl).2 (by decide),
   by decide⟩
/-! ## The capacity needed by the neighbour-search grid -/

/-- The grid of frnn.c has 1,000,000 bins. -/
theorem frnn_bins : frnn_bins_dim * frnn_bins_dim * frnn_bins_dim = 1000000 := by decide

/-- A power of two above 512 is above 976. -/
theorem next_pot_gt_of_ge_513 (g : Nat) (h1 : 513 ≤ g) (h2 : g ≤ 2 ^ 31) : 976 < next_pot g := by
  obtain ⟨k, -, hk, hgk, -⟩ := next_pot_spec g (by omega) h2
  rw [hk]
  by_contra hcon
  have hk9 : k ≤ 9 := by
    by_contra h10
    have := Nat.pow_le_pow_right (by norm_num : 2 > 0) (by omega : 10 ≤ k)
    omega
  have := Nat.pow_le_pow_right (by norm_num : 2 > 0) hk9
  omega

/-- The capacity check on 1,000,000 elements passes exactly from `W = 977` on. -/
theorem grid_capacity (W : Nat) (hW1 : 1 ≤ W) (hW32 : W < 2 ^ 32) :
    ¬ ((prefix_sum_elems_ceil W 1000000).2 > 1 ∧
        next_pot (prefix_sum_elems_ceil W 1000000).2 > W) ↔ 977 ≤ W := by
  have hle := work_groups_le W 1000000 (by norm_num)
  constructor
  · intro h
    by_contra hcon
    have hgeq := work_groups_eq W 1000000 (by omega) hW1
    have hg : 513 ≤ (prefix_sum_elems_ceil W 1000000).2 := by
      rw [hgeq, Nat.le_div_iff_mul_le hW1]
      omega
    have := next_pot_gt_of_ge_513 _ hg hle
    exact h ⟨by omega, by omega⟩
  · rintro h ⟨hg, hc⟩
    obtain ⟨-, hwrap⟩ := no_wrap_of_multi W 1000000 (by norm_num) hg
    have hgeq := work_groups_eq W 1000000 hwrap hW1
    have hg512 : (prefix_sum_elems_ceil W 1000000).2 < 513 := by
      rw [hgeq, Nat.div_lt_iff_lt_mul hW1]
      omega
    have := next_pot_least (prefix_sum_elems_ceil W 1000000).2 9 (by omega) hle (by omega)
    omega

/-- The same for the padded bin count, the element count that `frnn_sort` hands
to `prefix_sum`. -/
theorem grid_capacity_padded (W : Nat) (hW1 : 1 ≤ W) (hW32 : W < 2 ^ 32) :
    ¬ ((prefix_sum_elems_ceil W (prefix_sum_elems_ceil W 1000000).1).2 > 1 ∧
        next_pot (prefix_sum_elems_ceil W (prefix_sum_elems_ceil W 1000000).1).2 > W) ↔
      977 ≤ W := by
  by_cases hg : (prefix_sum_elems_ceil W 1000000).2 > 1
  · -- several blocks: the padded count has the same block count
    obtain ⟨-, hwrap⟩ := no_wrap_of_multi W 1000000 (by norm_num) hg
    have hmul := work_groups_mul_le W 1000000 hwrap hW1
    have h2W : 2 * W ≤ (prefix_sum_elems_ceil W 1000000).2 * W := Nat.mul_le_mul_right W hg
    have hpad := elems_ceil_multi W 1000000 (by omega) hW1 hg
    have hg2 := work_groups_of_blocks W (prefix_sum_elems_ceil W 1000000).2 hW1 (by omega)
    rw [hpad, Nat.mul_assoc, hg2]
    exact grid_capacity W hW1 hW32
  · -- one block: `W ≥ 500000`, the padded count is `2 ^ 20`, at most two blocks
    have hbig : 500000 ≤ W := by
      by_contra hcon
      have hgeq := work_groups_eq W 1000000 (by omega) hW1
      have : 2 ≤ (prefix_sum_elems_ceil W 1000000).2 := by
        rw [hgeq, Nat.le_div_iff_mul_le hW1]
        omega
      omega
    have hpad : (prefix_sum_elems_ceil W 1000000).1 = 1048576 := by
      rw [elems_ceil_single W 1000000 (by omega)]
      decide
    rw [hpad]
    constructor
    · intro _
      omega
    · rintro - ⟨hg2, hc⟩
      obtain ⟨-, hwrap⟩ := no_wrap_of_multi W 1048576 (by norm_num) hg2
      have hgeq := work_groups_eq W 1048576 hwrap hW1
      have hle := work_groups_le W 1048576 (by norm_num)
      have hg3 : (prefix_sum_elems_ceil W 1048576).2 < 3 := by
        rw [hgeq, Nat.div_lt_iff_lt_mul hW1]
        omega
      have := next_pot_least (prefix_sum_elems_ceil W 1048576).2 1 (by omega) hle (by omega)
      omega

/-- C26: for the grid of frnn.c (`D = 100`, 1,000,000 bins) and every maximum
work-group size `W ≥ 1` in the range of `size_t`, the capacity check passes
if and only if `W ≥ 977`, both for 1,000,000 elements and for the padded bin
count that `frnn_sort` hands to `prefix_sum`; once the scan kernel exists,
that scan prints "Data size prefix sum exceeds limits" exactly when
`W < 977`.  For `W = 1024` the padded count is 1,001,472 with 489 blocks and
a carry buffer of 512 entries; for `W = 256` and `W = 512` the scan of the
bin counts is rejected. -/
theorem C26_grid_capacity (dev : Device) (inp : cl_mem) (time : Bool)
    (hW1 : 1 ≤ dev.max_workgroup_size) (hW32 : dev.max_workgroup_size < 2 ^ 32) :
    (¬ ((prefix_sum_elems_ceil dev.max_workgroup_size
          (frnn_bins_dim * frnn_bins_dim * frnn_bins_dim)).2 > 1 ∧
        next_pot (prefix_sum_elems_ceil dev.max_workgroup_size
          (frnn_bins_dim * frnn_bins_dim * frnn_bins_dim)).2 > dev.max_workgroup_size) ↔
      977 ≤ dev.max_workgroup_size) ∧
    (dev.create_kernel Kernel.prefix_sum = true →
      (Call.print Msg.exceeds_limits ∉
          (prefix_sum dev inp (prefix_sum_elems_ceil dev.max_workgroup_size
            (frnn_bins_dim * frnn_bins_dim * frnn_bins_dim)).1 time).calls ↔
        977 ≤ dev.max_workgroup_size)) ∧
    prefix_sum_elems_ceil 1024 (frnn_bins_dim * frnn_bins_dim * frnn_bins_dim)
      = (1001472, 489) ∧
    next_pot 489 = 512 ∧
    Call.create_buffer Buffer.scan_incr (sizeof_uint * 512) true ∈
      (frnn_sort (Device.all_ok 1024) 5 (cl_mem.obj Buffer.data)).calls ∧
    Call.print Msg.exceeds_limits ∈
      (frnn_sort (Device.all_ok 256) 5 (cl_mem.obj Buffer.data)).calls ∧
    Call.print Msg.exceeds_limits ∈
      (frnn_sort (Device.all_ok 512) 5 (cl_mem.obj Buffer.data)).calls := by
  refine ⟨?_, fun hk => ?_, by decide, by decide, by decide, by decide, by decide⟩
  · rw [frnn_bins]
    exact grid_capacity _ hW1 hW32
  · rw [frnn_bins, ← grid_capacity_padded _ hW1 hW32]
    constructor
    · intro h hcon
      apply h
      rw [prefix_sum_exceeds dev inp _ time hk hcon.1 hcon.2]
      simp
    · intro h hmem
      exact h (exceeds_mem_only_if dev inp _ time hmem)

/-- C26 at `W = 1024` and at `W = 976`: with 1024 the scan of the padded bin
count passes the capacity check, with 976 it is rejected. -/
theorem C26_grid_capacity_witness :
    1 ≤ (Device.all_ok 1024).max_workgroup_size ∧
    (Device.all_ok 1024).max_workgroup_size < 2 ^ 32 ∧
    Call.print Msg.exceeds_limits ∉
      (prefix_sum (Device.all_ok 1024) (cl_mem.obj Buffer.bin_elems)
        (prefix_sum_elems_ceil (Device.all_ok 1024).max_workgroup_size
          (frnn_bins_dim * frnn_bins_dim * frnn_bins_dim)).1 true).calls ∧
    ¬ 977 ≤ (Device.all_ok 976).max_workgroup_size :=
  ⟨by decide, by decide,
   ((C26_grid_capacity (Device.all_ok 1024) (cl_mem.obj Buffer.bin_elems) true (by decide)
      (by decide)).2.1 rfl).2 (by decide),
   by decide⟩

end CLaxon
